import Mathlib

/-!
# Calico CNI plugin for Kubernetes: attach / detach orchestration

A shallow embedding of `cni-plugin/k8s/k8s.go` (`CmdAddK8s`, `CmdDelK8s`,
`ipAddrsResult`, `callIPAMWithIP`, `overrideIPAMResult`, `parseIPAddrs`, ...).

Conventions of the embedding

* A Go `error` value is a `GoError`: its dynamic type (what a type assertion or
  type switch inspects) together with the text returned by `Error()`.  The Go
  value `nil` of type `error` is `none : Option GoError`.
* Calls that leave the function (datastore client, IPAM plugin, Kubernetes
  client, process environment, helpers of package `utils`) are answered by an
  environment record of functions over an arbitrary world state `σ`; the world
  state is threaded through the calls in program order, and every call is
  appended, with its arguments and its answer, to a trace of events.
* Logging (`logger.*`, `fmt.Fprintf(os.Stderr, ...)`) has no effect on control
  flow or on the values computed and is left out, with two exceptions:
  `logger.Fatal` terminates the process, and the `logger.Infof` line that opens
  `ipAddrsResult` and `overrideIPAMResult` is kept as an event, so that a trace
  shows whether these functions were entered.
* Go standard library and CNI library functions whose sources are not part of
  the repository (`json.Unmarshal`, `net.ParseIP`, `ip.String()`,
  `types.LoadArgs`, `current.NewResultFromResult`, ...) are fields of the
  environment record: the theorems hold for every behaviour of them.
-/

namespace Calico

/-! ## Go values -/

/-- Dynamic type of a Go error value, as far as the code distinguishes it. -/
inductive ErrorType where
  /-- The value type `cerrors.ErrorResourceDoesNotExist`. -/
  | ErrorResourceDoesNotExist
  /-- The value type `cerrors.ErrorResourceUpdateConflict`. -/
  | ErrorResourceUpdateConflict
  /-- The type `*errors.errorString` built by `errors.New` and `fmt.Errorf`. -/
  | errorString
  /-- Any other dynamic type, identified by its name. -/
  | other (name : String)
  deriving DecidableEq, Repr

/-- A non-nil Go `error`: dynamic type and the text of `Error()`. -/
structure GoError where
  dynType : ErrorType
  text : String
  deriving DecidableEq, Repr

/-- Equality of Go `(value, error)` results is decidable. -/
instance instDecidableEqExcept {ε α : Type} [DecidableEq ε] [DecidableEq α] :
    DecidableEq (Except ε α)
  | Except.ok a, Except.ok b =>
    if h : a = b then isTrue (by rw [h]) else isFalse (fun h2 => h (Except.ok.inj h2))
  | Except.error a, Except.error b =>
    if h : a = b then isTrue (by rw [h]) else isFalse (fun h2 => h (Except.error.inj h2))
  | Except.ok _, Except.error _ => isFalse (fun h => Except.noConfusion h)
  | Except.error _, Except.ok _ => isFalse (fun h => Except.noConfusion h)

/-- The error built by `errors.New(text)` or by `fmt.Errorf` once formatted. -/
def errorsNew (text : String) : GoError := ⟨ErrorType.errorString, text⟩

/-- A Go `map[string]string`, as an association list; the first binding of a key counts. -/
abbrev StringMap := List (String × String)

/-- Go map indexing `m[key]` on a `map[string]string`: the zero value `""` when the key is absent. -/
def StringMap.get (m : StringMap) (key : String) : String :=
  match m.find? (fun kv => kv.1 == key) with
  | some kv => kv.2
  | none => ""

/-- Go map assignment `m[key] = value`. -/
def StringMap.set (m : StringMap) (key value : String) : StringMap :=
  (key, value) :: m.filter (fun kv => kv.1 != key)

/-- A `net.IP`: a byte slice (4 or 16 bytes for a valid address). -/
abbrev IP := List Nat

/-- A `net.IPMask`. -/
abbrev IPMask := List Nat

/-- The struct `net.IPNet`. -/
structure IPNet where
  IP : IP
  Mask : IPMask
  deriving DecidableEq, Repr

/-! ## Data model -/

/-- The fields of `api.WorkloadEndpointMetadata` that the plugin reads or writes. -/
structure WorkloadEndpointMetadata where
  Name : String := ""
  Workload : String := ""
  Orchestrator : String := ""
  Node : String := ""
  ActiveInstanceID : String := ""
  Labels : StringMap := []
  deriving DecidableEq, Repr

/-- The fields of `api.WorkloadEndpointSpec` that the plugin reads or writes. -/
structure WorkloadEndpointSpec where
  IPNetworks : List IPNet := []
  Profiles : List String := []
  InterfaceName : String := ""
  /-- The field `MAC *cnet.MAC`; `none` is the nil pointer. -/
  MAC : Option (List Nat) := none
  deriving DecidableEq, Repr

/-- The resource `api.WorkloadEndpoint`. -/
structure WorkloadEndpoint where
  Metadata : WorkloadEndpointMetadata := {}
  Spec : WorkloadEndpointSpec := {}
  deriving DecidableEq, Repr

/-- The struct `skel.CmdArgs`. -/
structure CmdArgs where
  ContainerID : String := ""
  Netns : String := ""
  IfName : String := ""
  Args : String := ""
  Path : String := ""
  StdinData : String := ""
  deriving DecidableEq, Repr

/-- The `ipam` section of `utils.NetConf`. -/
structure NetConfIPAM where
  /-- The field `Type` (a reserved word here). -/
  Type' : String := ""
  Subnet : String := ""
  deriving DecidableEq, Repr

/-- The struct `utils.Policy`. -/
structure Policy where
  PolicyType : String := ""
  K8sAPIRoot : String := ""
  K8sAuthToken : String := ""
  K8sClientCertificate : String := ""
  K8sClientKey : String := ""
  K8sCertificateAuthority : String := ""
  deriving DecidableEq, Repr

/-- The struct `utils.Kubernetes`. -/
structure Kubernetes where
  K8sAPIRoot : String := ""
  Kubeconfig : String := ""
  NodeName : String := ""
  deriving DecidableEq, Repr

/-- The fields of `utils.NetConf` that the plugin reads. -/
structure NetConf where
  Name : String := ""
  IPAM : NetConfIPAM := {}
  MTU : Int := 0
  LogLevel : String := ""
  Policy : Policy := {}
  Kubernetes : Kubernetes := {}
  deriving DecidableEq, Repr

/-! ## Detach: `CmdDelK8s` -/

/-- What `CmdDelK8s` calls outside itself, over a world state `σ`. -/
structure DelEnv (σ : Type) where
  /-- The call `c.WorkloadEndpoints().Get(ep)`. -/
  Get : WorkloadEndpointMetadata → σ → Except GoError WorkloadEndpoint × σ
  /-- The call `c.WorkloadEndpoints().Delete(metadata)`, a compare-and-delete. -/
  Delete : WorkloadEndpointMetadata → σ → Option GoError × σ
  /-- The call `utils.CleanUpIPAM(conf, args, logger)`: the IPAM release. -/
  CleanUpIPAM : NetConf → CmdArgs → σ → Option GoError × σ
  /-- The call `utils.CleanUpNamespace(args, logger)`: the namespace teardown. -/
  CleanUpNamespace : CmdArgs → σ → Option GoError × σ

/-- One call made by `CmdDelK8s`, with its arguments and its answer. -/
inductive DelEvent where
  | Get (ep : WorkloadEndpointMetadata) (answer : Except GoError WorkloadEndpoint)
  | Delete (metadata : WorkloadEndpointMetadata) (answer : Option GoError)
  | CleanUpIPAM (conf : NetConf) (args : CmdArgs) (answer : Option GoError)
  | CleanUpNamespace (args : CmdArgs) (answer : Option GoError)
  deriving DecidableEq, Repr

/-- Whether the event is a datastore `Delete`. -/
def DelEvent.isDelete : DelEvent → Bool
  | DelEvent.Delete _ _ => true
  | _ => false

/-- Whether the event is the IPAM release. -/
def DelEvent.isCleanUpIPAM : DelEvent → Bool
  | DelEvent.CleanUpIPAM _ _ _ => true
  | _ => false

/-- Whether the event is the namespace teardown. -/
def DelEvent.isCleanUpNamespace : DelEvent → Bool
  | DelEvent.CleanUpNamespace _ _ => true
  | _ => false

/-- What a run of `CmdDelK8s` leaves: the returned `error`, the world, the calls made. -/
structure DelOutcome (σ : Type) where
  err : Option GoError
  world : σ
  trace : List DelEvent

/-- The tail of `CmdDelK8s` (k8s.go lines 346-357): release the addresses, tear the
namespace down, and return the teardown error if any, the release error otherwise.
`trace` holds the calls made before this point. -/
def CmdDelK8s.cleanUp {σ : Type} (c : DelEnv σ) (args : CmdArgs) (conf : NetConf)
    (s : σ) (trace : List DelEvent) : DelOutcome σ :=
  -- ipamErr := utils.CleanUpIPAM(conf, args, logger)
  let (ipamErr, s1) := c.CleanUpIPAM conf args s
  -- err = utils.CleanUpNamespace(args, logger)
  let (err, s2) := c.CleanUpNamespace args s1
  let trace2 := trace ++ [DelEvent.CleanUpIPAM conf args ipamErr, DelEvent.CleanUpNamespace args err]
  match err with
  | some e => ⟨some e, s2, trace2⟩
  | none => ⟨ipamErr, s2, trace2⟩

/-- The function `CmdDelK8s` (k8s.go lines 305-358). -/
def CmdDelK8s {σ : Type} (c : DelEnv σ) (ep : WorkloadEndpointMetadata) (args : CmdArgs)
    (conf : NetConf) (s : σ) : DelOutcome σ :=
  -- wep, err := c.WorkloadEndpoints().Get(ep)
  match c.Get ep s with
  | (Except.error err, s1) =>
    -- if _, ok := err.(cerrors.ErrorResourceDoesNotExist); ok
    if err.dynType = ErrorType.ErrorResourceDoesNotExist then
      CmdDelK8s.cleanUp c args conf s1 [DelEvent.Get ep (Except.error err)]
    else
      ⟨some err, s1, [DelEvent.Get ep (Except.error err)]⟩
  | (Except.ok wep, s1) =>
    if wep.Metadata.ActiveInstanceID ≠ "" ∧ args.ContainerID ≠ wep.Metadata.ActiveInstanceID then
      ⟨none, s1, [DelEvent.Get ep (Except.ok wep)]⟩
    else
      -- err = c.WorkloadEndpoints().Delete(wep.Metadata)
      match c.Delete wep.Metadata s1 with
      | (some err, s2) =>
        let trace := [DelEvent.Get ep (Except.ok wep), DelEvent.Delete wep.Metadata (some err)]
        match err.dynType with
        | ErrorType.ErrorResourceDoesNotExist => CmdDelK8s.cleanUp c args conf s2 trace
        | ErrorType.ErrorResourceUpdateConflict =>
          ⟨some (errorsNew ("Error deleting endpoint: endpoint was modified before it could be deleted: "
              ++ err.text)), s2, trace⟩
        | _ => ⟨some err, s2, trace⟩
      | (none, s2) =>
        CmdDelK8s.cleanUp c args conf s2
          [DelEvent.Get ep (Except.ok wep), DelEvent.Delete wep.Metadata none]

/-- Modelled from the spec: the datastore behind `c.WorkloadEndpoints()` (the client
library is not part of the sources), reduced to the one slot addressed by the key of
the detach call.  `get(key) -> record | not-found` and
`compareAndDelete(record) -> success | conflict | not-found` (spec section 6): a
`Get` answers the stored record or "resource does not exist"; a `Delete` removes the
record when it is the one last read, answers "update conflict" when the stored record
differs, and "resource does not exist" when the slot is empty.  The two cleanup steps
do not touch the slot; their answers are the parameters `ipam` and `teardown`. -/
def recordStore (ipam : NetConf → CmdArgs → Option GoError)
    (teardown : CmdArgs → Option GoError) : DelEnv (Option WorkloadEndpoint) where
  Get := fun _ slot =>
    match slot with
    | some r => (Except.ok r, slot)
    | none => (Except.error ⟨ErrorType.ErrorResourceDoesNotExist, "resource does not exist"⟩, slot)
  Delete := fun metadata slot =>
    match slot with
    | some r =>
      if r.Metadata = metadata then (none, none)
      else (some ⟨ErrorType.ErrorResourceUpdateConflict, "update conflict"⟩, slot)
    | none => (some ⟨ErrorType.ErrorResourceDoesNotExist, "resource does not exist"⟩, slot)
  CleanUpIPAM := fun conf args slot => (ipam conf args, slot)
  CleanUpNamespace := fun args slot => (teardown args, slot)

/-- An environment for `CmdDelK8s` whose four answers are fixed in advance (a datastore
that is unreachable, a delete that conflicts, a release that fails, ...); the world
state counts the calls made so far. -/
def fixedAnswers (get : Except GoError WorkloadEndpoint) (delete ipam teardown : Option GoError) :
    DelEnv Nat where
  Get := fun _ n => (get, n + 1)
  Delete := fun _ n => (delete, n + 1)
  CleanUpIPAM := fun _ _ n => (ipam, n + 1)
  CleanUpNamespace := fun _ n => (teardown, n + 1)

/-! ## Attach: values -/

/-- The fields of `current.IPConfig` that the plugin reads or writes. -/
structure IPConfig where
  Version : String := ""
  Address : IPNet := ⟨[], []⟩
  deriving DecidableEq, Repr

/-- The fields of `current.Result` that the plugin reads or writes. -/
structure Result where
  IPs : List IPConfig := []
  deriving DecidableEq, Repr

/-- A value of the interface type `types.Result`: either a `*current.Result` built by
the plugin itself, or the answer of an IPAM plugin, identified by its JSON text. -/
inductive TypesResult where
  | current (r : Result)
  | plugin (json : String)
  deriving DecidableEq, Repr

/-- The fields of `utils.K8sArgs` that the plugin reads. -/
structure K8sArgs where
  K8S_POD_NAME : String := ""
  K8S_POD_NAMESPACE : String := ""
  deriving DecidableEq, Repr

/-- The struct `clientcmd.ConfigOverrides`, as far as `newK8sClient` fills it. -/
structure ConfigOverrides where
  Server : String := ""
  ClientCertificate : String := ""
  ClientKey : String := ""
  CertificateAuthority : String := ""
  Token : String := ""
  deriving DecidableEq, Repr

/-- A `*rest.Config` answered by the client configuration loader, by a handle. -/
structure RestConfig where
  handle : String := ""
  deriving DecidableEq, Repr

/-- A `*kubernetes.Clientset`, by a handle. -/
structure Clientset where
  handle : String := ""
  deriving DecidableEq, Repr

/-- The fields of a Kubernetes pod that the plugin reads; `Labels = none` is the nil map. -/
structure Pod where
  Labels : Option StringMap := none
  Annotations : StringMap := []
  deriving DecidableEq, Repr

/-- The field of a Kubernetes node that the plugin reads: `node.Spec.PodCIDR`. -/
structure Node where
  PodCIDR : String := ""
  deriving DecidableEq, Repr

/-- A Go `interface{}` value held in the decoded network configuration. -/
inductive JSONValue where
  | string (s : String)
  /-- A Go `[]string` stored by the plugin. -/
  | strings (l : List String)
  /-- A `map[string]interface{}`. -/
  | object (fields : List (String × JSONValue))
  /-- Any other decoded value (number, boolean, null, array), by its JSON text. -/
  | other (json : String)

/-- A Go `map[string]interface{}`. -/
abbrev JSONObject := List (String × JSONValue)

/-- Go map indexing `m[key]` on a `map[string]interface{}`; `none` is the nil interface. -/
def JSONObject.get (m : JSONObject) (key : String) : Option JSONValue :=
  match m.find? (fun kv => kv.1 == key) with
  | some kv => some kv.2
  | none => none

/-- Go map assignment `m[key] = value` on a `map[string]interface{}`. -/
def JSONObject.set (m : JSONObject) (key : String) (value : JSONValue) : JSONObject :=
  (key, value) :: m.filter (fun kv => kv.1 != key)

/-- The statement `stdinData["ipam"].(map[string]interface{})[key] = value`: the map
under `"ipam"` is updated in place; `none` when the type assertion panics. -/
def setIpamField (stdinData : JSONObject) (key : String) (value : JSONValue) :
    Option JSONObject :=
  match stdinData.get "ipam" with
  | some (JSONValue.object m) => some (stdinData.set "ipam" (JSONValue.object (JSONObject.set m key value)))
  | _ => none

/-- The test `_, ok := stdinData["ipam"].(map[string]interface{})`. -/
def ipamIsMap (stdinData : JSONObject) : Bool :=
  match stdinData.get "ipam" with
  | some (JSONValue.object _) => true
  | _ => false

/-- The part of `s` before the first occurrence of `sep`, on characters. -/
def cutBefore (sep : List Char) : List Char → List Char
  | [] => []
  | c :: cs => if sep.isPrefixOf (c :: cs) then [] else c :: cutBefore sep cs

/-- The Go expression `strings.Split(s, sep)[0]` for a non-empty `sep`. -/
def stringsSplitFirst (s sep : String) : String :=
  String.mk (cutBefore sep.data s.data)

/-- The method `net.IP.To4` of the Go standard library: a 4-byte address as it is, the
last four bytes of a 16-byte IPv4-mapped address, and nil (`none`) otherwise. -/
def IP.To4 (ip : IP) : Option IP :=
  if ip.length = 4 then some ip
  else if ip.length = 16 ∧ (ip.take 10).all (fun b => b == 0) ∧ ip.get? 10 = some 255
      ∧ ip.get? 11 = some 255 then
    some (ip.drop 12)
  else none

/-- The loop of `net.CIDRMask`: `l` bytes of a mask with `n` leading one bits left to place. -/
def CIDRMask.fill : Nat → Nat → List Nat
  | 0, _ => []
  | l + 1, n =>
    if n ≥ 8 then 255 :: CIDRMask.fill l (n - 8)
    else (255 - 255 / 2 ^ n) :: CIDRMask.fill l 0

/-- The function `net.CIDRMask(ones, bits)` of the Go standard library; the nil mask is
the empty list. -/
def CIDRMask (ones bits : Int) : IPMask :=
  if bits ≠ 32 ∧ bits ≠ 128 then []
  else if ones < 0 ∨ ones > bits then []
  else CIDRMask.fill (bits.toNat / 8) ones.toNat

/-! ## Attach: environment, events and the monad of runs -/

/-- One call made during an attach, with its arguments and its answer. -/
inductive AddEvent where
  /-- The call `clientcmd.NewNonInteractiveDeferredLoadingClientConfig(...).ClientConfig()`. -/
  | ClientConfig (kubeconfig : String) (overrides : ConfigOverrides)
      (answer : Except GoError RestConfig)
  | NewForConfig (config : RestConfig) (answer : Except GoError Clientset)
  | PodsGet (client : Clientset) (namespace_ name : String) (answer : Except GoError Pod)
  | NodesGet (client : Clientset) (name : String) (answer : Except GoError Node)
  | Getenv (key value : String)
  | Setenv (key value : String) (answer : Option GoError)
  /-- The call `ipam.ExecAdd(plugin, stdin)`; `cniArgs` is the value of `CNI_ARGS` in the
  process environment at the time of the call, which the plugin is run with. -/
  | ExecAdd (plugin stdin cniArgs : String) (answer : Except GoError TypesResult)
  | ReleaseIPAllocation (plugin stdin : String)
  /-- Entry into `ipAddrsResult` (its opening `logger.Infof` line). -/
  | ipAddrsResult (ipAddrs : String)
  /-- Entry into `overrideIPAMResult` (its opening `logger.Infof` line). -/
  | overrideIPAMResult (ipAddrsNoIpam : String)
  | DoNetworking (args : CmdArgs) (conf : NetConf) (result : Option Result)
      (desiredVethName : String) (answer : Except GoError (String × String))
  /-- The call `calicoClient.WorkloadEndpoints().Apply(endpoint)`: the datastore upsert. -/
  | Apply (endpoint : WorkloadEndpoint) (answer : Except GoError WorkloadEndpoint)
  deriving DecidableEq, Repr

/-- What an attach calls outside `k8s.go`, over a world state `σ`.  The first group
are functions of their arguments alone (Go standard library, CNI library, package
`utils`); the second group act on the world. -/
structure AddEnv (σ : Type) where
  /-- The call `types.LoadArgs(args.Args, &k8sArgs)`. -/
  LoadK8sArgs : String → Except GoError K8sArgs
  /-- The call `types.LoadArgs(args.Args, &ipamArgs)`: the field `IP` it leaves. -/
  LoadIPAMArgs : String → Except GoError (Option IP)
  /-- The call `utils.GetIdentifiers(args)`: workload and orchestrator. -/
  GetIdentifiers : CmdArgs → Except GoError (String × String)
  CreateResultFromEndpoint : WorkloadEndpoint → Except GoError Result
  /-- The call `utils.PopulateEndpointNets(endpoint, result)`: the endpoint it leaves. -/
  PopulateEndpointNets : WorkloadEndpoint → Option Result → Except GoError WorkloadEndpoint
  VethNameForWorkload : String → String
  EqualFold : String → String → Bool
  /-- The call `json.Unmarshal(data, &m)` into a `map[string]interface{}`. -/
  UnmarshalObject : String → Except GoError JSONObject
  /-- The call `json.Marshal(m)` of a `map[string]interface{}`. -/
  MarshalObject : JSONObject → Except GoError String
  /-- The call `json.Unmarshal(data, &ips)` into a `[]string`. -/
  UnmarshalStrings : String → Except GoError (List String)
  NewResultFromResult : TypesResult → Except GoError Result
  /-- The call `net.ParseIP(s)`; `none` is nil. -/
  ParseIP : String → Option IP
  /-- The method `ip.String()`. -/
  IPString : IP → String
  ParseMAC : String → Except GoError (List Nat)
  ClientConfig : String → ConfigOverrides → σ → Except GoError RestConfig × σ
  NewForConfig : RestConfig → σ → Except GoError Clientset × σ
  /-- The call `client.Pods(namespace).Get(name, ...)`. -/
  PodsGet : Clientset → String → String → σ → Except GoError Pod × σ
  /-- The call `client.Nodes().Get(name, ...)`. -/
  NodesGet : Clientset → String → σ → Except GoError Node × σ
  /-- Whether `os.Setenv(key, value)` fails; when it does not, the variable is set. -/
  SetenvError : String → String → σ → Option GoError × σ
  /-- The call `ipam.ExecAdd(plugin, stdin)`, run with the process environment. -/
  ExecAdd : String → String → StringMap → σ → Except GoError TypesResult × σ
  /-- The call `utils.ReleaseIPAllocation(logger, plugin, stdin)`. -/
  ReleaseIPAllocation : String → String → StringMap → σ → σ
  DoNetworking : CmdArgs → NetConf → Option Result → String → σ →
    Except GoError (String × String) × σ
  Apply : WorkloadEndpoint → σ → Except GoError WorkloadEndpoint × σ

/-- The world of an attach: the process environment, the rest of the world, and the
calls made so far. -/
structure AddWorld (σ : Type) where
  environ : StringMap
  ext : σ
  trace : List AddEvent

/-- How a Go function ends. -/
inductive Res (α : Type) where
  /-- It returns `value, nil`. -/
  | ok (a : α)
  /-- It returns `nil, err`. -/
  | error (e : GoError)
  /-- A run-time panic. -/
  | panic (msg : String)
  /-- The process exits (`os.Exit`). -/
  | exit (code : Int)
  deriving DecidableEq, Repr

/-- A piece of Go code run in a world: how it ends and the world it leaves. -/
def Act (σ α : Type) : Type := AddWorld σ → Res α × AddWorld σ

/-- Sequencing: what follows runs only after a normal completion. -/
def Act.bind {σ α β : Type} (x : Act σ α) (f : α → Act σ β) : Act σ β := fun w =>
  match x w with
  | (Res.ok a, w1) => f a w1
  | (Res.error e, w1) => (Res.error e, w1)
  | (Res.panic m, w1) => (Res.panic m, w1)
  | (Res.exit c, w1) => (Res.exit c, w1)

instance instMonadAct {σ : Type} : Monad (Act σ) where
  pure := fun a w => (Res.ok a, w)
  bind := Act.bind

/-- The statement `return nil, err`. -/
def Act.fail {σ α : Type} (e : GoError) : Act σ α := fun w => (Res.error e, w)

/-- A run-time panic. -/
def Act.panic {σ α : Type} (msg : String) : Act σ α := fun w => (Res.panic msg, w)

/-- The call `logger.Fatal(...)`: it logs and calls `os.Exit(1)`. -/
def Act.fatal {σ α : Type} : Act σ α := fun w => (Res.exit 1, w)

/-- The pattern `v, err := f(...); if err != nil { return nil, err }` once `f` has answered. -/
def Act.ofResult {σ α : Type} (r : Except GoError α) : Act σ α :=
  match r with
  | Except.ok a => pure a
  | Except.error e => Act.fail e

/-- Append an event to the trace. -/
def Act.emit {σ : Type} (ev : AddEvent) : Act σ Unit := fun w =>
  (Res.ok (), { w with trace := w.trace ++ [ev] })

/-- Call a function of the environment that acts on the world, and record the call. -/
def Act.call {σ α : Type} (f : σ → α × σ) (ev : α → AddEvent) : Act σ α := fun w =>
  (Res.ok (f w.ext).1, { w with ext := (f w.ext).2, trace := w.trace ++ [ev (f w.ext).1] })

/-- The call `os.Getenv(key)`. -/
def osGetenv {σ : Type} (key : String) : Act σ String := fun w =>
  (Res.ok (w.environ.get key),
    { w with trace := w.trace ++ [AddEvent.Getenv key (w.environ.get key)] })

/-- The call `os.Setenv(key, value)`: unless it fails, the variable holds `value`. -/
def osSetenv {σ : Type} (env : AddEnv σ) (key value : String) : Act σ (Option GoError) := fun w =>
  (Res.ok (env.SetenvError key value w.ext).1,
    { environ :=
        if (env.SetenvError key value w.ext).1 = none then w.environ.set key value else w.environ,
      ext := (env.SetenvError key value w.ext).2,
      trace := w.trace ++ [AddEvent.Setenv key value (env.SetenvError key value w.ext).1] })

/-- The call `ipam.ExecAdd(plugin, stdin)`. -/
def ipamExecAdd {σ : Type} (env : AddEnv σ) (plugin stdin : String) :
    Act σ (Except GoError TypesResult) := fun w =>
  (Res.ok (env.ExecAdd plugin stdin w.environ w.ext).1,
    { w with ext := (env.ExecAdd plugin stdin w.environ w.ext).2,
             trace := w.trace ++ [AddEvent.ExecAdd plugin stdin (w.environ.get "CNI_ARGS")
               (env.ExecAdd plugin stdin w.environ w.ext).1] })

/-- The call `utils.ReleaseIPAllocation(logger, plugin, stdin)`. -/
def ReleaseIPAllocation {σ : Type} (env : AddEnv σ) (plugin stdin : String) : Act σ Unit := fun w =>
  (Res.ok (),
    { w with ext := env.ReleaseIPAllocation plugin stdin w.environ w.ext,
             trace := w.trace ++ [AddEvent.ReleaseIPAllocation plugin stdin] })

/-- The pattern `v, err := f(...)` for a function of this file: its error, if any, is a
value to inspect and the run goes on. -/
def Act.attempt {σ α : Type} (x : Act σ α) : Act σ (Except GoError α) := fun w =>
  match x w with
  | (Res.ok a, w1) => (Res.ok (Except.ok a), w1)
  | (Res.error e, w1) => (Res.ok (Except.error e), w1)
  | (Res.panic m, w1) => (Res.panic m, w1)
  | (Res.exit c, w1) => (Res.exit c, w1)

/-! ## Attach: the functions of `k8s.go` -/

/-- The function `parseIPAddrs` (k8s.go lines 528-539). -/
def parseIPAddrs {σ : Type} (env : AddEnv σ) (ipAddrsStr : String) : Except GoError (List String) :=
  match env.UnmarshalStrings ipAddrsStr with
  | Except.error err =>
    Except.error (errorsNew ("Failed to parse '" ++ ipAddrsStr ++ "' as JSON: " ++ err.text))
  | Except.ok ips => Except.ok ips

/-- The loop of `overrideIPAMResult` (k8s.go lines 493-520) over the literals left,
`acc` being `result.IPs` so far. -/
def overrideIPAMResult.loop {σ : Type} (env : AddEnv σ) :
    List String → List IPConfig → Except GoError (List IPConfig)
  | [], acc => Except.ok acc
  | ip :: rest, acc =>
    match env.ParseIP ip with
    | none => Except.error (errorsNew ("Invalid IP format: " ++ ip))
    | some ipAddr =>
      let version := if (IP.To4 ipAddr).isSome then "4" else "6"
      let mask := if (IP.To4 ipAddr).isSome then CIDRMask 32 32 else CIDRMask 128 128
      let ipConf : IPConfig := { Version := version, Address := { IP := ipAddr, Mask := mask } }
      overrideIPAMResult.loop env rest (acc ++ [ipConf])

/-- The function `overrideIPAMResult` (k8s.go lines 476-523). -/
def overrideIPAMResult {σ : Type} (env : AddEnv σ) (ipAddrsNoIpam : String) : Act σ Result := do
  Act.emit (AddEvent.overrideIPAMResult ipAddrsNoIpam)
  match parseIPAddrs env ipAddrsNoIpam with
  | Except.error err =>
    Act.fail (errorsNew ("Failed to parse IPs " ++ ipAddrsNoIpam
      ++ " for annotation \"cni.projectcalico.org/ipAddrsNoIpam\": " ++ err.text))
  | Except.ok ips =>
    if ips.length = 0 then
      Act.fail (errorsNew "Annotation \"cni.projectcalico.org/ipAddrsNoIpam\" specified but empty")
    else
      match overrideIPAMResult.loop env ips [] with
      | Except.error err => Act.fail err
      | Except.ok confs => pure { IPs := confs }

/-- The function `callIPAMWithIP` (k8s.go lines 405-471). -/
def callIPAMWithIP {σ : Type} (env : AddEnv σ) (ip : IP) (conf : NetConf) (args : CmdArgs) :
    Act σ Result := do
  let originalArgs ← osGetenv "CNI_ARGS"
  -- the field `ipamArgs.IP` is only looked at to log an error
  let _ ← Act.ofResult (env.LoadIPAMArgs args.Args)
  let newArgs := originalArgs ++ ";IP=" ++ env.IPString ip
  match ← osSetenv env "CNI_ARGS" newArgs with
  | some err =>
    Act.fail (errorsNew ("Error setting CNI_ARGS environment variable: " ++ err.text))
  | none =>
    match ← ipamExecAdd env conf.IPAM.Type' args.StdinData with
    | Except.error err =>
      -- a failure of this restoring `Setenv` is only logged
      let _ ← osSetenv env "CNI_ARGS" originalArgs
      Act.fail err
    | Except.ok r =>
      match ← osSetenv env "CNI_ARGS" originalArgs with
      | some err =>
        ReleaseIPAllocation env conf.IPAM.Type' args.StdinData
        Act.fail err
      | none =>
        let ipamResult ← Act.ofResult (env.NewResultFromResult r)
        if ipamResult.IPs.length = 0 then
          Act.fail (errorsNew "IPAM plugin returned missing IP config")
        else
          pure ipamResult

/-- The loop of `ipAddrsResult` (k8s.go lines 382-397) over the literals left. -/
def ipAddrsResult.loop {σ : Type} (env : AddEnv σ) (conf : NetConf) (args : CmdArgs) :
    List String → Result → Act σ Result
  | [], result => pure result
  | ip :: rest, result =>
    match env.ParseIP ip with
    | none => Act.fail (errorsNew ("Invalid IP format: " ++ ip))
    | some ipAddr => do
      match ← Act.attempt (callIPAMWithIP env ipAddr conf args) with
      | Except.error err => Act.fail (errorsNew ("Error getting IP from IPAM: " ++ err.text))
      | Except.ok r =>
        -- result.IPs = append(result.IPs, r.IPs[0])
        match r.IPs with
        | [] => Act.panic "index out of range"
        | first :: _ => ipAddrsResult.loop env conf args rest { result with IPs := result.IPs ++ [first] }

/-- The function `ipAddrsResult` (k8s.go lines 363-400). -/
def ipAddrsResult {σ : Type} (env : AddEnv σ) (ipAddrs : String) (conf : NetConf) (args : CmdArgs) :
    Act σ Result := do
  Act.emit (AddEvent.ipAddrsResult ipAddrs)
  match parseIPAddrs env ipAddrs with
  | Except.error err =>
    Act.fail (errorsNew ("Failed to parse IPs " ++ ipAddrs
      ++ " for annotation \"cni.projectcalico.org/ipAddrs\": " ++ err.text))
  | Except.ok ips =>
    if ips.length = 0 then
      Act.fail (errorsNew "Annotation \"cni.projectcalico.org/ipAddrs\" specified but empty")
    else
      ipAddrsResult.loop env conf args ips {}

/-- The function `newK8sClient` (k8s.go lines 541-588). -/
def newK8sClient {σ : Type} (env : AddEnv σ) (conf : NetConf) : Act σ Clientset := do
  let kubeconfig := conf.Kubernetes.Kubeconfig
  let apiRoot := stringsSplitFirst conf.Policy.K8sAPIRoot "/api/"
  let o : ConfigOverrides := {}
  let o := if apiRoot ≠ "" then { o with Server := apiRoot } else o
  let o := if conf.Policy.K8sClientCertificate ≠ "" then
    { o with ClientCertificate := conf.Policy.K8sClientCertificate } else o
  let o := if conf.Policy.K8sClientKey ≠ "" then
    { o with ClientKey := conf.Policy.K8sClientKey } else o
  let o := if conf.Policy.K8sCertificateAuthority ≠ "" then
    { o with CertificateAuthority := conf.Policy.K8sCertificateAuthority } else o
  let o := if conf.Policy.K8sAuthToken ≠ "" then
    { o with Token := conf.Policy.K8sAuthToken } else o
  let o := if conf.Kubernetes.K8sAPIRoot ≠ "" then
    { o with Server := conf.Kubernetes.K8sAPIRoot } else o
  match ← Act.call (env.ClientConfig kubeconfig o) (AddEvent.ClientConfig kubeconfig o) with
  | Except.error err => Act.fail err
  | Except.ok config =>
    Act.ofResult (← Act.call (env.NewForConfig config) (AddEvent.NewForConfig config))

/-- The function `getK8sLabelsAnnotations` (k8s.go lines 590-604): labels and annotations. -/
def getK8sLabelsAnnotations {σ : Type} (env : AddEnv σ) (client : Clientset) (k8sargs : K8sArgs) :
    Act σ (StringMap × StringMap) := do
  match ← Act.call (env.PodsGet client k8sargs.K8S_POD_NAMESPACE k8sargs.K8S_POD_NAME)
      (AddEvent.PodsGet client k8sargs.K8S_POD_NAMESPACE k8sargs.K8S_POD_NAME) with
  | Except.error err => Act.fail err
  | Except.ok pod =>
    let labels : StringMap := match pod.Labels with
      | some l => l
      | none => []
    pure (labels.set "calico/k8s_ns" k8sargs.K8S_POD_NAMESPACE, pod.Annotations)

/-- The function `getPodCidr` (k8s.go lines 606-623). -/
def getPodCidr {σ : Type} (env : AddEnv σ) (client : Clientset) (conf : NetConf)
    (nodename : String) : Act σ String := do
  let nodename := if conf.Kubernetes.NodeName ≠ "" then conf.Kubernetes.NodeName else nodename
  match ← Act.call (env.NodesGet client nodename) (AddEvent.NodesGet client nodename) with
  | Except.error err => Act.fail err
  | Except.ok node =>
    if node.PodCIDR = "" then Act.fail (errorsNew ("No podCidr for node " ++ nodename))
    else pure node.PodCIDR

/-- What `CmdAddK8s` has gathered about the pod when it reaches the address
annotations (k8s.go line 178): labels, annotations, and the invocation arguments with
their possibly rewritten `StdinData`. -/
structure PodContext where
  labels : StringMap
  annot : StringMap
  args : CmdArgs

/-- Lines 88-108 of `CmdAddK8s`: with the `host-local` plugin and the subnet
`usePodCidr`, the node's podCidr is written into `args.StdinData`. -/
def CmdAddK8s.usePodCidr {σ : Type} (env : AddEnv σ) (client : Clientset) (conf : NetConf)
    (nodename : String) (args : CmdArgs) : Act σ CmdArgs := do
  if conf.IPAM.Type' = "host-local" ∧ env.EqualFold conf.IPAM.Subnet "usePodCidr" = true then
    let stdinData ← Act.ofResult (env.UnmarshalObject args.StdinData)
    let podCidr ← getPodCidr env client conf nodename
    -- stdinData["ipam"].(map[string]interface{})["subnet"] = podCidr
    match setIpamField stdinData "subnet" (JSONValue.string podCidr) with
    | none => Act.panic "interface conversion: interface is not map[string]interface"
    | some stdinData =>
      let data ← Act.ofResult (env.MarshalObject stdinData)
      pure { args with StdinData := data }
  else
    pure args

/-- Lines 140-152 and 153-165 of `CmdAddK8s`: a non-empty pools annotation is decoded
and stored under `key` in the `ipam` section of the configuration. -/
def CmdAddK8s.setPools {σ : Type} (env : AddEnv σ) (pools key : String) (stdinData : JSONObject) :
    Act σ JSONObject := do
  if pools ≠ "" then
    let poolSlice ← Act.ofResult (env.UnmarshalStrings pools)
    if ipamIsMap stdinData = false then
      Act.fatal
    else
      match setIpamField stdinData key (JSONValue.strings poolSlice) with
      | none => Act.panic "interface conversion: interface is not map[string]interface"
      | some stdinData => pure stdinData
  else
    pure stdinData

/-- Lines 110-176 of `CmdAddK8s`: labels and annotations of the pod, fetched only under
the policy type `k8s`, and the pools annotations passed on to `calico-ipam`. -/
def CmdAddK8s.labelsAnnotations {σ : Type} (env : AddEnv σ) (client : Clientset) (conf : NetConf)
    (k8sArgs : K8sArgs) (args : CmdArgs) : Act σ PodContext := do
  if conf.Policy.PolicyType = "k8s" then
    let (labels, annot) ← getK8sLabelsAnnotations env client k8sArgs
    if conf.IPAM.Type' = "calico-ipam" then
      let v4pools := annot.get "cni.projectcalico.org/ipv4pools"
      let v6pools := annot.get "cni.projectcalico.org/ipv6pools"
      if v4pools ≠ "" ∨ v6pools ≠ "" then
        let stdinData ← Act.ofResult (env.UnmarshalObject args.StdinData)
        let stdinData ← CmdAddK8s.setPools env v4pools "ipv4_pools" stdinData
        let stdinData ← CmdAddK8s.setPools env v6pools "ipv6_pools" stdinData
        let newData ← Act.ofResult (env.MarshalObject stdinData)
        pure ⟨labels, annot, { args with StdinData := newData }⟩
      else
        pure ⟨labels, annot, args⟩
    else
      pure ⟨labels, annot, args⟩
  else
    -- labels := make(map[string]string); annot := make(map[string]string)
    pure ⟨[], [], args⟩

/-- Lines 82-176 of `CmdAddK8s`: everything done for a new endpoint before the address
annotations are read. -/
def CmdAddK8s.podContext {σ : Type} (env : AddEnv σ) (conf : NetConf) (nodename : String)
    (k8sArgs : K8sArgs) (args : CmdArgs) : Act σ PodContext := do
  let client ← newK8sClient env conf
  let args ← CmdAddK8s.usePodCidr env client conf nodename args
  CmdAddK8s.labelsAnnotations env client conf k8sArgs args

/-- Lines 178-237 of `CmdAddK8s`: the switch on the two address annotations.  The
value is the variable `result`, `none` being the nil pointer. -/
def CmdAddK8s.resolveAddresses {σ : Type} (env : AddEnv σ) (conf : NetConf) (annot : StringMap)
    (args : CmdArgs) : Act σ (Option Result) := do
  let ipAddrsNoIpam := annot.get "cni.projectcalico.org/ipAddrsNoIpam"
  let ipAddrs := annot.get "cni.projectcalico.org/ipAddrs"
  if ipAddrs = "" ∧ ipAddrsNoIpam = "" then
    match ← ipamExecAdd env conf.IPAM.Type' args.StdinData with
    | Except.error err => Act.fail err
    | Except.ok ipamResult =>
      let result ← Act.ofResult (env.NewResultFromResult ipamResult)
      if result.IPs.length = 0 then
        Act.fail (errorsNew "IPAM plugin returned missing IP config")
      else
        pure (some result)
  else if ipAddrs ≠ "" ∧ ipAddrsNoIpam ≠ "" then
    Act.fail (errorsNew
      "Can't have both annotations: 'ipAddrs' and 'ipAddrsNoIpam' in use at the same time")
  else if ipAddrsNoIpam ≠ "" then
    let overriddenResult ← overrideIPAMResult env ipAddrsNoIpam
    let result ← Act.ofResult (env.NewResultFromResult (TypesResult.current overriddenResult))
    if result.IPs.length = 0 then
      Act.fail (errorsNew "IPAM plugin returned missing IP config")
    else
      pure (some result)
  else if ipAddrs ≠ "" then
    let result ← ipAddrsResult env ipAddrs conf args
    pure (some result)
  else
    pure none

/-- Lines 240-263 of `CmdAddK8s`: the new endpoint object, filled from the invocation and
from the addresses; the addresses are released when filling them in fails. -/
def CmdAddK8s.newEndpoint {σ : Type} (env : AddEnv σ) (conf : NetConf) (nodename : String)
    (k8sArgs : K8sArgs) (workload orchestrator : String) (labels : StringMap) (args : CmdArgs)
    (result : Option Result) : Act σ WorkloadEndpoint := do
  let profiles :=
    if conf.Policy.PolicyType = "k8s" then ["k8s_ns." ++ k8sArgs.K8S_POD_NAMESPACE]
    else [conf.Name]
  let endpoint : WorkloadEndpoint :=
    { Metadata :=
        { Name := args.IfName, Node := nodename, ActiveInstanceID := args.ContainerID,
          Orchestrator := orchestrator, Workload := workload, Labels := labels },
      Spec := { Profiles := profiles } }
  match env.PopulateEndpointNets endpoint result with
  | Except.error err =>
    ReleaseIPAllocation env conf.IPAM.Type' args.StdinData
    Act.fail err
  | Except.ok endpoint => pure endpoint

/-- Lines 265-296 of `CmdAddK8s`: the veth is (re)created, and the endpoint is written
with its MAC and host-side interface name; the addresses are released on any failure. -/
def CmdAddK8s.attach {σ : Type} (env : AddEnv σ) (conf : NetConf) (workload : String)
    (args : CmdArgs) (endpoint : WorkloadEndpoint) (result : Option Result) :
    Act σ (Option Result) := do
  let hostVethName := env.VethNameForWorkload workload
  match ← Act.call (env.DoNetworking args conf result hostVethName)
      (AddEvent.DoNetworking args conf result hostVethName) with
  | Except.error err =>
    ReleaseIPAllocation env conf.IPAM.Type' args.StdinData
    Act.fail err
  | Except.ok (_, contVethMac) =>
    match env.ParseMAC contVethMac with
    | Except.error err =>
      ReleaseIPAllocation env conf.IPAM.Type' args.StdinData
      Act.fail err
    | Except.ok mac =>
      let endpoint : WorkloadEndpoint :=
        { endpoint with Spec := { endpoint.Spec with MAC := some mac, InterfaceName := hostVethName } }
      match ← Act.call (env.Apply endpoint) (AddEvent.Apply endpoint) with
      | Except.error err =>
        ReleaseIPAllocation env conf.IPAM.Type' args.StdinData
        Act.fail err
      | Except.ok _ => pure result

/-- The function `CmdAddK8s` (k8s.go lines 47-297).  `endpoint = none` is the nil
pointer: no prior endpoint. -/
def CmdAddK8s {σ : Type} (env : AddEnv σ) (args : CmdArgs) (conf : NetConf) (nodename : String)
    (endpoint : Option WorkloadEndpoint) : Act σ (Option Result) := do
  let k8sArgs ← Act.ofResult (env.LoadK8sArgs args.Args)
  let (workload, orchestrator) ← Act.ofResult (env.GetIdentifiers args)
  match endpoint with
  | some endpoint =>
    let result ← Act.ofResult (env.CreateResultFromEndpoint endpoint)
    CmdAddK8s.attach env conf workload args endpoint (some result)
  | none =>
    let ctx ← CmdAddK8s.podContext env conf nodename k8sArgs args
    let result ← CmdAddK8s.resolveAddresses env conf ctx.annot ctx.args
    let endpoint ← CmdAddK8s.newEndpoint env conf nodename k8sArgs workload orchestrator
      ctx.labels ctx.args result
    CmdAddK8s.attach env conf workload ctx.args endpoint result

/-! ## Attach: reading traces -/

/-- Whether the event is a call to the metadata source (the Kubernetes client). -/
def AddEvent.isMetadataCall : AddEvent → Bool
  | AddEvent.ClientConfig _ _ _ => true
  | AddEvent.NewForConfig _ _ => true
  | AddEvent.PodsGet _ _ _ _ => true
  | AddEvent.NodesGet _ _ _ => true
  | _ => false

/-- Whether the event belongs to an address path: a call of the allocator plugin, or
entry into `ipAddrsResult` or `overrideIPAMResult`. -/
def AddEvent.isAddressPath : AddEvent → Bool
  | AddEvent.ExecAdd _ _ _ _ => true
  | AddEvent.ipAddrsResult _ => true
  | AddEvent.overrideIPAMResult _ => true
  | _ => false

/-- Whether the event is the call of the attachment engine. -/
def AddEvent.isDoNetworking : AddEvent → Bool
  | AddEvent.DoNetworking _ _ _ _ _ => true
  | _ => false

/-- Whether the event is the datastore upsert. -/
def AddEvent.isApply : AddEvent → Bool
  | AddEvent.Apply _ _ => true
  | _ => false

/-- Every event that a run of `x` appends to the trace satisfies `P`, and the events
already in the trace stay. -/
def Act.Emits {σ α : Type} (P : AddEvent → Prop) (x : Act σ α) : Prop :=
  ∀ w, ∃ l, (x w).2.trace = w.trace ++ l ∧ ∀ e ∈ l, P e

/-- The allocator calls in a trace, in order: for each `ipam.ExecAdd`, the `CNI_ARGS`
it was run with and its answer. -/
def execAddCalls : List AddEvent → List (String × Except GoError TypesResult)
  | [] => []
  | AddEvent.ExecAdd _ _ cniArgs answer :: rest => (cniArgs, answer) :: execAddCalls rest
  | _ :: rest => execAddCalls rest

/-- The first address of an allocator answer once converted, as `callIPAMWithIP` and
`ipAddrsResult` take it (`r.IPs[0]`). -/
def firstAssignment {σ : Type} (env : AddEnv σ) (answer : Except GoError TypesResult) :
    Option IPConfig :=
  match answer with
  | Except.error _ => none
  | Except.ok r =>
    match env.NewResultFromResult r with
    | Except.error _ => none
    | Except.ok res => res.IPs.head?

/-- The assignment `overrideIPAMResult` fabricates for a parsed address: version "4"
with a /32 mask for an IPv4 address (`To4` not nil), version "6" with a /128 mask
otherwise. -/
def fabricated (ipAddr : IP) : IPConfig :=
  if (IP.To4 ipAddr).isSome then
    { Version := "4", Address := { IP := ipAddr, Mask := [255, 255, 255, 255] } }
  else
    { Version := "6", Address := { IP := ipAddr, Mask := List.replicate 16 255 } }

/-! ## A sample environment -/

/-- A small environment to run the attach functions in: the pod `pod` is what the
metadata source answers, the allocator hands out `10.0.5.9` when `CNI_ARGS` asks for it
and `192.168.0.2` otherwise, and the library functions are given on the few inputs
used (`10.0.5.9`, `2001:db8::1`).
The world state counts the calls made. -/
def sampleEnv (pod : Pod) : AddEnv Nat where
  LoadK8sArgs := fun _ => Except.ok { K8S_POD_NAME := "web", K8S_POD_NAMESPACE := "default" }
  LoadIPAMArgs := fun _ => Except.ok none
  GetIdentifiers := fun _ => Except.ok ("default.web", "k8s")
  CreateResultFromEndpoint := fun ep =>
    Except.ok { IPs := ep.Spec.IPNetworks.map (fun n => { Version := "4", Address := n }) }
  PopulateEndpointNets := fun ep result =>
    match result with
    | some r => Except.ok { ep with Spec := { ep.Spec with IPNetworks := r.IPs.map (fun c => c.Address) } }
    | none => Except.error (errorsNew "no result")
  VethNameForWorkload := fun workload => "cali" ++ workload
  EqualFold := fun a b => a.toLower == b.toLower
  UnmarshalObject := fun _ => Except.ok [("ipam", JSONValue.object [])]
  MarshalObject := fun _ => Except.ok "ipam"
  UnmarshalStrings := fun data =>
    if data = "[\"10.0.5.9\"]" then Except.ok ["10.0.5.9"]
    else if data = "[\"10.0.5.9\", \"2001:db8::1\"]" then Except.ok ["10.0.5.9", "2001:db8::1"]
    else if data = "[\"10.0.5.9\", \"bogus\"]" then Except.ok ["10.0.5.9", "bogus"]
    else if data = "[]" then Except.ok []
    else Except.error ⟨ErrorType.other "*json.SyntaxError", "invalid character"⟩
  NewResultFromResult := fun r =>
    match r with
    | TypesResult.current res => Except.ok res
    | TypesResult.plugin json =>
      Except.ok { IPs := [
        if json = ";IP=10.0.5.9" then
          { Version := "4", Address := ⟨[10, 0, 5, 9], [255, 255, 255, 255]⟩ }
        else
          { Version := "4", Address := ⟨[192, 168, 0, 2], [255, 255, 255, 0]⟩ }] }
  ParseIP := fun lit =>
    if lit = "10.0.5.9" then some [0, 0, 0, 0, 0, 0, 0, 0, 0, 0, 255, 255, 10, 0, 5, 9]
    else if lit = "2001:db8::1" then some [32, 1, 13, 184, 0, 0, 0, 0, 0, 0, 0, 0, 0, 0, 0, 1]
    else none
  IPString := fun ip =>
    if ip = [0, 0, 0, 0, 0, 0, 0, 0, 0, 0, 255, 255, 10, 0, 5, 9] then "10.0.5.9"
    else if ip = [32, 1, 13, 184, 0, 0, 0, 0, 0, 0, 0, 0, 0, 0, 0, 1] then "2001:db8::1"
    else ""
  ParseMAC := fun _ => Except.ok [238, 238, 238, 238, 238, 238]
  ClientConfig := fun _ _ n => (Except.ok { handle := "config" }, n + 1)
  NewForConfig := fun _ n => (Except.ok { handle := "client" }, n + 1)
  PodsGet := fun _ _ _ n => (Except.ok pod, n + 1)
  NodesGet := fun _ _ n => (Except.ok { PodCIDR := "10.0.0.0/24" }, n + 1)
  SetenvError := fun _ _ n => (none, n + 1)
  ExecAdd := fun _ _ environ n => (Except.ok (TypesResult.plugin (environ.get "CNI_ARGS")), n + 1)
  ReleaseIPAllocation := fun _ _ _ n => n + 1
  DoNetworking := fun _ _ _ desiredVethName n => (Except.ok (desiredVethName, "ee:ee:ee:ee:ee:ee"), n + 1)
  Apply := fun endpoint n => (Except.ok endpoint, n + 1)

/-- The sample environment with an allocator out of addresses and an environment that
refuses to be written a second time: `ipam.ExecAdd` fails, and `os.Setenv` fails from
the third call on the world onwards. -/
def failingAllocatorEnv : AddEnv Nat :=
  { sampleEnv {} with
    SetenvError := fun _ _ n =>
      (if n < 2 then none else some (errorsNew "setenv: invalid argument"), n + 1)
    ExecAdd := fun _ _ _ n => (Except.error (errorsNew "no address left"), n + 1) }

/-- Every value with which a run of `x` ends normally satisfies `Q`. -/
def Act.Returns {σ α : Type} (Q : α → Prop) (x : Act σ α) : Prop :=
  ∀ w a w1, x w = (Res.ok a, w1) → Q a

/-! ## The endpoint-status key path (`workloadendpointstatus.go`) -/

/-- The struct `WorkloadEndpointStatusKey`. -/
structure WorkloadEndpointStatusKey where
  Hostname : String := ""
  OrchestratorID : String := ""
  WorkloadID : String := ""
  EndpointID : String := ""
  deriving DecidableEq, Repr

/-- The struct `WorkloadEndpointStatusListOptions`. -/
structure WorkloadEndpointStatusListOptions where
  Hostname : String := ""
  OrchestratorID : String := ""
  WorkloadID : String := ""
  EndpointID : String := ""
  deriving DecidableEq, Repr

/-- The error value `errors.ErrorInsufficientIdentifiers{Name: ...}`. -/
structure ErrorInsufficientIdentifiers where
  Name : String
  deriving DecidableEq, Repr

/-- The method `WorkloadEndpointStatusKey.defaultPath` (lines 39-54); `escapeName` is the
package's name escaping, whose source is not part of the repository files at hand. -/
def WorkloadEndpointStatusKey.defaultPath (escapeName : String → String)
    (key : WorkloadEndpointStatusKey) : Except ErrorInsufficientIdentifiers String :=
  if key.Hostname = "" then Except.error ⟨"hostname"⟩
  else if key.OrchestratorID = "" then Except.error ⟨"orchestrator"⟩
  else if key.WorkloadID = "" then Except.error ⟨"workload"⟩
  else if key.EndpointID = "" then Except.error ⟨"endpoint"⟩
  else Except.ok ("/calico/felix/v1/host/" ++ key.Hostname ++ "/workload/"
    ++ escapeName key.OrchestratorID ++ "/" ++ escapeName key.WorkloadID ++ "/endpoint/"
    ++ escapeName key.EndpointID)

/-- A literal piece of the pattern: what is left of `s` after `lit`, if `s` starts with it. -/
def stripLiteral (lit s : List Char) : Option (List Char) :=
  if lit.isPrefixOf s then some (s.drop lit.length) else none

/-- A group `([^/]+)` of the pattern followed by `/` or by the end: the longest run of
characters other than `/`, which must not be empty, and what is left. -/
def takeSegment (s : List Char) : Option (List Char × List Char) :=
  if s.takeWhile (fun c => c != '/') = [] then none
  else some (s.takeWhile (fun c => c != '/'), s.dropWhile (fun c => c != '/'))

/-- The submatches of the one match of the regular expression
`^/?calico/felix/v1/host/([^/]+)/workload/([^/]+)/([^/]+)/endpoint/([^/]+)$`
(`matchWorkloadEndpointStatus`, line 29) on `ekey`, or `none` when it does not match.
The expression is anchored at both ends and each group is delimited by `/`, so a
string has at most one match and the groups are the pieces between the slashes. -/
def matchWorkloadEndpointStatus (ekey : String) : Option (String × String × String × String) :=
  let s0 := match ekey.data with
    | '/' :: rest => rest
    | other => other
  match stripLiteral "calico/felix/v1/host/".data s0 with
  | none => none
  | some s1 =>
    match takeSegment s1 with
    | none => none
    | some (host, s2) =>
      match stripLiteral "/workload/".data s2 with
      | none => none
      | some s3 =>
        match takeSegment s3 with
        | none => none
        | some (orch, s4) =>
          match stripLiteral "/".data s4 with
          | none => none
          | some s5 =>
            match takeSegment s5 with
            | none => none
            | some (workload, s6) =>
              match stripLiteral "/endpoint/".data s6 with
              | none => none
              | some s7 =>
                match takeSegment s7 with
                | none => none
                | some (endpoint, s8) =>
                  if s8 = [] then
                    some (String.mk host, String.mk orch, String.mk workload, String.mk endpoint)
                  else none

/-- The method `WorkloadEndpointStatusListOptions.KeyFromDefaultPath` (lines 113-146);
`none` is the nil `Key`. -/
def WorkloadEndpointStatusListOptions.KeyFromDefaultPath (unescapeName : String → String)
    (options : WorkloadEndpointStatusListOptions) (ekey : String) :
    Option WorkloadEndpointStatusKey :=
  -- r := matchWorkloadEndpointStatus.FindAllStringSubmatch(ekey, -1); len(r) != 1
  match matchWorkloadEndpointStatus ekey with
  | none => none
  | some (g1, g2, g3, g4) =>
    let hostname := g1
    let orchID := unescapeName g2
    let workloadID := unescapeName g3
    let endpointID := unescapeName g4
    if options.Hostname ≠ "" ∧ hostname ≠ options.Hostname then none
    else if options.OrchestratorID ≠ "" ∧ orchID ≠ options.OrchestratorID then none
    else if options.WorkloadID ≠ "" ∧ workloadID ≠ options.WorkloadID then none
    else if options.EndpointID ≠ "" ∧ endpointID ≠ options.EndpointID then none
    else some { Hostname := hostname, OrchestratorID := orchID, WorkloadID := workloadID,
                EndpointID := endpointID }

/-! ## Networking: `utils/network.go` -/

/-- The attributes of a `netlink.Link` that the code reads through `Attrs()`. -/
structure Link where
  Index : Int := 0
  Name : String := ""
  HardwareAddr : List Nat := []
  deriving DecidableEq, Repr

/-- The struct `netlink.Veth` with the fields the code fills in. -/
structure Veth where
  Name : String := ""
  Flags : Nat := 0
  MTU : Int := 0
  PeerName : String := ""
  deriving DecidableEq, Repr

/-- The constant `net.FlagUp`. -/
def FlagUp : Nat := 1

/-- The route scopes of `netlink` that occur; the zero value is `SCOPE_UNIVERSE`. -/
inductive Scope where
  | SCOPE_UNIVERSE
  | SCOPE_LINK
  deriving DecidableEq, Repr

/-- The address families of `netlink` that occur. -/
inductive Family where
  | FAMILY_ALL
  | FAMILY_V4
  | FAMILY_V6
  deriving DecidableEq, Repr

/-- The struct `netlink.Route` with the fields the code fills in. -/
structure Route where
  LinkIndex : Int := 0
  Scope : Scope := Scope.SCOPE_UNIVERSE
  Dst : IPNet := ⟨[], []⟩
  deriving DecidableEq, Repr

/-- The struct `netlink.Addr`, which embeds a `*net.IPNet`. -/
structure Addr where
  IPNet : IPNet
  deriving DecidableEq, Repr

/-- One call made by the networking code outside itself, with its arguments and its
answer. -/
inductive NetEvent where
  /-- The call `netlink.LinkByName(name)`. -/
  | LinkByName (name : String) (answer : Except GoError Link)
  /-- The call `netlink.LinkDel(link)`. -/
  | LinkDel (link : Link) (answer : Option GoError)
  /-- The start of `ns.WithNetNSPath(nspath, f)`: the namespace at `nspath` is entered and
  the answer is the descriptor of the host namespace, or entering fails. -/
  | EnterNetNS (nspath : String) (answer : Except GoError Int)
  /-- The end of `ns.WithNetNSPath`: back in the host namespace. -/
  | LeaveNetNS
  /-- The call `netlink.LinkAdd(veth)`. -/
  | LinkAdd (veth : Veth) (answer : Option GoError)
  /-- The call `netlink.LinkSetUp(link)`. -/
  | LinkSetUp (link : Link) (answer : Option GoError)
  /-- The call `netlink.RouteAdd(route)`. -/
  | RouteAdd (route : Route) (answer : Option GoError)
  /-- The call `ip.AddDefaultRoute(gw, dev)`. -/
  | AddDefaultRoute (gw : IP) (dev : Link) (answer : Option GoError)
  /-- The call `ip.AddRoute(ipn, gw, dev)`. -/
  | AddRoute (ipn : IPNet) (gw : IP) (dev : Link) (answer : Option GoError)
  /-- The call `netlink.AddrAdd(link, addr)`. -/
  | AddrAdd (link : Link) (addr : Addr) (answer : Option GoError)
  /-- The call `netlink.AddrList(link, family)`. -/
  | AddrList (link : Link) (family : Family) (answer : Except GoError (List Addr))
  /-- The call `netlink.LinkSetNsFd(link, fd)`. -/
  | LinkSetNsFd (link : Link) (fd : Int) (answer : Option GoError)
  /-- The call `os.OpenFile(name, os.O_WRONLY, 0)`; the answer is the open file. -/
  | OpenFile (name : String) (answer : Except GoError Nat)
  /-- The call `f.Write(b)` on the file `f` opened at `name`. -/
  | Write (name : String) (f : Nat) (b : String) (n : Int) (err : Option GoError)
  /-- The call `f.Close()` on the file `f` opened at `name`. -/
  | Close (name : String) (f : Nat) (answer : Option GoError)
  deriving DecidableEq, Repr

/-- What the networking code calls outside itself. Each answer of the kernel or of the
file system is a function of the calls made so far. -/
structure NetEnv where
  /-- The verb `%q` of `fmt` on a string. -/
  Quote : String → String
  /-- The verb `%q` of `fmt` on a `netlink.Link`. -/
  QuoteLink : Link → String
  /-- The verb `%v` of `fmt` on a `net.IP`. -/
  IPString : IP → String
  /-- The method `net.HardwareAddr.String`. -/
  HardwareAddrString : List Nat → String
  LinkByName : String → List NetEvent → Except GoError Link
  LinkDel : Link → List NetEvent → Option GoError
  EnterNetNS : String → List NetEvent → Except GoError Int
  LinkAdd : Veth → List NetEvent → Option GoError
  LinkSetUp : Link → List NetEvent → Option GoError
  RouteAdd : Route → List NetEvent → Option GoError
  AddDefaultRoute : IP → Link → List NetEvent → Option GoError
  AddRoute : IPNet → IP → Link → List NetEvent → Option GoError
  AddrAdd : Link → Addr → List NetEvent → Option GoError
  AddrList : Link → Family → List NetEvent → Except GoError (List Addr)
  LinkSetNsFd : Link → Int → List NetEvent → Option GoError
  OpenFile : String → List NetEvent → Except GoError Nat
  Write : String → Nat → String → List NetEvent → Int × Option GoError
  Close : String → Nat → List NetEvent → Option GoError

/-- A piece of the networking code run after the calls made so far: how it ends and the
calls made by then. -/
def Net (α : Type) : Type := List NetEvent → Res α × List NetEvent

/-- Sequencing: what follows runs only after a normal completion. -/
def Net.bind {α β : Type} (x : Net α) (f : α → Net β) : Net β := fun h =>
  match x h with
  | (Res.ok a, h1) => f a h1
  | (Res.error e, h1) => (Res.error e, h1)
  | (Res.panic m, h1) => (Res.panic m, h1)
  | (Res.exit c, h1) => (Res.exit c, h1)

instance instMonadNet : Monad Net where
  pure := fun a h => (Res.ok a, h)
  bind := Net.bind

/-- The statement `return err` with a non-nil error. -/
def Net.fail {α : Type} (e : GoError) : Net α := fun h => (Res.error e, h)

/-- A run-time panic. -/
def Net.panic {α : Type} (msg : String) : Net α := fun h => (Res.panic msg, h)

/-- Call a function of the environment and record the call with its answer. -/
def Net.call {α : Type} (f : List NetEvent → α) (ev : α → NetEvent) : Net α := fun h =>
  (Res.ok (f h), h ++ [ev (f h)])

/-- The pattern `err = f(...)` followed by a test of `err`: the error is a value. -/
def Net.attempt {α : Type} (x : Net α) : Net (Except GoError α) := fun h =>
  match x h with
  | (Res.ok a, h1) => (Res.ok (Except.ok a), h1)
  | (Res.error e, h1) => (Res.ok (Except.error e), h1)
  | (Res.panic m, h1) => (Res.panic m, h1)
  | (Res.exit c, h1) => (Res.exit c, h1)

/-- The value `io.ErrShortWrite`. -/
def ErrShortWrite : GoError := errorsNew "short write"

/-- The function `writeProcSys` (lines 243-256); an error result is the returned `err`. -/
def writeProcSys (env : NetEnv) (path value : String) : Net Unit := do
  let opened ← Net.call (env.OpenFile path) (NetEvent.OpenFile path)
  match opened with
  | Except.error err => Net.fail err
  | Except.ok f =>
    let written ← Net.call (env.Write path f value)
      (fun r => NetEvent.Write path f value r.1 r.2)
    let err : Option GoError :=
      if written.2 = none ∧ written.1 < (value.utf8ByteSize : Int) then some ErrShortWrite
      else written.2
    let err1 ← Net.call (env.Close path f) (NetEvent.Close path f)
    let err : Option GoError := if err = none then err1 else err
    match err with
    | none => pure ()
    | some e => Net.fail e

/-- The function `configureSysctls` (lines 197-240). -/
def configureSysctls (env : NetEnv) (hostVethName : String) (hasIPv4 hasIPv6 : Bool) :
    Net Unit := do
  if hasIPv4 then
    writeProcSys env ("/proc/sys/net/ipv4/conf/" ++ hostVethName ++ "/proxy_arp") "1"
    writeProcSys env ("/proc/sys/net/ipv4/neigh/" ++ hostVethName ++ "/proxy_delay") "0"
    writeProcSys env ("/proc/sys/net/ipv4/conf/" ++ hostVethName ++ "/forwarding") "1"
  if hasIPv6 then
    writeProcSys env ("/proc/sys/net/ipv6/conf/" ++ hostVethName ++ "/proxy_ndp") "1"
    writeProcSys env ("/proc/sys/net/ipv6/conf/" ++ hostVethName ++ "/forwarding") "1"
  pure ()

/-- The message of the panic on a nil pointer. -/
def nilDereference : String := "runtime error: invalid memory address or nil pointer dereference"

/-- The loop of `setupRoutes` (lines 180-192). -/
def setupRoutes.loop (env : NetEnv) (hostVeth : Link) : List IPConfig → Net Unit
  | [] => pure ()
  | ip :: rest => do
    let route : Route :=
      { LinkIndex := hostVeth.Index, Scope := Scope.SCOPE_LINK, Dst := ip.Address }
    let err ← Net.call (env.RouteAdd route) (NetEvent.RouteAdd route)
    match err with
    | some e => Net.fail (errorsNew ("failed to add route " ++ e.text))
    | none => setupRoutes.loop env hostVeth rest

/-- The function `setupRoutes` (lines 179-194); `none` is the nil `result`. -/
def setupRoutes (env : NetEnv) (hostVeth : Link) (result : Option Result) : Net Unit :=
  match result with
  | none => Net.panic nilDereference
  | some r => setupRoutes.loop env hostVeth r.IPs

/-- The slice expression `s[low:]` on a string: it panics (`none`) when `low` exceeds the
length in bytes. A cut inside a multi-byte character, which leaves bytes that are not
a string here, does not occur for the names of interfaces. -/
def sliceFrom (s : String) (low : Nat) : Option String :=
  if low ≤ s.utf8ByteSize then some (s.extract ⟨low⟩ s.endPos) else none

/-- The function `net.IPv4(a, b, c, d)`: the 16-byte form of the address. -/
def IPv4 (a b c d : Nat) : IP := [0, 0, 0, 0, 0, 0, 0, 0, 0, 0, 255, 255, a, b, c, d]

/-- The network parsed from `"::/0"` by `net.ParseCIDR`. -/
def defNet : IPNet := ⟨List.replicate 16 0, List.replicate 16 0⟩

/-- The branch `addr.Version == "4"` of the loop in `DoNetworking` (lines 81-102). -/
def DoNetworking.ipv4 (env : NetEnv) (contVeth : Link) (contVethName : String)
    (addr : IPConfig) : Net Unit := do
  let gw := IPv4 169 254 1 1
  let gwNet : IPNet := { IP := gw, Mask := CIDRMask 32 32 }
  let route : Route :=
    { LinkIndex := contVeth.Index, Scope := Scope.SCOPE_LINK, Dst := gwNet }
  let err ← Net.call (env.RouteAdd route) (NetEvent.RouteAdd route)
  match err with
  | some e => Net.fail (errorsNew ("failed to add route " ++ e.text))
  | none =>
    let err ← Net.call (env.AddDefaultRoute gw contVeth) (NetEvent.AddDefaultRoute gw contVeth)
    match err with
    | some e => Net.fail (errorsNew ("failed to add route " ++ e.text))
    | none =>
      let err ← Net.call (env.AddrAdd contVeth ⟨addr.Address⟩)
        (NetEvent.AddrAdd contVeth ⟨addr.Address⟩)
      match err with
      | some e => Net.fail (errorsNew ("failed to add IP addr to " ++ env.Quote contVethName
          ++ ": " ++ e.text))
      | none => pure ()

/-- The branch `addr.Version == "6"` of the loop in `DoNetworking` (lines 105-136). -/
def DoNetworking.ipv6 (env : NetEnv) (hostVeth contVeth : Link) (addr : IPConfig) :
    Net Unit := do
  let listed ← Net.call (env.AddrList hostVeth Family.FAMILY_V6)
    (NetEvent.AddrList hostVeth Family.FAMILY_V6)
  match listed with
  | Except.error e => Net.fail e
  | Except.ok addresses =>
    match addresses with
    | [] => Net.fail (errorsNew "failed to get IPv6 addresses for host side of the veth pair")
    | first :: _ =>
      let hostIPv6Addr := first.IPNet.IP
      let err ← Net.call (env.AddRoute defNet hostIPv6Addr contVeth)
        (NetEvent.AddRoute defNet hostIPv6Addr contVeth)
      match err with
      | some e => Net.fail (errorsNew ("failed to add default gateway to "
          ++ env.IPString hostIPv6Addr ++ " " ++ e.text))
      | none =>
        let err ← Net.call (env.AddrAdd contVeth ⟨addr.Address⟩)
          (NetEvent.AddrAdd contVeth ⟨addr.Address⟩)
        match err with
        | some e => Net.fail (errorsNew ("failed to add IP addr to " ++ env.QuoteLink contVeth
            ++ ": " ++ e.text))
        | none => pure ()

/-- The loop over `result.IPs` in `DoNetworking` (lines 78-137); the result is the pair
of the variables `hasIPv4` and `hasIPv6`. -/
def DoNetworking.loop (env : NetEnv) (hostVeth contVeth : Link) (contVethName : String) :
    List IPConfig → Bool → Bool → Net (Bool × Bool)
  | [], hasIPv4, hasIPv6 => pure (hasIPv4, hasIPv6)
  | addr :: rest, hasIPv4, hasIPv6 => do
    let hasIPv4 ← (if addr.Version = "4" then do
        DoNetworking.ipv4 env contVeth contVethName addr
        pure true
      else pure hasIPv4)
    let hasIPv6 ← (if addr.Version = "6" then do
        DoNetworking.ipv6 env hostVeth contVeth addr
        pure true
      else pure hasIPv6)
    DoNetworking.loop env hostVeth contVeth contVethName rest hasIPv4 hasIPv6

/-- The function passed to `ns.WithNetNSPath` in `DoNetworking` (lines 38-146); the
result is the triple of the variables `contVethMAC`, `hasIPv4` and `hasIPv6` that it
sets. -/
def DoNetworking.inContainer (env : NetEnv) (conf : NetConf) (result : Option Result)
    (hostVethName contVethName : String) (hostNSFd : Int) : Net (String × Bool × Bool) := do
  let veth : Veth :=
    { Name := contVethName, Flags := FlagUp, MTU := conf.MTU, PeerName := hostVethName }
  let err ← Net.call (env.LinkAdd veth) (NetEvent.LinkAdd veth)
  match err with
  | some e => Net.fail e
  | none =>
    let found ← Net.call (env.LinkByName hostVethName) (NetEvent.LinkByName hostVethName)
    match found with
    | Except.error e =>
      Net.fail (errorsNew ("failed to lookup " ++ env.Quote hostVethName ++ ": " ++ e.text))
    | Except.ok hostVeth =>
      let err ← Net.call (env.LinkSetUp hostVeth) (NetEvent.LinkSetUp hostVeth)
      match err with
      | some e =>
        Net.fail (errorsNew ("failed to set " ++ env.Quote hostVethName ++ " up: " ++ e.text))
      | none =>
        let found ← Net.call (env.LinkByName contVethName) (NetEvent.LinkByName contVethName)
        match found with
        | Except.error e =>
          Net.fail (errorsNew ("failed to lookup " ++ env.Quote contVethName ++ ": " ++ e.text))
        | Except.ok contVeth =>
          let contVethMAC := env.HardwareAddrString contVeth.HardwareAddr
          match result with
          | none => Net.panic nilDereference
          | some r =>
            let flags ← DoNetworking.loop env hostVeth contVeth contVethName r.IPs false false
            let err ← Net.call (env.LinkSetNsFd hostVeth hostNSFd)
              (NetEvent.LinkSetNsFd hostVeth hostNSFd)
            match err with
            | some e => Net.fail (errorsNew ("failed to move veth to host netns: " ++ e.text))
            | none => pure (contVethMAC, flags.1, flags.2)

/-- The function `ns.WithNetNSPath(nspath, toRun)` of the library: when the namespace
cannot be entered it returns the error without running `toRun`; otherwise it runs
`toRun` on the handle of the host namespace, comes back and returns what `toRun`
returned. A panic in `toRun` ends the process. -/
def WithNetNSPath {α : Type} (env : NetEnv) (nspath : String) (toRun : Int → Net α) :
    Net α := fun h =>
  match env.EnterNetNS nspath h with
  | Except.error e => (Res.error e, h ++ [NetEvent.EnterNetNS nspath (Except.error e)])
  | Except.ok fd =>
    match toRun fd (h ++ [NetEvent.EnterNetNS nspath (Except.ok fd)]) with
    | (Res.ok a, h1) => (Res.ok a, h1 ++ [NetEvent.LeaveNetNS])
    | (Res.error e, h1) => (Res.error e, h1 ++ [NetEvent.LeaveNetNS])
    | (Res.panic m, h1) => (Res.panic m, h1)
    | (Res.exit c, h1) => (Res.exit c, h1)

/-- The clean-up at lines 31-36 of `DoNetworking`: an interface that already has the
host-side name is deleted. -/
def DoNetworking.cleanUp (env : NetEnv) (hostVethName : String) : Net Unit := do
  let old ← Net.call (env.LinkByName hostVethName) (NetEvent.LinkByName hostVethName)
  match old with
  | Except.error _ => pure ()
  | Except.ok oldHostVeth =>
    let err ← Net.call (env.LinkDel oldHostVeth) (NetEvent.LinkDel oldHostVeth)
    match err with
    | some e =>
      Net.fail (errorsNew ("failed to delete old hostVeth " ++ hostVethName ++ ": " ++ e.text))
    | none => pure ()

/-- The body of `DoNetworking` (lines 18-176) with the host-side name computed: an
error result stands for a statement `return "", "", err`. -/
def DoNetworking.named (env : NetEnv) (args : CmdArgs) (conf : NetConf)
    (result : Option Result) (hostVethName : String) : Net (String × String) := do
  let contVethName := args.IfName
  DoNetworking.cleanUp env hostVethName
  let inner ← WithNetNSPath env args.Netns
    (DoNetworking.inContainer env conf result hostVethName contVethName)
  let contVethMAC := inner.1
  let hasIPv4 := inner.2.1
  let hasIPv6 := inner.2.2
  let sysctls ← Net.attempt (configureSysctls env hostVethName hasIPv4 hasIPv6)
  match sysctls with
  | Except.error e =>
    Net.fail (errorsNew ("error configuring sysctls for interface: " ++ hostVethName
      ++ ", error: " ++ e.text))
  | Except.ok _ =>
    let found ← Net.call (env.LinkByName hostVethName) (NetEvent.LinkByName hostVethName)
    match found with
    | Except.error e =>
      Net.fail (errorsNew ("failed to lookup " ++ env.Quote hostVethName ++ ": " ++ e.text))
    | Except.ok hostVeth =>
      let err ← Net.call (env.LinkSetUp hostVeth) (NetEvent.LinkSetUp hostVeth)
      match err with
      | some e =>
        Net.fail (errorsNew ("failed to set " ++ env.Quote hostVethName ++ " up: " ++ e.text))
      | none =>
        let routes ← Net.attempt (setupRoutes env hostVeth result)
        match routes with
        | Except.error e =>
          Net.fail (errorsNew ("error adding host side routes for interface: "
            ++ hostVeth.Name ++ ", error: " ++ e.text))
        | Except.ok _ => pure (hostVethName, contVethMAC)

/-- The function `DoNetworking` (lines 18-176). The result is the triple
`(hostVethName, contVethMAC, err)` that it returns; the slice `args.IfName[6:]` of line
20 is taken before the desired name is looked at. Log lines and the line printed on
the standard error are not recorded. -/
def DoNetworking (env : NetEnv) (args : CmdArgs) (conf : NetConf) (result : Option Result)
    (desiredVethName : String) : Net (String × String × Option GoError) := fun h =>
  match sliceFrom args.IfName 6 with
  | none => (Res.panic "runtime error: slice bounds out of range", h)
  | some tail =>
    let hostVethName := if desiredVethName ≠ "" then desiredVethName else "vcali" ++ tail
    match DoNetworking.named env args conf result hostVethName h with
    | (Res.ok names, h1) => (Res.ok (names.1, names.2, none), h1)
    | (Res.error err, h1) => (Res.ok ("", "", some err), h1)
    | (Res.panic m, h1) => (Res.panic m, h1)
    | (Res.exit c, h1) => (Res.exit c, h1)

/-- The writes that the text of the specification lists for `configureSysctls`: path
and value, in order. -/
def sysctlPlan (n : String) (hasIPv4 hasIPv6 : Bool) : List (String × String) :=
  (if hasIPv4 then
    [("/proc/sys/net/ipv4/conf/" ++ n ++ "/proxy_arp", "1"),
     ("/proc/sys/net/ipv4/neigh/" ++ n ++ "/proxy_delay", "0"),
     ("/proc/sys/net/ipv4/conf/" ++ n ++ "/forwarding", "1")]
  else []) ++
  (if hasIPv6 then
    [("/proc/sys/net/ipv6/conf/" ++ n ++ "/proxy_ndp", "1"),
     ("/proc/sys/net/ipv6/conf/" ++ n ++ "/forwarding", "1")]
  else [])

/-- Performing a list of writes in order, stopping at the first that fails and
returning its error. -/
def writeInOrder (env : NetEnv) : List (String × String) → Net Unit
  | [] => pure ()
  | w :: rest => do
    writeProcSys env w.1 w.2
    writeInOrder env rest

/-- The values handed to `Write`, with the path of the file, in the order of the calls. -/
def writesOf : List NetEvent → List (String × String)
  | [] => []
  | NetEvent.Write name _ b _ _ :: rest => (name, b) :: writesOf rest
  | _ :: rest => writesOf rest

/-- The calls on files. -/
def NetEvent.isFileCall : NetEvent → Bool
  | NetEvent.OpenFile _ _ => true
  | NetEvent.Write _ _ _ _ _ => true
  | NetEvent.Close _ _ _ => true
  | _ => false

/-- A kernel and file system where every call succeeds, except that no interface exists
before the first call: a lookup then fails. The host end has one IPv6 address. -/
def sampleNetEnv : NetEnv where
  Quote := fun s => "\"" ++ s ++ "\""
  QuoteLink := fun l => "\"" ++ l.Name ++ "\""
  IPString := fun ip => String.intercalate "." (ip.map toString)
  HardwareAddrString := fun mac => String.intercalate ":" (mac.map toString)
  LinkByName := fun name h =>
    if h = [] then Except.error (errorsNew "Link not found")
    else Except.ok { Index := 7, Name := name, HardwareAddr := [2, 0, 0, 0, 0, 1] }
  LinkDel := fun _ _ => none
  EnterNetNS := fun _ _ => Except.ok 5
  LinkAdd := fun _ _ => none
  LinkSetUp := fun _ _ => none
  RouteAdd := fun _ _ => none
  AddDefaultRoute := fun _ _ _ => none
  AddRoute := fun _ _ _ _ => none
  AddrAdd := fun _ _ _ => none
  AddrList := fun _ _ _ =>
    Except.ok [⟨⟨[254, 128, 0, 0, 0, 0, 0, 0, 0, 0, 0, 0, 0, 0, 0, 1], CIDRMask 64 128⟩⟩]
  LinkSetNsFd := fun _ _ _ => none
  OpenFile := fun _ _ => Except.ok 3
  Write := fun _ _ b _ => ((b.utf8ByteSize : Int), none)
  Close := fun _ _ _ => none

/-- The same, with a host end that has no IPv6 address. -/
def noIPv6NetEnv : NetEnv :=
  { sampleNetEnv with AddrList := fun _ _ _ => Except.ok [] }

/-- The three calls that the text of the specification lists for an IPv4 assignment
inside the container, all answered without error: the link-scoped route to
169.254.1.1/32 on the container interface, the default route through 169.254.1.1, and
the address. -/
def expectIPv4Steps (contVeth : Link) (a : IPConfig) : List NetEvent :=
  [NetEvent.RouteAdd
     ⟨contVeth.Index, Scope.SCOPE_LINK, ⟨IPv4 169 254 1 1, [255, 255, 255, 255]⟩⟩ none,
   NetEvent.AddDefaultRoute (IPv4 169 254 1 1) contVeth none,
   NetEvent.AddrAdd contVeth ⟨a.Address⟩ none]

/-- The calls that the text of the specification lists for an IPv6 assignment inside the
container when the host end lists the addresses `first :: others`: the listing, the
default route `::/0` through the first address, and the address. -/
def expectIPv6Steps (hostVeth contVeth : Link) (first : Addr) (others : List Addr)
    (a : IPConfig) : List NetEvent :=
  [NetEvent.AddrList hostVeth Family.FAMILY_V6 (Except.ok (first :: others)),
   NetEvent.AddRoute ⟨List.replicate 16 0, List.replicate 16 0⟩ first.IPNet.IP contVeth none,
   NetEvent.AddrAdd contVeth ⟨a.Address⟩ none]

/-- The calls expected inside the container for one assignment, by its family. -/
def expectContainerSteps (hostVeth contVeth : Link) (first : Addr) (others : List Addr)
    (a : IPConfig) : List NetEvent :=
  if a.Version = "4" then expectIPv4Steps contVeth a
  else expectIPv6Steps hostVeth contVeth first others a

/-- The link-scoped host route expected for one assignment, answered without error. -/
def expectHostRoute (hostVeth : Link) (a : IPConfig) : NetEvent :=
  NetEvent.RouteAdd ⟨hostVeth.Index, Scope.SCOPE_LINK, a.Address⟩ none

/-- The calls expected inside the container for a run of assignments none of which is
an IPv6 one: the three steps of each IPv4 assignment, in order. -/
def expectIPv4Run (contVeth : Link) : List IPConfig → List NetEvent
  | [] => []
  | a :: rest =>
    (if a.Version = "4" then expectIPv4Steps contVeth a else []) ++ expectIPv4Run contVeth rest

/-! ## Theorems: detach -/

/-- How the tail of `CmdDelK8s` answers, in terms of the two cleanup calls. -/
theorem CmdDelK8s.cleanUp_eq {σ : Type} (c : DelEnv σ) (args : CmdArgs) (conf : NetConf)
    (s : σ) (trace : List DelEvent) :
    CmdDelK8s.cleanUp c args conf s trace =
      ⟨(match (c.CleanUpNamespace args (c.CleanUpIPAM conf args s).2).1 with
          | some e => some e
          | none => (c.CleanUpIPAM conf args s).1),
        (c.CleanUpNamespace args (c.CleanUpIPAM conf args s).2).2,
        trace ++ [DelEvent.CleanUpIPAM conf args (c.CleanUpIPAM conf args s).1,
          DelEvent.CleanUpNamespace args (c.CleanUpNamespace args (c.CleanUpIPAM conf args s).2).1]⟩ := by
  unfold CmdDelK8s.cleanUp
  cases h : (c.CleanUpNamespace args (c.CleanUpIPAM conf args s).2).1 <;> simp [h]

/-- C1. When the record returned by the datastore `Get` has a non-empty
`ActiveInstanceID` different from the invocation's `ContainerID`, `CmdDelK8s` returns
nil, the only call it makes is that `Get` (no `Delete`, no IPAM release, no namespace
teardown), and the world is the one the `Get` left; over the one-record datastore the
stored record is the same afterwards. -/
theorem CmdDelK8s_stale_detach_is_noop {σ : Type} (c : DelEnv σ)
    (ep : WorkloadEndpointMetadata) (args : CmdArgs) (conf : NetConf) (s s1 : σ)
    (wep : WorkloadEndpoint)
    (hget : c.Get ep s = (Except.ok wep, s1))
    (hset : wep.Metadata.ActiveInstanceID ≠ "")
    (hdiff : wep.Metadata.ActiveInstanceID ≠ args.ContainerID) :
    (CmdDelK8s c ep args conf s).err = none
      ∧ (CmdDelK8s c ep args conf s).world = s1
      ∧ (CmdDelK8s c ep args conf s).trace = [DelEvent.Get ep (Except.ok wep)]
      ∧ (∀ e ∈ (CmdDelK8s c ep args conf s).trace,
          e.isDelete = false ∧ e.isCleanUpIPAM = false ∧ e.isCleanUpNamespace = false)
      ∧ (∀ ipam teardown,
          (CmdDelK8s (recordStore ipam teardown) ep args conf (some wep)).world = some wep
          ∧ (CmdDelK8s (recordStore ipam teardown) ep args conf (some wep)).err = none) := by
  have hd : args.ContainerID ≠ wep.Metadata.ActiveInstanceID := fun h => hdiff h.symm
  have key : CmdDelK8s c ep args conf s = ⟨none, s1, [DelEvent.Get ep (Except.ok wep)]⟩ := by
    simp [CmdDelK8s, hget, hset, hd]
  refine ⟨by rw [key], by rw [key], by rw [key], ?_, ?_⟩
  · rw [key]
    intro e he
    simp at he
    subst he
    simp [DelEvent.isDelete, DelEvent.isCleanUpIPAM, DelEvent.isCleanUpNamespace]
  · intro ipam teardown
    simp [CmdDelK8s, recordStore, hset, hd]

/-- Witness for C1: a record owned by container `new`, a detach for container `old`. -/
theorem CmdDelK8s_stale_detach_is_noop_witness :
    (CmdDelK8s (recordStore (fun _ _ => none) (fun _ => none)) {} { ContainerID := "old" } {}
        (some { Metadata := { ActiveInstanceID := "new" } })).err = none
      ∧ (CmdDelK8s (recordStore (fun _ _ => none) (fun _ => none)) {} { ContainerID := "old" } {}
        (some { Metadata := { ActiveInstanceID := "new" } })).world
          = some { Metadata := { ActiveInstanceID := "new" } } :=
  have h := CmdDelK8s_stale_detach_is_noop (recordStore (fun _ _ => none) (fun _ => none)) {}
    { ContainerID := "old" } {} (some { Metadata := { ActiveInstanceID := "new" } })
    (some { Metadata := { ActiveInstanceID := "new" } })
    { Metadata := { ActiveInstanceID := "new" } } rfl (by decide) (by decide)
  ⟨h.1, h.2.1⟩

/-- C2. When the datastore `Get` fails with an error that is not a
resource-does-not-exist error, `CmdDelK8s` returns exactly that error and the only call
it makes is that `Get`: no `Delete`, no IPAM release, no namespace teardown. -/
theorem CmdDelK8s_get_failure_aborts {σ : Type} (c : DelEnv σ)
    (ep : WorkloadEndpointMetadata) (args : CmdArgs) (conf : NetConf) (s s1 : σ)
    (err : GoError)
    (hget : c.Get ep s = (Except.error err, s1))
    (hkind : err.dynType ≠ ErrorType.ErrorResourceDoesNotExist) :
    (CmdDelK8s c ep args conf s).err = some err
      ∧ (CmdDelK8s c ep args conf s).world = s1
      ∧ (CmdDelK8s c ep args conf s).trace = [DelEvent.Get ep (Except.error err)]
      ∧ (∀ e ∈ (CmdDelK8s c ep args conf s).trace,
          e.isDelete = false ∧ e.isCleanUpIPAM = false ∧ e.isCleanUpNamespace = false) := by
  have key : CmdDelK8s c ep args conf s = ⟨some err, s1, [DelEvent.Get ep (Except.error err)]⟩ := by
    simp [CmdDelK8s, hget, hkind]
  refine ⟨by rw [key], by rw [key], by rw [key], ?_⟩
  rw [key]
  intro e he
  simp at he
  subst he
  simp [DelEvent.isDelete, DelEvent.isCleanUpIPAM, DelEvent.isCleanUpNamespace]

/-- Witness for C2: the datastore answers "connection refused". -/
theorem CmdDelK8s_get_failure_aborts_witness :
    (CmdDelK8s (fixedAnswers (Except.error ⟨ErrorType.other "net.OpError", "connection refused"⟩)
        none none none) {} {} {} 0).err
      = some ⟨ErrorType.other "net.OpError", "connection refused"⟩ :=
  (CmdDelK8s_get_failure_aborts
    (fixedAnswers (Except.error ⟨ErrorType.other "net.OpError", "connection refused"⟩) none none none)
    {} {} {} 0 1 ⟨ErrorType.other "net.OpError", "connection refused"⟩ rfl (by decide)).1

/-- C3. When the record is found with an empty or matching `ActiveInstanceID` and the
compare-and-delete answers an update conflict, `CmdDelK8s` returns a non-nil error (the
conflict wrapped in "Error deleting endpoint: ..."), the calls made are the `Get` and
one single `Delete` of the metadata just read, and neither the IPAM release nor the
namespace teardown is performed. -/
theorem CmdDelK8s_conflict_aborts {σ : Type} (c : DelEnv σ)
    (ep : WorkloadEndpointMetadata) (args : CmdArgs) (conf : NetConf) (s s1 s2 : σ)
    (wep : WorkloadEndpoint) (err : GoError)
    (hget : c.Get ep s = (Except.ok wep, s1))
    (hown : wep.Metadata.ActiveInstanceID = "" ∨ wep.Metadata.ActiveInstanceID = args.ContainerID)
    (hdel : c.Delete wep.Metadata s1 = (some err, s2))
    (hkind : err.dynType = ErrorType.ErrorResourceUpdateConflict) :
    (CmdDelK8s c ep args conf s).err
        = some (errorsNew ("Error deleting endpoint: endpoint was modified before it could be deleted: "
            ++ err.text))
      ∧ (CmdDelK8s c ep args conf s).err ≠ none
      ∧ (CmdDelK8s c ep args conf s).world = s2
      ∧ (CmdDelK8s c ep args conf s).trace
          = [DelEvent.Get ep (Except.ok wep), DelEvent.Delete wep.Metadata (some err)]
      ∧ ((CmdDelK8s c ep args conf s).trace.filter DelEvent.isDelete).length = 1
      ∧ (∀ e ∈ (CmdDelK8s c ep args conf s).trace,
          e.isCleanUpIPAM = false ∧ e.isCleanUpNamespace = false) := by
  have hcond : ¬ (wep.Metadata.ActiveInstanceID ≠ "" ∧ args.ContainerID ≠ wep.Metadata.ActiveInstanceID) := by
    rintro ⟨h1, h2⟩
    rcases hown with h | h
    · exact h1 h
    · exact h2 h.symm
  have key : CmdDelK8s c ep args conf s =
      ⟨some (errorsNew ("Error deleting endpoint: endpoint was modified before it could be deleted: "
            ++ err.text)), s2,
        [DelEvent.Get ep (Except.ok wep), DelEvent.Delete wep.Metadata (some err)]⟩ := by
    unfold CmdDelK8s
    simp only [hget, hdel]
    rw [if_neg hcond]
    simp only [hkind]
  refine ⟨by rw [key], by rw [key]; simp, by rw [key], by rw [key], ?_, ?_⟩
  · rw [key]
    simp [List.filter, DelEvent.isDelete]
  · rw [key]
    intro e he
    simp at he
    rcases he with he | he <;> subst he <;> simp [DelEvent.isCleanUpIPAM, DelEvent.isCleanUpNamespace]

/-- Witness for C3: the record of container `c1` was modified between the `Get` and the `Delete`. -/
theorem CmdDelK8s_conflict_aborts_witness :
    (CmdDelK8s (fixedAnswers (Except.ok { Metadata := { ActiveInstanceID := "c1" } })
        (some ⟨ErrorType.ErrorResourceUpdateConflict, "update conflict"⟩) none none)
        {} { ContainerID := "c1" } {} 0).err ≠ none :=
  (CmdDelK8s_conflict_aborts
    (fixedAnswers (Except.ok { Metadata := { ActiveInstanceID := "c1" } })
      (some ⟨ErrorType.ErrorResourceUpdateConflict, "update conflict"⟩) none none)
    {} { ContainerID := "c1" } {} 0 1 2 { Metadata := { ActiveInstanceID := "c1" } }
    ⟨ErrorType.ErrorResourceUpdateConflict, "update conflict"⟩ rfl (Or.inr rfl) rfl rfl).2.1

/-- C4. Detach is idempotent over the one-record datastore: for a record owned by the
invocation's `ContainerID` (or with an empty `ActiveInstanceID`), when the IPAM release
and the namespace teardown succeed, two runs of `CmdDelK8s` in succession both return
nil; the first removes the record, and the second sees not-found on its `Get`, issues
no `Delete` and so returns no conflict: its calls are the `Get`, the release and the
teardown. -/
theorem CmdDelK8s_idempotent (ipam : NetConf → CmdArgs → Option GoError)
    (teardown : CmdArgs → Option GoError)
    (ep : WorkloadEndpointMetadata) (args : CmdArgs) (conf : NetConf) (r : WorkloadEndpoint)
    (hown : r.Metadata.ActiveInstanceID = args.ContainerID ∨ r.Metadata.ActiveInstanceID = "")
    (hipam : ipam conf args = none) (hteardown : teardown args = none) :
    (CmdDelK8s (recordStore ipam teardown) ep args conf (some r)).err = none
      ∧ (CmdDelK8s (recordStore ipam teardown) ep args conf (some r)).world = none
      ∧ (CmdDelK8s (recordStore ipam teardown) ep args conf
            (CmdDelK8s (recordStore ipam teardown) ep args conf (some r)).world).err = none
      ∧ (CmdDelK8s (recordStore ipam teardown) ep args conf
            (CmdDelK8s (recordStore ipam teardown) ep args conf (some r)).world).world = none
      ∧ (CmdDelK8s (recordStore ipam teardown) ep args conf
            (CmdDelK8s (recordStore ipam teardown) ep args conf (some r)).world).trace
          = [DelEvent.Get ep
                (Except.error ⟨ErrorType.ErrorResourceDoesNotExist, "resource does not exist"⟩),
              DelEvent.CleanUpIPAM conf args none, DelEvent.CleanUpNamespace args none]
      ∧ (∀ e ∈ (CmdDelK8s (recordStore ipam teardown) ep args conf
            (CmdDelK8s (recordStore ipam teardown) ep args conf (some r)).world).trace,
          e.isDelete = false) := by
  have hcond : ¬ (r.Metadata.ActiveInstanceID ≠ "" ∧ args.ContainerID ≠ r.Metadata.ActiveInstanceID) := by
    rintro ⟨h1, h2⟩
    rcases hown with h | h
    · exact h2 h.symm
    · exact h1 h
  have first : CmdDelK8s (recordStore ipam teardown) ep args conf (some r) =
      ⟨none, none, [DelEvent.Get ep (Except.ok r), DelEvent.Delete r.Metadata none,
        DelEvent.CleanUpIPAM conf args none, DelEvent.CleanUpNamespace args none]⟩ := by
    unfold CmdDelK8s
    simp only [recordStore]
    rw [if_neg hcond]
    simp [CmdDelK8s.cleanUp_eq, hipam, hteardown]
  have second : CmdDelK8s (recordStore ipam teardown) ep args conf none =
      ⟨none, none, [DelEvent.Get ep
          (Except.error ⟨ErrorType.ErrorResourceDoesNotExist, "resource does not exist"⟩),
        DelEvent.CleanUpIPAM conf args none, DelEvent.CleanUpNamespace args none]⟩ := by
    unfold CmdDelK8s
    simp [recordStore, CmdDelK8s.cleanUp_eq, hipam, hteardown]
  rw [first]
  simp only [second]
  refine ⟨trivial, trivial, trivial, trivial, trivial, ?_⟩
  intro e he
  simp at he
  rcases he with he | he | he <;> subst he <;> simp [DelEvent.isDelete]

/-- Witness for C4: container `c1` detaches twice from the record it owns. -/
theorem CmdDelK8s_idempotent_witness :
    (CmdDelK8s (recordStore (fun _ _ => none) (fun _ => none)) {} { ContainerID := "c1" } {}
        (some { Metadata := { ActiveInstanceID := "c1" } })).err = none
      ∧ (CmdDelK8s (recordStore (fun _ _ => none) (fun _ => none)) {} { ContainerID := "c1" } {}
          (CmdDelK8s (recordStore (fun _ _ => none) (fun _ => none)) {} { ContainerID := "c1" } {}
            (some { Metadata := { ActiveInstanceID := "c1" } })).world).err = none :=
  have h := CmdDelK8s_idempotent (fun _ _ => none) (fun _ => none) {} { ContainerID := "c1" } {}
    { Metadata := { ActiveInstanceID := "c1" } } (Or.inl rfl) rfl rfl
  ⟨h.1, h.2.2.1⟩

/-- C5. When the `Get` answers resource-does-not-exist, or the `Get` finds an owned
record and the `Delete` answers resource-does-not-exist, `CmdDelK8s` goes on to make
the IPAM release call and then the namespace teardown call (after the calls `pre`
already made: the `Get` alone in the first case, where no `Delete` is issued; the `Get`
and the `Delete` in the second), and it returns nil exactly when both of these calls
answer nil. -/
theorem CmdDelK8s_not_found_still_cleans_up {σ : Type} (c : DelEnv σ)
    (ep : WorkloadEndpointMetadata) (args : CmdArgs) (conf : NetConf) (s s1 : σ)
    (pre : List DelEvent)
    (h : (∃ err, c.Get ep s = (Except.error err, s1)
            ∧ err.dynType = ErrorType.ErrorResourceDoesNotExist
            ∧ pre = [DelEvent.Get ep (Except.error err)])
      ∨ (∃ wep s0 err, c.Get ep s = (Except.ok wep, s0)
            ∧ (wep.Metadata.ActiveInstanceID = ""
                ∨ wep.Metadata.ActiveInstanceID = args.ContainerID)
            ∧ c.Delete wep.Metadata s0 = (some err, s1)
            ∧ err.dynType = ErrorType.ErrorResourceDoesNotExist
            ∧ pre = [DelEvent.Get ep (Except.ok wep), DelEvent.Delete wep.Metadata (some err)])) :
    (CmdDelK8s c ep args conf s).trace
        = pre ++ [DelEvent.CleanUpIPAM conf args (c.CleanUpIPAM conf args s1).1,
            DelEvent.CleanUpNamespace args
              (c.CleanUpNamespace args (c.CleanUpIPAM conf args s1).2).1]
      ∧ (CmdDelK8s c ep args conf s).world
          = (c.CleanUpNamespace args (c.CleanUpIPAM conf args s1).2).2
      ∧ ((CmdDelK8s c ep args conf s).err = none ↔
          ((c.CleanUpIPAM conf args s1).1 = none
            ∧ (c.CleanUpNamespace args (c.CleanUpIPAM conf args s1).2).1 = none))
      ∧ ((∃ err, c.Get ep s = (Except.error err, s1)) →
          ∀ e ∈ (CmdDelK8s c ep args conf s).trace, e.isDelete = false) := by
  have key : CmdDelK8s c ep args conf s = CmdDelK8s.cleanUp c args conf s1 pre := by
    rcases h with ⟨err, hget, hkind, hpre⟩ | ⟨wep, s0, err, hget, hown, hdel, hkind, hpre⟩
    · unfold CmdDelK8s
      simp only [hget, hkind, hpre, if_true]
    · have hcond : ¬ (wep.Metadata.ActiveInstanceID ≠ ""
          ∧ args.ContainerID ≠ wep.Metadata.ActiveInstanceID) := by
        rintro ⟨h1, h2⟩
        rcases hown with h | h
        · exact h1 h
        · exact h2 h.symm
      unfold CmdDelK8s
      simp only [hget, hdel]
      rw [if_neg hcond]
      simp only [hkind, hpre]
  rw [key, CmdDelK8s.cleanUp_eq]
  refine ⟨rfl, rfl, ?_, ?_⟩
  · cases hn : (c.CleanUpNamespace args (c.CleanUpIPAM conf args s1).2).1 <;> simp
  · rintro ⟨err, hget⟩ e he
    rcases h with ⟨err2, hget2, _, hpre⟩ | ⟨wep, s0, err2, hget2, _⟩
    · subst hpre
      simp at he
      rcases he with he | he | he <;> subst he <;> simp [DelEvent.isDelete]
    · rw [hget] at hget2
      simp at hget2

/-- Witness for C5: the record is absent and the IPAM release fails. -/
theorem CmdDelK8s_not_found_still_cleans_up_witness :
    (CmdDelK8s (recordStore (fun _ _ => some (errorsNew "release failed")) (fun _ => none))
        {} { ContainerID := "c1" } {} none).trace
      = [DelEvent.Get {}
            (Except.error ⟨ErrorType.ErrorResourceDoesNotExist, "resource does not exist"⟩),
          DelEvent.CleanUpIPAM {} { ContainerID := "c1" } (some (errorsNew "release failed")),
          DelEvent.CleanUpNamespace { ContainerID := "c1" } none] :=
  (CmdDelK8s_not_found_still_cleans_up
    (recordStore (fun _ _ => some (errorsNew "release failed")) (fun _ => none))
    {} { ContainerID := "c1" } {} none none
    [DelEvent.Get {}
      (Except.error ⟨ErrorType.ErrorResourceDoesNotExist, "resource does not exist"⟩)]
    (Or.inl ⟨⟨ErrorType.ErrorResourceDoesNotExist, "resource does not exist"⟩, rfl, rfl, rfl⟩)).1

/-- C6. Whenever a run of `CmdDelK8s` makes the IPAM release call, the namespace
teardown call follows it immediately, whatever the release answered, and these two
calls end the run; the value returned is the teardown error if the teardown failed,
otherwise the release error if the release failed, otherwise nil. -/
theorem CmdDelK8s_cleanup_aggregate {σ : Type} (c : DelEnv σ)
    (ep : WorkloadEndpointMetadata) (args : CmdArgs) (conf : NetConf) (s : σ)
    (conf1 : NetConf) (args1 : CmdArgs) (ipamErr : Option GoError)
    (hreach : DelEvent.CleanUpIPAM conf1 args1 ipamErr ∈ (CmdDelK8s c ep args conf s).trace) :
    ∃ (pre : List DelEvent) (nsErr : Option GoError) (s1 : σ),
      (CmdDelK8s c ep args conf s).trace
          = pre ++ [DelEvent.CleanUpIPAM conf args ipamErr, DelEvent.CleanUpNamespace args nsErr]
        ∧ conf1 = conf ∧ args1 = args
        ∧ (∀ e ∈ pre, e.isCleanUpIPAM = false ∧ e.isCleanUpNamespace = false)
        ∧ (c.CleanUpIPAM conf args s1).1 = ipamErr
        ∧ (c.CleanUpNamespace args (c.CleanUpIPAM conf args s1).2).1 = nsErr
        ∧ (CmdDelK8s c ep args conf s).err
            = (match nsErr with
                | some e => some e
                | none => ipamErr)
        ∧ (nsErr = none → (CmdDelK8s c ep args conf s).err = ipamErr) := by
  -- every run either stops before the cleanup or is the cleanup after `Get` (and `Delete`)
  have shape : (∀ e ∈ (CmdDelK8s c ep args conf s).trace, e.isCleanUpIPAM = false)
      ∨ ∃ (pre : List DelEvent) (s1 : σ),
          (∀ e ∈ pre, e.isCleanUpIPAM = false ∧ e.isCleanUpNamespace = false)
            ∧ CmdDelK8s c ep args conf s = CmdDelK8s.cleanUp c args conf s1 pre := by
    unfold CmdDelK8s
    rcases hget : c.Get ep s with ⟨g, s1⟩
    cases g with
    | error err =>
      by_cases hk : err.dynType = ErrorType.ErrorResourceDoesNotExist
      · right
        refine ⟨[DelEvent.Get ep (Except.error err)], s1, ?_, ?_⟩
        · intro e he
          simp at he
          subst he
          simp [DelEvent.isCleanUpIPAM, DelEvent.isCleanUpNamespace]
        · simp [hk]
      · left
        simp [hk, DelEvent.isCleanUpIPAM]
    | ok wep =>
      by_cases hc : wep.Metadata.ActiveInstanceID ≠ ""
          ∧ args.ContainerID ≠ wep.Metadata.ActiveInstanceID
      · left
        simp only []
        rw [if_pos hc]
        simp [DelEvent.isCleanUpIPAM]
      · simp only []
        rw [if_neg hc]
        rcases hdel : c.Delete wep.Metadata s1 with ⟨d, s2⟩
        cases d with
        | none =>
          right
          refine ⟨[DelEvent.Get ep (Except.ok wep), DelEvent.Delete wep.Metadata none], s2, ?_, rfl⟩
          intro e he
          simp at he
          rcases he with he | he <;> subst he <;>
            simp [DelEvent.isCleanUpIPAM, DelEvent.isCleanUpNamespace]
        | some err =>
          cases hk : err.dynType with
          | ErrorResourceDoesNotExist =>
            right
            refine ⟨[DelEvent.Get ep (Except.ok wep), DelEvent.Delete wep.Metadata (some err)],
              s2, ?_, ?_⟩
            · intro e he
              simp at he
              rcases he with he | he <;> subst he <;>
                simp [DelEvent.isCleanUpIPAM, DelEvent.isCleanUpNamespace]
            · simp only [hk]
          | ErrorResourceUpdateConflict =>
            left
            simp [hk, DelEvent.isCleanUpIPAM]
          | errorString =>
            left
            simp [hk, DelEvent.isCleanUpIPAM]
          | other name =>
            left
            simp [hk, DelEvent.isCleanUpIPAM]
  rcases shape with hnone | ⟨pre, s1, hpre, hrun⟩
  · have := hnone _ hreach
    simp [DelEvent.isCleanUpIPAM] at this
  · rw [hrun, CmdDelK8s.cleanUp_eq] at hreach ⊢
    simp only [List.mem_append, List.mem_cons, List.mem_singleton, List.not_mem_nil,
      or_false] at hreach
    rcases hreach with hin | heq | heq
    · have := (hpre _ hin).1
      simp [DelEvent.isCleanUpIPAM] at this
    · injection heq with h1 h2 h3
      refine ⟨pre, (c.CleanUpNamespace args (c.CleanUpIPAM conf args s1).2).1, s1,
        ?_, h1, h2, hpre, h3.symm, rfl, ?_, ?_⟩
      · rw [h3]
      · rw [h3]
      · intro hn
        rw [hn, h3]
    · cases heq

/-- Witness for C6: the record is absent, the release fails and the teardown succeeds;
the release error is what the run returns. -/
theorem CmdDelK8s_cleanup_aggregate_witness :
    DelEvent.CleanUpIPAM {} {} (some (errorsNew "release failed"))
        ∈ (CmdDelK8s (recordStore (fun _ _ => some (errorsNew "release failed")) (fun _ => none))
            {} {} {} none).trace
      ∧ (CmdDelK8s (recordStore (fun _ _ => some (errorsNew "release failed")) (fun _ => none))
            {} {} {} none).err = some (errorsNew "release failed") :=
  have hin : DelEvent.CleanUpIPAM {} {} (some (errorsNew "release failed"))
      ∈ (CmdDelK8s (recordStore (fun _ _ => some (errorsNew "release failed")) (fun _ => none))
          {} {} {} none).trace := by
    simp [CmdDelK8s, recordStore, CmdDelK8s.cleanUp]
  match CmdDelK8s_cleanup_aggregate
      (recordStore (fun _ _ => some (errorsNew "release failed")) (fun _ => none))
      {} {} {} none {} {} (some (errorsNew "release failed")) hin with
  | ⟨_, _, _, h⟩ => ⟨hin, h.2.2.2.2.2.2.2 (h.2.2.2.2.2.1.symm.trans rfl)⟩

/-! ## Theorems: runs of attach code -/

section ActLemmas
variable {σ α β : Type}

/-- Running a sequence is running `Act.bind`. -/
theorem Act.bind_run (x : Act σ α) (f : α → Act σ β) (w : AddWorld σ) :
    (x >>= f) w = Act.bind x f w := rfl

/-- Running `pure a` leaves the world as it is. -/
theorem Act.pure_run (a : α) (w : AddWorld σ) : (pure a : Act σ α) w = (Res.ok a, w) := rfl

theorem Act.Emits_pure (P : AddEvent → Prop) (a : α) : Act.Emits P (pure a : Act σ α) :=
  fun w => ⟨[], by simp [Act.pure_run], by simp⟩

theorem Act.Emits_fail (P : AddEvent → Prop) (e : GoError) : Act.Emits P (Act.fail e : Act σ α) :=
  fun w => ⟨[], by simp [Act.fail], by simp⟩

theorem Act.Emits_panic (P : AddEvent → Prop) (m : String) : Act.Emits P (Act.panic m : Act σ α) :=
  fun w => ⟨[], by simp [Act.panic], by simp⟩

theorem Act.Emits_fatal (P : AddEvent → Prop) : Act.Emits P (Act.fatal : Act σ α) :=
  fun w => ⟨[], by simp [Act.fatal], by simp⟩

theorem Act.Emits_ofResult (P : AddEvent → Prop) (r : Except GoError α) :
    Act.Emits P (Act.ofResult r : Act σ α) := by
  cases r
  · exact Act.Emits_fail P _
  · exact Act.Emits_pure P _

theorem Act.Emits_call (P : AddEvent → Prop) (f : σ → α × σ) (ev : α → AddEvent)
    (h : ∀ a, P (ev a)) : Act.Emits P (Act.call f ev) :=
  fun w => ⟨[ev (f w.ext).1], by simp [Act.call], by simp [h]⟩

theorem Act.Emits_bind (P : AddEvent → Prop) (x : Act σ α) (f : α → Act σ β)
    (hx : Act.Emits P x) (hf : ∀ a, Act.Emits P (f a)) : Act.Emits P (x >>= f) := by
  intro w
  obtain ⟨l1, h1, hp1⟩ := hx w
  rw [Act.bind_run]
  unfold Act.bind
  rcases hxw : x w with ⟨r, w1⟩
  rw [hxw] at h1
  cases r with
  | ok a =>
    obtain ⟨l2, h2, hp2⟩ := hf a w1
    refine ⟨l1 ++ l2, ?_, ?_⟩
    · simp only [h2]
      simp at h1
      rw [h1, List.append_assoc]
    · intro e he
      rcases List.mem_append.mp he with h | h
      · exact hp1 e h
      · exact hp2 e h
  | error e => exact ⟨l1, h1, hp1⟩
  | panic m => exact ⟨l1, h1, hp1⟩
  | exit c => exact ⟨l1, h1, hp1⟩

/-- Before the address annotations are read, a new attach only calls the metadata source. -/
theorem CmdAddK8s.podContext_emits (env : AddEnv σ) (conf : NetConf) (nodename : String)
    (k8sArgs : K8sArgs) (args : CmdArgs) :
    Act.Emits (fun e => e.isMetadataCall = true)
      (CmdAddK8s.podContext env conf nodename k8sArgs args) := by
  unfold CmdAddK8s.podContext CmdAddK8s.labelsAnnotations CmdAddK8s.usePodCidr
    CmdAddK8s.setPools newK8sClient getPodCidr getK8sLabelsAnnotations
  repeat' (first
    | refine Act.Emits_bind _ _ _ ?_ (fun _ => ?_)
    | exact Act.Emits_pure _ _
    | exact Act.Emits_fail _ _
    | exact Act.Emits_panic _ _
    | exact Act.Emits_fatal _
    | exact Act.Emits_ofResult _ _
    | exact Act.Emits_call _ _ _ (fun _ => rfl)
    | split
    | dsimp only)

end ActLemmas

/-! ## Theorems: address resolution -/

/-- C7. In `CmdAddK8s` without a prior endpoint, when the pod's annotations reach the
switch with both `ipAddrs` and `ipAddrsNoIpam` non-empty, the run returns the
configuration error "Can't have both annotations ..." in the world the metadata fetch
left: every call of the run is a call to the metadata source, so there is no
`ipam.ExecAdd`, no entry into `ipAddrsResult` or `overrideIPAMResult`, no networking
and no datastore upsert.  The switch itself (`resolveAddresses`) fails so, touching
nothing, for every such annotation set. -/
theorem CmdAddK8s_both_annotations_rejected {σ : Type} (env : AddEnv σ) (args : CmdArgs)
    (conf : NetConf) (nodename : String) (w w1 : AddWorld σ) (k8sArgs : K8sArgs)
    (ids : String × String) (ctx : PodContext)
    (hargs : env.LoadK8sArgs args.Args = Except.ok k8sArgs)
    (hids : env.GetIdentifiers args = Except.ok ids)
    (hctx : CmdAddK8s.podContext env conf nodename k8sArgs args w = (Res.ok ctx, w1))
    (h1 : ctx.annot.get "cni.projectcalico.org/ipAddrs" ≠ "")
    (h2 : ctx.annot.get "cni.projectcalico.org/ipAddrsNoIpam" ≠ "") :
    CmdAddK8s env args conf nodename none w
        = (Res.error (errorsNew
            "Can't have both annotations: 'ipAddrs' and 'ipAddrsNoIpam' in use at the same time"),
          w1)
      ∧ CmdAddK8s.resolveAddresses env conf ctx.annot ctx.args w1
        = (Res.error (errorsNew
            "Can't have both annotations: 'ipAddrs' and 'ipAddrsNoIpam' in use at the same time"),
          w1)
      ∧ ∃ l, w1.trace = w.trace ++ l
          ∧ ∀ e ∈ l, e.isMetadataCall = true ∧ e.isAddressPath = false
              ∧ e.isDoNetworking = false ∧ e.isApply = false := by
  refine ⟨?_, ?_, ?_⟩
  · unfold CmdAddK8s
    simp only [hargs, hids, Act.ofResult, Act.bind_run, Act.bind, Act.pure_run, hctx]
    simp [CmdAddK8s.resolveAddresses, h1, h2, Act.fail]
  · simp [CmdAddK8s.resolveAddresses, h1, h2, Act.fail]
  · obtain ⟨l, hl, hp⟩ := CmdAddK8s.podContext_emits env conf nodename k8sArgs args w
    rw [hctx] at hl
    refine ⟨l, hl, ?_⟩
    intro e he
    have hm := hp e he
    cases e <;> simp_all [AddEvent.isMetadataCall, AddEvent.isAddressPath,
      AddEvent.isDoNetworking, AddEvent.isApply]

/-- Witness for C7: under the policy type `k8s`, a pod carrying both annotations. -/
theorem CmdAddK8s_both_annotations_rejected_witness :
    (CmdAddK8s
        (sampleEnv { Annotations := [("cni.projectcalico.org/ipAddrs", "[\"10.0.5.9\"]"),
          ("cni.projectcalico.org/ipAddrsNoIpam", "[\"10.0.5.9\"]")] })
        { ContainerID := "c1", IfName := "eth0" } { Policy := { PolicyType := "k8s" } } "node1" none
        ⟨[], 0, []⟩).1
      = Res.error (errorsNew
          "Can't have both annotations: 'ipAddrs' and 'ipAddrsNoIpam' in use at the same time") :=
  congrArg Prod.fst
    (CmdAddK8s_both_annotations_rejected
      (sampleEnv { Annotations := [("cni.projectcalico.org/ipAddrs", "[\"10.0.5.9\"]"),
        ("cni.projectcalico.org/ipAddrsNoIpam", "[\"10.0.5.9\"]")] })
      { ContainerID := "c1", IfName := "eth0" } { Policy := { PolicyType := "k8s" } } "node1"
      ⟨[], 0, []⟩
      ⟨[], 3,
        [AddEvent.ClientConfig "" {} (Except.ok { handle := "config" }),
          AddEvent.NewForConfig { handle := "config" } (Except.ok { handle := "client" }),
          AddEvent.PodsGet { handle := "client" } "default" "web"
            (Except.ok { Annotations := [("cni.projectcalico.org/ipAddrs", "[\"10.0.5.9\"]"),
              ("cni.projectcalico.org/ipAddrsNoIpam", "[\"10.0.5.9\"]")] })]⟩
      { K8S_POD_NAME := "web", K8S_POD_NAMESPACE := "default" } ("default.web", "k8s")
      ⟨[("calico/k8s_ns", "default")],
        [("cni.projectcalico.org/ipAddrs", "[\"10.0.5.9\"]"),
          ("cni.projectcalico.org/ipAddrsNoIpam", "[\"10.0.5.9\"]")],
        { ContainerID := "c1", IfName := "eth0" }⟩
      rfl rfl (by rfl) (by decide) (by decide)).1

/-! ## Theorems: the bypass path, `overrideIPAMResult` -/

/-- The masks `overrideIPAMResult` asks `net.CIDRMask` for are the full masks. -/
theorem CIDRMask_full : CIDRMask 32 32 = [255, 255, 255, 255]
    ∧ CIDRMask 128 128 = List.replicate 16 255 := by
  constructor <;> rfl

/-- On valid literals the loop of `overrideIPAMResult` appends one fabricated
assignment per literal, in order. -/
theorem overrideIPAMResult.loop_valid {σ : Type} (env : AddEnv σ) (ips : List String)
    (acc : List IPConfig) (hvalid : ∀ lit ∈ ips, ∃ ipAddr, env.ParseIP lit = some ipAddr) :
    overrideIPAMResult.loop env ips acc
      = Except.ok (acc ++ ips.filterMap (fun lit => (env.ParseIP lit).map fabricated)) := by
  induction ips generalizing acc with
  | nil => simp [overrideIPAMResult.loop]
  | cons lit rest ih =>
    obtain ⟨ipAddr, hp⟩ := hvalid lit (List.mem_cons_self _ _)
    have hrest : ∀ l ∈ rest, ∃ ipAddr, env.ParseIP l = some ipAddr :=
      fun l hl => hvalid l (List.mem_cons_of_mem _ hl)
    unfold overrideIPAMResult.loop
    simp only [hp]
    rw [ih _ hrest]
    have hfab : fabricated ipAddr =
        { Version := if (IP.To4 ipAddr).isSome then "4" else "6",
          Address := { IP := ipAddr,
                       Mask := if (IP.To4 ipAddr).isSome then CIDRMask 32 32 else CIDRMask 128 128 } } := by
      unfold fabricated
      rw [CIDRMask_full.1, CIDRMask_full.2]
      split <;> rfl
    simp [List.filterMap_cons, hp, hfab]

/-- The loop of `overrideIPAMResult` stops at the first literal that does not parse,
with an error that names it. -/
theorem overrideIPAMResult.loop_invalid {σ : Type} (env : AddEnv σ) (pre : List String)
    (bad : String) (post : List String) (acc : List IPConfig)
    (hpre : ∀ lit ∈ pre, env.ParseIP lit ≠ none) (hbad : env.ParseIP bad = none) :
    overrideIPAMResult.loop env (pre ++ bad :: post) acc
      = Except.error (errorsNew ("Invalid IP format: " ++ bad)) := by
  induction pre generalizing acc with
  | nil => simp [overrideIPAMResult.loop, hbad]
  | cons lit rest ih =>
    have hrest : ∀ l ∈ rest, env.ParseIP l ≠ none :=
      fun l hl => hpre l (List.mem_cons_of_mem _ hl)
    cases hp : env.ParseIP lit with
    | none => exact absurd hp (hpre lit (List.mem_cons_self _ _))
    | some ipAddr =>
      simp only [List.cons_append, overrideIPAMResult.loop, hp]
      exact ih _ hrest

/-- A list with a literal that does not parse splits at the first such literal. -/
theorem exists_first_invalid {σ : Type} (env : AddEnv σ) (ips : List String)
    (h : ∃ lit ∈ ips, env.ParseIP lit = none) :
    ∃ pre bad post, ips = pre ++ bad :: post ∧ (∀ lit ∈ pre, env.ParseIP lit ≠ none)
      ∧ env.ParseIP bad = none := by
  induction ips with
  | nil =>
    obtain ⟨lit, hl, _⟩ := h
    cases hl
  | cons x rest ih =>
    cases hx : env.ParseIP x with
    | none => exact ⟨[], x, rest, rfl, by simp, hx⟩
    | some ipAddr =>
      obtain ⟨lit, hl, hn⟩ := h
      have hin : lit ∈ rest := by
        rcases List.mem_cons.mp hl with h1 | h1
        · rw [h1, hx] at hn
          cases hn
        · exact h1
      obtain ⟨pre, bad, post, he, hp, hb⟩ := ih ⟨lit, hin, hn⟩
      refine ⟨x :: pre, bad, post, by rw [he]; rfl, ?_, hb⟩
      intro l hl2
      rcases List.mem_cons.mp hl2 with h1 | h1
      · rw [h1, hx]
        simp
      · exact hp l h1

/-- What `overrideIPAMResult` does: it records its entry and answers from the literals. -/
theorem overrideIPAMResult_run {σ : Type} (env : AddEnv σ) (a : String) (w : AddWorld σ) :
    overrideIPAMResult env a w =
      ((match env.UnmarshalStrings a with
        | Except.error err =>
          Res.error (errorsNew ("Failed to parse IPs " ++ a
            ++ " for annotation \"cni.projectcalico.org/ipAddrsNoIpam\": "
            ++ ("Failed to parse '" ++ a ++ "' as JSON: " ++ err.text)))
        | Except.ok ips =>
          if ips.length = 0 then
            Res.error (errorsNew
              "Annotation \"cni.projectcalico.org/ipAddrsNoIpam\" specified but empty")
          else
            match overrideIPAMResult.loop env ips [] with
            | Except.error err => Res.error err
            | Except.ok confs => Res.ok { IPs := confs }),
        { w with trace := w.trace ++ [AddEvent.overrideIPAMResult a] }) := by
  unfold overrideIPAMResult parseIPAddrs
  simp only [Act.bind_run, Act.bind, Act.emit]
  cases hj : env.UnmarshalStrings a with
  | error err => simp [Act.fail, errorsNew]
  | ok ips =>
    simp only []
    split
    · simp [Act.fail]
    · cases hl : overrideIPAMResult.loop env ips [] with
      | error err => simp [Act.fail]
      | ok confs => simp [Act.pure_run]

/-- C8. For an `ipAddrsNoIpam` annotation that decodes to a non-empty array of valid
literals, `overrideIPAMResult` succeeds with exactly one assignment per literal, in
the array's order; the assignment of a literal has the parsed literal as its IP,
version "4" and the full /32 mask when the address is an IPv4 address (`To4` is not
nil), version "6" and the full /128 mask otherwise. -/
theorem overrideIPAMResult_one_assignment_per_literal {σ : Type} (env : AddEnv σ) (a : String)
    (ips : List String) (w : AddWorld σ)
    (hjson : env.UnmarshalStrings a = Except.ok ips) (hne : ips ≠ [])
    (hvalid : ∀ lit ∈ ips, ∃ ipAddr, env.ParseIP lit = some ipAddr) :
    ∃ confs : List IPConfig,
      overrideIPAMResult env a w
          = (Res.ok { IPs := confs }, { w with trace := w.trace ++ [AddEvent.overrideIPAMResult a] })
        ∧ confs.length = ips.length
        ∧ List.Forall₂
            (fun lit c => ∃ ipAddr, env.ParseIP lit = some ipAddr ∧ c.Address.IP = ipAddr
              ∧ ((IP.To4 ipAddr).isSome = true →
                    c.Version = "4" ∧ c.Address.Mask = [255, 255, 255, 255])
              ∧ ((IP.To4 ipAddr).isSome = false →
                    c.Version = "6" ∧ c.Address.Mask = List.replicate 16 255))
            ips confs := by
  refine ⟨ips.filterMap (fun lit => (env.ParseIP lit).map fabricated), ?_, ?_, ?_⟩
  · rw [overrideIPAMResult_run, hjson]
    have hlen : ¬ ips.length = 0 := fun h => hne (List.length_eq_zero.mp h)
    simp only [hlen, if_false, overrideIPAMResult.loop_valid env ips [] hvalid, List.nil_append]
  · clear hjson hne
    induction ips with
    | nil => rfl
    | cons lit rest ih =>
      obtain ⟨ipAddr, hp⟩ := hvalid lit (List.mem_cons_self _ _)
      simp [List.filterMap_cons, hp, ih (fun l hl => hvalid l (List.mem_cons_of_mem _ hl))]
  · clear hjson hne
    induction ips with
    | nil => exact List.Forall₂.nil
    | cons lit rest ih =>
      obtain ⟨ipAddr, hp⟩ := hvalid lit (List.mem_cons_self _ _)
      simp only [List.filterMap_cons, hp, Option.map_some']
      refine List.Forall₂.cons ⟨ipAddr, hp, ?_, ?_, ?_⟩
        (ih (fun l hl => hvalid l (List.mem_cons_of_mem _ hl)))
      · unfold fabricated
        split <;> rfl
      · intro h4
        simp [fabricated, h4]
      · intro h6
        simp [fabricated, h6]

/-- Witness for C8: the annotation `["10.0.5.9", "2001:db8::1"]`. -/
theorem overrideIPAMResult_one_assignment_per_literal_witness :
    ∃ confs : List IPConfig,
      overrideIPAMResult (sampleEnv {}) "[\"10.0.5.9\", \"2001:db8::1\"]" ⟨[], 0, []⟩
          = (Res.ok { IPs := confs },
              ⟨[], 0, [AddEvent.overrideIPAMResult "[\"10.0.5.9\", \"2001:db8::1\"]"]⟩)
        ∧ confs.length = 2 :=
  match overrideIPAMResult_one_assignment_per_literal (sampleEnv {})
      "[\"10.0.5.9\", \"2001:db8::1\"]" ["10.0.5.9", "2001:db8::1"] ⟨[], 0, []⟩ rfl (by decide)
      (by
        intro lit hl
        simp only [List.mem_cons, List.mem_singleton, List.not_mem_nil, or_false] at hl
        rcases hl with h | h <;> subst h
        · exact ⟨_, rfl⟩
        · exact ⟨_, rfl⟩) with
  | ⟨confs, h1, h2, _⟩ => ⟨confs, h1, h2⟩

/-! ## Theorems: the requested-address path, `ipAddrsResult` -/

/-- One turn of the loop of `ipAddrsResult`. -/
theorem ipAddrsResult.loop_cons {σ : Type} (env : AddEnv σ) (conf : NetConf) (args : CmdArgs)
    (lit : String) (tl : List String) (result : Result) (w : AddWorld σ) :
    ipAddrsResult.loop env conf args (lit :: tl) result w =
      (match env.ParseIP lit with
        | none => (Res.error (errorsNew ("Invalid IP format: " ++ lit)), w)
        | some ipAddr =>
          match callIPAMWithIP env ipAddr conf args w with
          | (Res.ok r, w1) =>
            (match r.IPs with
              | [] => (Res.panic "index out of range", w1)
              | first :: _ =>
                ipAddrsResult.loop env conf args tl { IPs := result.IPs ++ [first] } w1)
          | (Res.error err, w1) =>
            (Res.error (errorsNew ("Error getting IP from IPAM: " ++ err.text)), w1)
          | (Res.panic m, w1) => (Res.panic m, w1)
          | (Res.exit c, w1) => (Res.exit c, w1)) := by
  rw [ipAddrsResult.loop]
  cases hp : env.ParseIP lit with
  | none => rfl
  | some ipAddr =>
    simp only [Act.bind_run, Act.bind, Act.attempt]
    rcases hc : callIPAMWithIP env ipAddr conf args w with ⟨r, w1⟩
    cases r with
    | ok res =>
      simp only []
      cases hips : res.IPs <;> rfl
    | error e => rfl
    | panic m => rfl
    | exit c => rfl

/-- The loop of `ipAddrsResult` over `pre ++ rest` is the loop over `pre` followed by
the loop over `rest`. -/
theorem ipAddrsResult.loop_append {σ : Type} (env : AddEnv σ) (conf : NetConf) (args : CmdArgs)
    (pre rest : List String) (result : Result) (w : AddWorld σ) :
    ipAddrsResult.loop env conf args (pre ++ rest) result w
      = Act.bind (ipAddrsResult.loop env conf args pre result)
          (fun r => ipAddrsResult.loop env conf args rest r) w := by
  induction pre generalizing result w with
  | nil => simp [ipAddrsResult.loop, Act.bind, Act.pure_run]
  | cons lit tl ih =>
    simp only [List.cons_append]
    unfold Act.bind
    rw [ipAddrsResult.loop_cons, ipAddrsResult.loop_cons]
    cases hp : env.ParseIP lit with
    | none => rfl
    | some ipAddr =>
      simp only []
      rcases hc : callIPAMWithIP env ipAddr conf args w with ⟨r, w1⟩
      cases r with
      | ok res =>
        simp only []
        cases hips : res.IPs with
        | nil => rfl
        | cons first others =>
          simp only []
          rw [ih]
          rfl
      | error e => rfl
      | panic m => rfl
      | exit c => rfl

/-- Over valid literals, the loop of `ipAddrsResult` fails only with an allocator failure. -/
theorem ipAddrsResult.loop_error_is_allocator {σ : Type} (env : AddEnv σ) (conf : NetConf)
    (args : CmdArgs) (ips : List String) (result : Result) (w : AddWorld σ) (e : GoError)
    (hvalid : ∀ lit ∈ ips, env.ParseIP lit ≠ none)
    (herr : (ipAddrsResult.loop env conf args ips result w).1 = Res.error e) :
    ∃ cause, e = errorsNew ("Error getting IP from IPAM: " ++ cause) := by
  induction ips generalizing result w with
  | nil => simp [ipAddrsResult.loop, Act.pure_run] at herr
  | cons lit tl ih =>
    have htl : ∀ l ∈ tl, env.ParseIP l ≠ none := fun l hl => hvalid l (List.mem_cons_of_mem _ hl)
    rw [ipAddrsResult.loop_cons] at herr
    cases hp : env.ParseIP lit with
    | none => exact absurd hp (hvalid lit (List.mem_cons_self _ _))
    | some ipAddr =>
      simp only [hp] at herr
      rcases hc : callIPAMWithIP env ipAddr conf args w with ⟨r, w1⟩
      rw [hc] at herr
      cases r with
      | ok res =>
        simp only [] at herr
        cases hips : res.IPs with
        | nil =>
          rw [hips] at herr
          simp at herr
        | cons first others =>
          rw [hips] at herr
          exact ih _ _ htl herr
      | error e2 =>
        simp only [] at herr
        injection herr with h
        exact ⟨e2.text, h.symm⟩
      | panic m => simp at herr
      | exit c => simp at herr

/-- What `ipAddrsResult` does: it records its entry, decodes the annotation and runs its loop. -/
theorem ipAddrsResult_run {σ : Type} (env : AddEnv σ) (a : String) (conf : NetConf)
    (args : CmdArgs) (w : AddWorld σ) :
    ipAddrsResult env a conf args w =
      (match env.UnmarshalStrings a with
        | Except.error err =>
          (Res.error (errorsNew ("Failed to parse IPs " ++ a
            ++ " for annotation \"cni.projectcalico.org/ipAddrs\": "
            ++ ("Failed to parse '" ++ a ++ "' as JSON: " ++ err.text))),
            { w with trace := w.trace ++ [AddEvent.ipAddrsResult a] })
        | Except.ok ips =>
          if ips.length = 0 then
            (Res.error (errorsNew "Annotation \"cni.projectcalico.org/ipAddrs\" specified but empty"),
              { w with trace := w.trace ++ [AddEvent.ipAddrsResult a] })
          else
            ipAddrsResult.loop env conf args ips {}
              { w with trace := w.trace ++ [AddEvent.ipAddrsResult a] }) := by
  unfold ipAddrsResult parseIPAddrs
  simp only [Act.bind_run, Act.bind, Act.emit]
  cases hj : env.UnmarshalStrings a with
  | error err => simp [Act.fail, errorsNew]
  | ok ips =>
    simp only []
    split
    · simp [Act.fail]
    · rfl

/-- C9. Resolution of an address annotation fails exactly on a value that does not
decode as a JSON array of strings, on an empty array, and on an array with an element
that is not a valid literal.  For `overrideIPAMResult`: it fails if and only if one of
the three holds, it never ends otherwise than by a result or an error, and on an
invalid element the error is "Invalid IP format: " followed by the first such literal.
For `ipAddrsResult`: on a value that does not decode or on an empty array it fails
having made no call but its own entry (no allocator call); when the literals before
the first invalid one have been allocated, it fails with "Invalid IP format: " and that
literal in the world those allocations left (no call for the literal itself); and with
a non-empty array of valid literals, its only failures are allocator failures
("Error getting IP from IPAM: ..."). -/
theorem address_annotation_fails_iff_malformed {σ : Type} (env : AddEnv σ) (a : String)
    (conf : NetConf) (args : CmdArgs) (w : AddWorld σ) :
    ((∃ e, (overrideIPAMResult env a w).1 = Res.error e) ↔
        ((∃ err, env.UnmarshalStrings a = Except.error err)
          ∨ env.UnmarshalStrings a = Except.ok []
          ∨ ∃ ips, env.UnmarshalStrings a = Except.ok ips ∧ ∃ lit ∈ ips, env.ParseIP lit = none))
      ∧ ((∃ r, (overrideIPAMResult env a w).1 = Res.ok r)
          ∨ (∃ e, (overrideIPAMResult env a w).1 = Res.error e))
      ∧ (∀ pre bad post, env.UnmarshalStrings a = Except.ok (pre ++ bad :: post) →
          (∀ lit ∈ pre, env.ParseIP lit ≠ none) → env.ParseIP bad = none →
          (overrideIPAMResult env a w).1 = Res.error (errorsNew ("Invalid IP format: " ++ bad)))
      ∧ (((∃ err, env.UnmarshalStrings a = Except.error err)
            ∨ env.UnmarshalStrings a = Except.ok []) →
          ∃ e, ipAddrsResult env a conf args w
            = (Res.error e, { w with trace := w.trace ++ [AddEvent.ipAddrsResult a] }))
      ∧ (∀ pre bad post r w1, env.UnmarshalStrings a = Except.ok (pre ++ bad :: post) →
          env.ParseIP bad = none →
          ipAddrsResult.loop env conf args pre {}
              { w with trace := w.trace ++ [AddEvent.ipAddrsResult a] } = (Res.ok r, w1) →
          ipAddrsResult env a conf args w
            = (Res.error (errorsNew ("Invalid IP format: " ++ bad)), w1))
      ∧ (∀ ips e, env.UnmarshalStrings a = Except.ok ips → ips ≠ [] →
          (∀ lit ∈ ips, env.ParseIP lit ≠ none) →
          (ipAddrsResult env a conf args w).1 = Res.error e →
          ∃ cause, e = errorsNew ("Error getting IP from IPAM: " ++ cause)) := by
  have hbadcase : ∀ pre bad post, env.UnmarshalStrings a = Except.ok (pre ++ bad :: post) →
      (∀ lit ∈ pre, env.ParseIP lit ≠ none) → env.ParseIP bad = none →
      (overrideIPAMResult env a w).1 = Res.error (errorsNew ("Invalid IP format: " ++ bad)) := by
    intro pre bad post hj hpre hbad
    rw [overrideIPAMResult_run, hj]
    have hlen : ¬ (pre ++ bad :: post).length = 0 := by simp
    simp only [hlen, if_false, overrideIPAMResult.loop_invalid env pre bad post [] hpre hbad]
  refine ⟨⟨?_, ?_⟩, ?_, hbadcase, ?_, ?_, ?_⟩
  · -- a failure comes from one of the three causes
    rintro ⟨e, he⟩
    rw [overrideIPAMResult_run] at he
    cases hj : env.UnmarshalStrings a with
    | error err => exact Or.inl ⟨err, rfl⟩
    | ok ips =>
      right
      by_cases hnil : ips = []
      · left
        rw [hnil]
      · right
        refine ⟨ips, rfl, ?_⟩
        by_contra hno
        have hvalid : ∀ lit ∈ ips, ∃ ipAddr, env.ParseIP lit = some ipAddr := by
          intro lit hl
          cases hp : env.ParseIP lit with
          | none => exact absurd ⟨lit, hl, hp⟩ hno
          | some ipAddr => exact ⟨ipAddr, rfl⟩
        have hlen : ¬ ips.length = 0 := fun h => hnil (List.length_eq_zero.mp h)
        simp only [hj, hlen, if_false, overrideIPAMResult.loop_valid env ips [] hvalid] at he
        cases he
  · -- each of the three causes is a failure
    rintro (⟨err, hj⟩ | hj | ⟨ips, hj, lit, hl, hn⟩)
    · rw [overrideIPAMResult_run, hj]
      exact ⟨_, rfl⟩
    · rw [overrideIPAMResult_run, hj]
      exact ⟨_, rfl⟩
    · obtain ⟨pre, bad, post, he, hpre, hbad⟩ := exists_first_invalid env ips ⟨lit, hl, hn⟩
      rw [he] at hj
      exact ⟨_, hbadcase pre bad post hj hpre hbad⟩
  · rw [overrideIPAMResult_run]
    cases hj : env.UnmarshalStrings a with
    | error err => exact Or.inr ⟨_, rfl⟩
    | ok ips =>
      simp only []
      split
      · exact Or.inr ⟨_, rfl⟩
      · cases hl : overrideIPAMResult.loop env ips [] with
        | error err => exact Or.inr ⟨_, rfl⟩
        | ok confs => exact Or.inl ⟨_, rfl⟩
  · rintro (⟨err, hj⟩ | hj)
    · rw [ipAddrsResult_run, hj]
      exact ⟨_, rfl⟩
    · rw [ipAddrsResult_run, hj]
      exact ⟨_, rfl⟩
  · intro pre bad post r w1 hj hbad hloop
    rw [ipAddrsResult_run, hj]
    have hlen : ¬ (pre ++ bad :: post).length = 0 := by simp
    simp only [hlen, if_false]
    rw [ipAddrsResult.loop_append]
    unfold Act.bind
    rw [hloop]
    simp only []
    rw [ipAddrsResult.loop_cons, hbad]
  · intro ips e hj hne hvalid herr
    rw [ipAddrsResult_run, hj] at herr
    have hlen : ¬ ips.length = 0 := fun h => hne (List.length_eq_zero.mp h)
    simp only [hlen, if_false] at herr
    exact ipAddrsResult.loop_error_is_allocator env conf args ips _ _ e hvalid herr

/-- Witness for C9: the second literal of `["10.0.5.9", "bogus"]` is named by the error. -/
theorem address_annotation_fails_iff_malformed_witness :
    (overrideIPAMResult (sampleEnv {}) "[\"10.0.5.9\", \"bogus\"]" ⟨[], 0, []⟩).1
      = Res.error (errorsNew "Invalid IP format: bogus") :=
  (address_annotation_fails_iff_malformed (sampleEnv {}) "[\"10.0.5.9\", \"bogus\"]" {} {}
    ⟨[], 0, []⟩).2.2.1 ["10.0.5.9"] "bogus" [] rfl
    (by
      intro lit hl
      simp only [List.mem_singleton] at hl
      subst hl
      simp [sampleEnv])
    rfl

/-- A variable just set is read back. -/
theorem StringMap.get_set (m : StringMap) (key value : String) :
    (m.set key value).get key = value := by
  simp [StringMap.get, StringMap.set]

/-- The allocator calls of a trace made of two parts. -/
theorem execAddCalls_append (l1 l2 : List AddEvent) :
    execAddCalls (l1 ++ l2) = execAddCalls l1 ++ execAddCalls l2 := by
  induction l1 with
  | nil => rfl
  | cons e tl ih => cases e <;> simp [execAddCalls, ih]

/-- A run of `callIPAMWithIP` in which every step succeeds: the allocator is called
once, with `CNI_ARGS` extended by `;IP=` and the address, and `CNI_ARGS` is restored. -/
theorem callIPAMWithIP_success {σ : Type} (env : AddEnv σ) (ip : IP) (conf : NetConf)
    (args : CmdArgs) (w : AddWorld σ)
    (hload : ∃ x, env.LoadIPAMArgs args.Args = Except.ok x)
    (hset : ∀ k v s, (env.SetenvError k v s).1 = none)
    (hexec : ∀ environ s, ∃ r res first rest,
      (env.ExecAdd conf.IPAM.Type' args.StdinData environ s).1 = Except.ok r
        ∧ env.NewResultFromResult r = Except.ok res ∧ res.IPs = first :: rest) :
    ∃ r res w1, callIPAMWithIP env ip conf args w = (Res.ok res, w1)
      ∧ w1.trace = w.trace ++
          [AddEvent.Getenv "CNI_ARGS" (w.environ.get "CNI_ARGS"),
            AddEvent.Setenv "CNI_ARGS" (w.environ.get "CNI_ARGS" ++ ";IP=" ++ env.IPString ip) none,
            AddEvent.ExecAdd conf.IPAM.Type' args.StdinData
              (w.environ.get "CNI_ARGS" ++ ";IP=" ++ env.IPString ip) (Except.ok r),
            AddEvent.Setenv "CNI_ARGS" (w.environ.get "CNI_ARGS") none]
      ∧ env.NewResultFromResult r = Except.ok res
      ∧ res.IPs ≠ []
      ∧ w1.environ.get "CNI_ARGS" = w.environ.get "CNI_ARGS" := by
  obtain ⟨x, hx⟩ := hload
  obtain ⟨r, res, first, rest, hr, hres, hips⟩ := hexec
    (w.environ.set "CNI_ARGS" (w.environ.get "CNI_ARGS" ++ ";IP=" ++ env.IPString ip))
    (env.SetenvError "CNI_ARGS" (w.environ.get "CNI_ARGS" ++ ";IP=" ++ env.IPString ip) w.ext).2
  refine ⟨r, res, (callIPAMWithIP env ip conf args w).2, ?_, ?_, hres, ?_, ?_⟩
  · unfold callIPAMWithIP
    simp [Act.bind_run, Act.bind, osGetenv, hx, Act.ofResult, Act.pure_run, osSetenv, hset,
      ipamExecAdd, hr, hres, hips, StringMap.get_set]
  · unfold callIPAMWithIP
    simp [Act.bind_run, Act.bind, osGetenv, hx, Act.ofResult, Act.pure_run, osSetenv, hset,
      ipamExecAdd, hr, hres, hips, StringMap.get_set]
  · rw [hips]
    simp
  · unfold callIPAMWithIP
    simp [Act.bind_run, Act.bind, osGetenv, hx, Act.ofResult, Act.pure_run, osSetenv, hset,
      ipamExecAdd, hr, hres, hips, StringMap.get_set]

/-- What a successful run of `callIPAMWithIP` has done: it called the allocator once, with
`CNI_ARGS` extended by `;IP=` and the address, took a result with at least one address
from its answer, and restored `CNI_ARGS`. -/
theorem callIPAMWithIP_inv {σ : Type} (env : AddEnv σ) (ip : IP) (conf : NetConf)
    (args : CmdArgs) (w w1 : AddWorld σ) (res : Result)
    (h : callIPAMWithIP env ip conf args w = (Res.ok res, w1)) :
    ∃ r, w1.trace = w.trace ++
          [AddEvent.Getenv "CNI_ARGS" (w.environ.get "CNI_ARGS"),
            AddEvent.Setenv "CNI_ARGS" (w.environ.get "CNI_ARGS" ++ ";IP=" ++ env.IPString ip) none,
            AddEvent.ExecAdd conf.IPAM.Type' args.StdinData
              (w.environ.get "CNI_ARGS" ++ ";IP=" ++ env.IPString ip) (Except.ok r),
            AddEvent.Setenv "CNI_ARGS" (w.environ.get "CNI_ARGS") none]
      ∧ env.NewResultFromResult r = Except.ok res
      ∧ res.IPs ≠ []
      ∧ w1.environ.get "CNI_ARGS" = w.environ.get "CNI_ARGS" := by
  unfold callIPAMWithIP at h
  simp only [Act.bind_run, Act.bind, osGetenv] at h
  cases hx : env.LoadIPAMArgs args.Args with
  | error e => simp [hx, Act.ofResult, Act.fail] at h
  | ok x =>
    simp only [hx, Act.ofResult, Act.pure_run, osSetenv] at h
    cases hs1 : (env.SetenvError "CNI_ARGS" (w.environ.get "CNI_ARGS" ++ ";IP=" ++ env.IPString ip)
        w.ext).1 with
    | some e => simp [hs1, Act.fail] at h
    | none =>
      simp only [hs1, if_true, ipamExecAdd, Act.bind_run, Act.bind] at h
      cases hr : (env.ExecAdd conf.IPAM.Type' args.StdinData
          (w.environ.set "CNI_ARGS" (w.environ.get "CNI_ARGS" ++ ";IP=" ++ env.IPString ip))
          (env.SetenvError "CNI_ARGS" (w.environ.get "CNI_ARGS" ++ ";IP=" ++ env.IPString ip)
            w.ext).2).1 with
      | error e => simp [hr, osSetenv, Act.fail, Act.bind_run, Act.bind] at h
      | ok r =>
        simp only [hr, osSetenv, Act.bind_run, Act.bind] at h
        cases hs2 : (env.SetenvError "CNI_ARGS" (w.environ.get "CNI_ARGS")
            (env.ExecAdd conf.IPAM.Type' args.StdinData
              (w.environ.set "CNI_ARGS" (w.environ.get "CNI_ARGS" ++ ";IP=" ++ env.IPString ip))
              (env.SetenvError "CNI_ARGS" (w.environ.get "CNI_ARGS" ++ ";IP=" ++ env.IPString ip)
                w.ext).2).2).1 with
        | some e => simp [hs2, ReleaseIPAllocation, Act.fail, Act.bind_run, Act.bind, osSetenv] at h
        | none =>
          simp only [hs2, if_true, Act.bind_run, Act.bind, osSetenv] at h
          cases hres : env.NewResultFromResult r with
          | error e => simp [hres, Act.fail, Act.bind_run, Act.bind] at h
          | ok res2 =>
            simp only [hres, Act.pure_run, Act.bind_run, Act.bind] at h
            by_cases hlen : res2.IPs.length = 0
            · simp [hlen, Act.fail] at h
            · simp only [hlen, if_false, Act.pure_run, Prod.mk.injEq, Res.ok.injEq] at h
              obtain ⟨h1, h2⟩ := h
              subst h1
              subst h2
              refine ⟨r, ?_, hres, ?_, ?_⟩
              · simp [StringMap.get_set]
              · intro hnil
                exact hlen (by rw [hnil]; rfl)
              · simp [StringMap.get_set]

/-- When every allocator call succeeds, the loop of `ipAddrsResult` calls the allocator
once per literal, in order, and appends the first address of each answer. -/
theorem ipAddrsResult.loop_success {σ : Type} (env : AddEnv σ) (conf : NetConf) (args : CmdArgs)
    (ips : List String) (hvalid : ∀ lit ∈ ips, ∃ ipAddr, env.ParseIP lit = some ipAddr)
    (hcall : ∀ lit ∈ ips, ∀ ipAddr, env.ParseIP lit = some ipAddr →
      ∀ w0, ∃ res w1, callIPAMWithIP env ipAddr conf args w0 = (Res.ok res, w1))
    (result : Result) (w : AddWorld σ) :
    ∃ res w1 l, ipAddrsResult.loop env conf args ips result w = (Res.ok res, w1)
      ∧ w1.trace = w.trace ++ l
      ∧ (execAddCalls l).map Prod.fst
          = ips.map (fun lit => w.environ.get "CNI_ARGS" ++ ";IP="
              ++ env.IPString ((env.ParseIP lit).getD []))
      ∧ res.IPs = result.IPs ++ (execAddCalls l).filterMap (fun c => firstAssignment env c.2)
      ∧ res.IPs.length = result.IPs.length + ips.length
      ∧ w1.environ.get "CNI_ARGS" = w.environ.get "CNI_ARGS" := by
  induction ips generalizing result w with
  | nil =>
    exact ⟨result, w, [], rfl, by simp, by simp [execAddCalls], by simp [execAddCalls], by simp, rfl⟩
  | cons lit tl ih =>
    obtain ⟨ipAddr, hp⟩ := hvalid lit (List.mem_cons_self _ _)
    obtain ⟨res0, w0, hrun⟩ := hcall lit (List.mem_cons_self _ _) ipAddr hp w
    obtain ⟨r, htr, hres, hne, henv⟩ := callIPAMWithIP_inv env ipAddr conf args w w0 res0 hrun
    cases hips : res0.IPs with
    | nil => exact absurd hips hne
    | cons first others =>
      obtain ⟨res, w1, l, hloop, htr1, hcalls, hres1, hlen, henv1⟩ :=
        ih (fun l hl => hvalid l (List.mem_cons_of_mem _ hl))
          (fun l hl => hcall l (List.mem_cons_of_mem _ hl)) { IPs := result.IPs ++ [first] } w0
      refine ⟨res, w1,
        [AddEvent.Getenv "CNI_ARGS" (w.environ.get "CNI_ARGS"),
          AddEvent.Setenv "CNI_ARGS" (w.environ.get "CNI_ARGS" ++ ";IP=" ++ env.IPString ipAddr) none,
          AddEvent.ExecAdd conf.IPAM.Type' args.StdinData
            (w.environ.get "CNI_ARGS" ++ ";IP=" ++ env.IPString ipAddr) (Except.ok r),
          AddEvent.Setenv "CNI_ARGS" (w.environ.get "CNI_ARGS") none] ++ l, ?_, ?_, ?_, ?_, ?_, ?_⟩
      · rw [ipAddrsResult.loop_cons, hp]
        simp only [hrun, hips]
        exact hloop
      · rw [htr1, htr, List.append_assoc]
      · rw [execAddCalls_append]
        simp only [execAddCalls, List.map_append, List.map_cons, List.map_nil, hcalls, henv,
          hp, Option.getD_some, List.singleton_append]
      · rw [execAddCalls_append, hres1]
        simp [execAddCalls, firstAssignment, hres, hips]
      · rw [hlen]
        simp
        omega
      · rw [henv1, henv]

/-- C10. For an `ipAddrs` annotation that decodes to a non-empty array of valid
literals, when every allocator call (`callIPAMWithIP` for a literal of the array)
succeeds, `ipAddrsResult` succeeds; it invokes the allocator plugin exactly once per
literal, in annotation order, each time with `CNI_ARGS` extended by `;IP=` and the
textual form of the parsed literal (the literal itself when it is written in that
form); its result holds exactly one assignment per literal, the first address of the
corresponding allocator answer, in the same order; and `CNI_ARGS` is as before.  For a
single-element array there is one call and one assignment. -/
theorem ipAddrsResult_one_allocation_per_literal {σ : Type} (env : AddEnv σ) (a : String)
    (conf : NetConf) (args : CmdArgs) (ips : List String) (w : AddWorld σ)
    (hjson : env.UnmarshalStrings a = Except.ok ips) (hne : ips ≠ [])
    (hvalid : ∀ lit ∈ ips, ∃ ipAddr, env.ParseIP lit = some ipAddr)
    (hcall : ∀ lit ∈ ips, ∀ ipAddr, env.ParseIP lit = some ipAddr →
      ∀ w0, ∃ res w1, callIPAMWithIP env ipAddr conf args w0 = (Res.ok res, w1)) :
    ∃ result w1 l, ipAddrsResult env a conf args w = (Res.ok result, w1)
      ∧ w1.trace = w.trace ++ AddEvent.ipAddrsResult a :: l
      ∧ (execAddCalls l).map Prod.fst
          = ips.map (fun lit => w.environ.get "CNI_ARGS" ++ ";IP="
              ++ env.IPString ((env.ParseIP lit).getD []))
      ∧ ((∀ lit ∈ ips, env.IPString ((env.ParseIP lit).getD []) = lit) →
          (execAddCalls l).map Prod.fst
            = ips.map (fun lit => w.environ.get "CNI_ARGS" ++ ";IP=" ++ lit))
      ∧ (execAddCalls l).length = ips.length
      ∧ result.IPs = (execAddCalls l).filterMap (fun c => firstAssignment env c.2)
      ∧ result.IPs.length = ips.length
      ∧ w1.environ.get "CNI_ARGS" = w.environ.get "CNI_ARGS"
      ∧ (∀ lit, ips = [lit] → (execAddCalls l).length = 1 ∧ result.IPs.length = 1) := by
  obtain ⟨res, w1, l, hloop, htr, hcalls, hres, hlen, henv⟩ :=
    ipAddrsResult.loop_success env conf args ips hvalid hcall {}
      { w with trace := w.trace ++ [AddEvent.ipAddrsResult a] }
  have hcount : (execAddCalls l).length = ips.length := by
    have := congrArg List.length hcalls
    simpa using this
  have hlen2 : res.IPs.length = ips.length := by
    rw [hlen]
    simp
  refine ⟨res, w1, l, ?_, ?_, hcalls, ?_, hcount, ?_, hlen2, henv, ?_⟩
  · rw [ipAddrsResult_run, hjson]
    have hl : ¬ ips.length = 0 := fun h => hne (List.length_eq_zero.mp h)
    simp only [hl, if_false]
    exact hloop
  · rw [htr]
    simp
  · intro hcanon
    rw [hcalls]
    apply List.map_congr_left
    intro lit hl
    rw [hcanon lit hl]
  · rw [hres]
    simp
  · intro lit hl
    rw [hcount, hlen2, hl]
    simp

/-- Witness for C10: the annotation `["10.0.5.9"]` with allocator type `X`; the
allocator is called once, with `CNI_ARGS` ending in `;IP=10.0.5.9`, and the result holds
the one assignment it answered. -/
theorem ipAddrsResult_one_allocation_per_literal_witness :
    (∃ result w1 l,
        ipAddrsResult (sampleEnv {}) "[\"10.0.5.9\"]" { IPAM := { Type' := "X" } } {} ⟨[], 0, []⟩
          = (Res.ok result, w1)
        ∧ (execAddCalls l).map Prod.fst = [";IP=10.0.5.9"] ∧ result.IPs.length = 1)
      ∧ (ipAddrsResult (sampleEnv {}) "[\"10.0.5.9\"]" { IPAM := { Type' := "X" } } {}
            ⟨[], 0, []⟩).1
          = Res.ok { IPs := [{ Version := "4",
                               Address := ⟨[10, 0, 5, 9], [255, 255, 255, 255]⟩ }] } :=
  ⟨match ipAddrsResult_one_allocation_per_literal (sampleEnv {}) "[\"10.0.5.9\"]"
      { IPAM := { Type' := "X" } } {} ["10.0.5.9"] ⟨[], 0, []⟩ rfl (by decide)
      (by
        intro lit hl
        simp only [List.mem_singleton] at hl
        subst hl
        exact ⟨_, rfl⟩)
      (fun _ _ ipAddr _ w0 =>
        match callIPAMWithIP_success (sampleEnv {}) ipAddr { IPAM := { Type' := "X" } } {} w0
          ⟨none, rfl⟩ (fun _ _ _ => rfl) (fun _ _ => ⟨_, _, _, _, rfl, rfl, rfl⟩) with
        | ⟨_, res, w1, h, _⟩ => ⟨res, w1, h⟩) with
    | ⟨result, w1, l, h1, _, h3, _, _, _, h7, _⟩ => ⟨result, w1, l, h1, h3, h7⟩,
   rfl⟩

/-! ## Theorems: the allocator call, `callIPAMWithIP` -/

/-- The five ways a run of `callIPAMWithIP` can go, with the calls it makes after reading
`CNI_ARGS`: the arguments do not load; the first environment write fails; the allocator
fails (the restoring write is made, its failure is not looked at); the allocator
succeeds and the restoring write fails (the addresses are released); the allocator
succeeds and the restoring write succeeds (the answer is then converted). -/
theorem callIPAMWithIP_cases {σ : Type} (env : AddEnv σ) (ip : IP) (conf : NetConf)
    (args : CmdArgs) (w : AddWorld σ) :
    ∃ l, (callIPAMWithIP env ip conf args w).2.trace
        = w.trace ++ AddEvent.Getenv "CNI_ARGS" (w.environ.get "CNI_ARGS") :: l
      ∧ ((∃ e, env.LoadIPAMArgs args.Args = Except.error e ∧ l = []
            ∧ (callIPAMWithIP env ip conf args w).1 = Res.error e
            ∧ (callIPAMWithIP env ip conf args w).2.environ = w.environ)
        ∨ (∃ x err, env.LoadIPAMArgs args.Args = Except.ok x
            ∧ l = [AddEvent.Setenv "CNI_ARGS"
                (w.environ.get "CNI_ARGS" ++ ";IP=" ++ env.IPString ip) (some err)]
            ∧ (callIPAMWithIP env ip conf args w).1
                = Res.error (errorsNew ("Error setting CNI_ARGS environment variable: " ++ err.text))
            ∧ (callIPAMWithIP env ip conf args w).2.environ = w.environ)
        ∨ (∃ x err restore, env.LoadIPAMArgs args.Args = Except.ok x
            ∧ l = [AddEvent.Setenv "CNI_ARGS"
                  (w.environ.get "CNI_ARGS" ++ ";IP=" ++ env.IPString ip) none,
                AddEvent.ExecAdd conf.IPAM.Type' args.StdinData
                  (w.environ.get "CNI_ARGS" ++ ";IP=" ++ env.IPString ip) (Except.error err),
                AddEvent.Setenv "CNI_ARGS" (w.environ.get "CNI_ARGS") restore]
            ∧ (callIPAMWithIP env ip conf args w).1 = Res.error err
            ∧ (restore = none →
                (callIPAMWithIP env ip conf args w).2.environ.get "CNI_ARGS"
                  = w.environ.get "CNI_ARGS"))
        ∨ (∃ x r err, env.LoadIPAMArgs args.Args = Except.ok x
            ∧ l = [AddEvent.Setenv "CNI_ARGS"
                  (w.environ.get "CNI_ARGS" ++ ";IP=" ++ env.IPString ip) none,
                AddEvent.ExecAdd conf.IPAM.Type' args.StdinData
                  (w.environ.get "CNI_ARGS" ++ ";IP=" ++ env.IPString ip) (Except.ok r),
                AddEvent.Setenv "CNI_ARGS" (w.environ.get "CNI_ARGS") (some err),
                AddEvent.ReleaseIPAllocation conf.IPAM.Type' args.StdinData]
            ∧ (callIPAMWithIP env ip conf args w).1 = Res.error err)
        ∨ (∃ x r, env.LoadIPAMArgs args.Args = Except.ok x
            ∧ l = [AddEvent.Setenv "CNI_ARGS"
                  (w.environ.get "CNI_ARGS" ++ ";IP=" ++ env.IPString ip) none,
                AddEvent.ExecAdd conf.IPAM.Type' args.StdinData
                  (w.environ.get "CNI_ARGS" ++ ";IP=" ++ env.IPString ip) (Except.ok r),
                AddEvent.Setenv "CNI_ARGS" (w.environ.get "CNI_ARGS") none]
            ∧ (callIPAMWithIP env ip conf args w).2.environ.get "CNI_ARGS"
                = w.environ.get "CNI_ARGS"
            ∧ (callIPAMWithIP env ip conf args w).1
                = (match env.NewResultFromResult r with
                    | Except.error e => Res.error e
                    | Except.ok res =>
                      if res.IPs.length = 0 then
                        Res.error (errorsNew "IPAM plugin returned missing IP config")
                      else Res.ok res))) := by
  unfold callIPAMWithIP
  simp only [Act.bind_run, Act.bind, osGetenv]
  cases hx : env.LoadIPAMArgs args.Args with
  | error e =>
    refine ⟨[], ?_, Or.inl ⟨e, rfl, rfl, ?_, ?_⟩⟩ <;> simp [Act.ofResult, Act.fail]
  | ok x =>
    simp only [Act.ofResult, Act.pure_run, osSetenv]
    cases hs1 : (env.SetenvError "CNI_ARGS" (w.environ.get "CNI_ARGS" ++ ";IP=" ++ env.IPString ip)
        w.ext).1 with
    | some err =>
      refine ⟨[AddEvent.Setenv "CNI_ARGS"
          (w.environ.get "CNI_ARGS" ++ ";IP=" ++ env.IPString ip) (some err)], ?_,
        Or.inr (Or.inl ⟨x, err, rfl, rfl, ?_, ?_⟩)⟩ <;> simp [Act.fail]
    | none =>
      simp only [if_true, ipamExecAdd, Act.bind_run, Act.bind, osSetenv]
      generalize (env.SetenvError "CNI_ARGS" (w.environ.get "CNI_ARGS" ++ ";IP=" ++ env.IPString ip)
        w.ext).2 = e1
      cases hr : (env.ExecAdd conf.IPAM.Type' args.StdinData
          (w.environ.set "CNI_ARGS" (w.environ.get "CNI_ARGS" ++ ";IP=" ++ env.IPString ip)) e1).1 with
      | error err =>
        simp only [Act.bind_run, Act.bind, osSetenv, Act.fail]
        generalize (env.ExecAdd conf.IPAM.Type' args.StdinData
          (w.environ.set "CNI_ARGS" (w.environ.get "CNI_ARGS" ++ ";IP=" ++ env.IPString ip)) e1).2 = e2
        refine ⟨[AddEvent.Setenv "CNI_ARGS"
              (w.environ.get "CNI_ARGS" ++ ";IP=" ++ env.IPString ip) none,
            AddEvent.ExecAdd conf.IPAM.Type' args.StdinData
              (w.environ.get "CNI_ARGS" ++ ";IP=" ++ env.IPString ip) (Except.error err),
            AddEvent.Setenv "CNI_ARGS" (w.environ.get "CNI_ARGS")
              (env.SetenvError "CNI_ARGS" (w.environ.get "CNI_ARGS") e2).1], ?_,
          Or.inr (Or.inr (Or.inl ⟨x, err, _, rfl, rfl, rfl, ?_⟩))⟩
        · simp [StringMap.get_set]
        · intro hnone
          simp [hnone, StringMap.get_set]
      | ok r =>
        simp only [Act.bind_run, Act.bind, osSetenv]
        generalize (env.ExecAdd conf.IPAM.Type' args.StdinData
          (w.environ.set "CNI_ARGS" (w.environ.get "CNI_ARGS" ++ ";IP=" ++ env.IPString ip)) e1).2 = e2
        cases hs2 : (env.SetenvError "CNI_ARGS" (w.environ.get "CNI_ARGS") e2).1 with
        | some err =>
          simp only [ReleaseIPAllocation, Act.fail, Act.bind_run, Act.bind]
          refine ⟨[AddEvent.Setenv "CNI_ARGS"
                (w.environ.get "CNI_ARGS" ++ ";IP=" ++ env.IPString ip) none,
              AddEvent.ExecAdd conf.IPAM.Type' args.StdinData
                (w.environ.get "CNI_ARGS" ++ ";IP=" ++ env.IPString ip) (Except.ok r),
              AddEvent.Setenv "CNI_ARGS" (w.environ.get "CNI_ARGS") (some err),
              AddEvent.ReleaseIPAllocation conf.IPAM.Type' args.StdinData], ?_,
            Or.inr (Or.inr (Or.inr (Or.inl ⟨x, r, err, rfl, rfl, rfl⟩)))⟩
          simp [StringMap.get_set]
        | none =>
          simp only [if_true, Act.bind_run, Act.bind]
          refine ⟨[AddEvent.Setenv "CNI_ARGS"
                (w.environ.get "CNI_ARGS" ++ ";IP=" ++ env.IPString ip) none,
              AddEvent.ExecAdd conf.IPAM.Type' args.StdinData
                (w.environ.get "CNI_ARGS" ++ ";IP=" ++ env.IPString ip) (Except.ok r),
              AddEvent.Setenv "CNI_ARGS" (w.environ.get "CNI_ARGS") none], ?_,
            Or.inr (Or.inr (Or.inr (Or.inr ⟨x, r, rfl, rfl, ?_, ?_⟩)))⟩
          · cases hres : env.NewResultFromResult r with
            | error e => simp [Act.fail, StringMap.get_set]
            | ok res =>
              by_cases hlen : res.IPs.length = 0 <;>
                simp [hlen, Act.fail, Act.pure_run, StringMap.get_set]
          · cases hres : env.NewResultFromResult r with
            | error e => simp [Act.fail, StringMap.get_set]
            | ok res =>
              by_cases hlen : res.IPs.length = 0 <;>
                simp [hlen, Act.fail, Act.pure_run, StringMap.get_set]
          · cases hres : env.NewResultFromResult r with
            | error e => simp [Act.fail]
            | ok res =>
              by_cases hlen : res.IPs.length = 0 <;> simp [hlen, Act.fail, Act.pure_run]

/-- C11. For every previous value `v` of `CNI_ARGS` and every requested address,
`callIPAMWithIP` invokes the allocator at most once, and only with its own plugin type
and configuration bytes and with `CNI_ARGS` equal to `v` followed by `;IP=` and the
textual form of the address; it does invoke it when its arguments load and the
environment writes succeed.  Whenever the environment writes it makes succeed,
`CNI_ARGS` is `v` again when it returns, whatever the allocator answered and however the
run ends. -/
theorem callIPAMWithIP_overrides_and_restores_CNI_ARGS {σ : Type} (env : AddEnv σ) (ip : IP)
    (conf : NetConf) (args : CmdArgs) (w : AddWorld σ) :
    ∃ l, (callIPAMWithIP env ip conf args w).2.trace
        = w.trace ++ AddEvent.Getenv "CNI_ARGS" (w.environ.get "CNI_ARGS") :: l
      ∧ (∀ plugin stdin cniArgs answer, AddEvent.ExecAdd plugin stdin cniArgs answer ∈ l →
          plugin = conf.IPAM.Type' ∧ stdin = args.StdinData
            ∧ cniArgs = w.environ.get "CNI_ARGS" ++ ";IP=" ++ env.IPString ip)
      ∧ (execAddCalls l).length ≤ 1
      ∧ ((∃ x, env.LoadIPAMArgs args.Args = Except.ok x) →
          (∀ key value err, AddEvent.Setenv key value (some err) ∉ l) →
          ∃ answer, execAddCalls l
            = [(w.environ.get "CNI_ARGS" ++ ";IP=" ++ env.IPString ip, answer)])
      ∧ ((∀ key value err, AddEvent.Setenv key value (some err) ∉ l) →
          (callIPAMWithIP env ip conf args w).2.environ.get "CNI_ARGS"
            = w.environ.get "CNI_ARGS") := by
  obtain ⟨l, htr, hcases⟩ := callIPAMWithIP_cases env ip conf args w
  refine ⟨l, htr, ?_⟩
  rcases hcases with ⟨e, hx, hl, _, henv⟩ | ⟨x, err, hx, hl, _, henv⟩
    | ⟨x, err, restore, hx, hl, _, henv⟩ | ⟨x, r, err, hx, hl, _⟩ | ⟨x, r, hx, hl, henv, _⟩
  · subst hl
    refine ⟨by simp, by simp [execAddCalls], ?_, ?_⟩
    · rintro ⟨x, hx2⟩
      rw [hx] at hx2
      cases hx2
    · intro _
      rw [henv]
  · subst hl
    refine ⟨by simp, by simp [execAddCalls], ?_, ?_⟩
    · intro _ hno
      exact absurd (List.mem_singleton.mpr rfl) (hno _ _ err)
    · intro _
      rw [henv]
  · subst hl
    refine ⟨?_, by simp [execAddCalls], ?_, ?_⟩
    · intro plugin stdin cniArgs answer hin
      simp at hin
      exact ⟨hin.1, hin.2.1, hin.2.2.1⟩
    · intro _ _
      exact ⟨Except.error err, by simp [execAddCalls]⟩
    · intro hno
      cases restore with
      | none => exact henv rfl
      | some e2 => exact absurd (by simp) (hno "CNI_ARGS" (w.environ.get "CNI_ARGS") e2)
  · subst hl
    refine ⟨?_, by simp [execAddCalls], ?_, ?_⟩
    · intro plugin stdin cniArgs answer hin
      simp at hin
      exact ⟨hin.1, hin.2.1, hin.2.2.1⟩
    · intro _ _
      exact ⟨Except.ok r, by simp [execAddCalls]⟩
    · intro hno
      exact absurd (by simp) (hno "CNI_ARGS" (w.environ.get "CNI_ARGS") err)
  · subst hl
    refine ⟨?_, by simp [execAddCalls], ?_, ?_⟩
    · intro plugin stdin cniArgs answer hin
      simp at hin
      exact ⟨hin.1, hin.2.1, hin.2.2.1⟩
    · intro _ _
      exact ⟨Except.ok r, by simp [execAddCalls]⟩
    · intro _
      exact henv

/-- C12 as stated fails: with an allocator that fails and a restoring write that fails
too, `callIPAMWithIP` returns the allocator's error without any release request. -/
theorem callIPAMWithIP_no_release_after_failed_allocation :
    (callIPAMWithIP failingAllocatorEnv [0, 0, 0, 0, 0, 0, 0, 0, 0, 0, 255, 255, 10, 0, 5, 9] { IPAM := { Type' := "X" } } {}
        ⟨[("CNI_ARGS", "K=V")], 0, []⟩).2.trace
      = [AddEvent.Getenv "CNI_ARGS" "K=V",
          AddEvent.Setenv "CNI_ARGS" "K=V;IP=10.0.5.9" none,
          AddEvent.ExecAdd "X" "" "K=V;IP=10.0.5.9" (Except.error (errorsNew "no address left")),
          AddEvent.Setenv "CNI_ARGS" "K=V" (some (errorsNew "setenv: invalid argument"))]
      ∧ (callIPAMWithIP failingAllocatorEnv [0, 0, 0, 0, 0, 0, 0, 0, 0, 0, 255, 255, 10, 0, 5, 9] { IPAM := { Type' := "X" } } {}
        ⟨[("CNI_ARGS", "K=V")], 0, []⟩).1 = Res.error (errorsNew "no address left")
      ∧ ¬ (∀ err, AddEvent.Setenv "CNI_ARGS" "K=V" (some err)
              ∈ (callIPAMWithIP failingAllocatorEnv [0, 0, 0, 0, 0, 0, 0, 0, 0, 0, 255, 255, 10, 0, 5, 9] { IPAM := { Type' := "X" } } {}
                  ⟨[("CNI_ARGS", "K=V")], 0, []⟩).2.trace →
            AddEvent.ReleaseIPAllocation "X" ""
              ∈ (callIPAMWithIP failingAllocatorEnv [0, 0, 0, 0, 0, 0, 0, 0, 0, 0, 255, 255, 10, 0, 5, 9] { IPAM := { Type' := "X" } } {}
                  ⟨[("CNI_ARGS", "K=V")], 0, []⟩).2.trace) := by
  have htrace : (callIPAMWithIP failingAllocatorEnv [0, 0, 0, 0, 0, 0, 0, 0, 0, 0, 255, 255, 10, 0, 5, 9] { IPAM := { Type' := "X" } } {}
        ⟨[("CNI_ARGS", "K=V")], 0, []⟩).2.trace
      = [AddEvent.Getenv "CNI_ARGS" "K=V",
          AddEvent.Setenv "CNI_ARGS" "K=V;IP=10.0.5.9" none,
          AddEvent.ExecAdd "X" "" "K=V;IP=10.0.5.9" (Except.error (errorsNew "no address left")),
          AddEvent.Setenv "CNI_ARGS" "K=V" (some (errorsNew "setenv: invalid argument"))] := by
    rfl
  refine ⟨htrace, by rfl, ?_⟩
  intro hall
  have hin := hall (errorsNew "setenv: invalid argument") (by rw [htrace]; simp)
  rw [htrace] at hin
  simp at hin

/-- C12, amended. In `callIPAMWithIP`, whenever the write that restores `CNI_ARGS` fails
after a successful allocator call, a release request with the invocation's plugin type
and configuration bytes is the last call made and the run returns that write's error;
when the allocator call itself failed, the run returns the allocator's own error,
whether the restoring write fails or not, and no release request is made. -/
theorem callIPAMWithIP_restore_failure {σ : Type} (env : AddEnv σ) (ip : IP)
    (conf : NetConf) (args : CmdArgs) (w : AddWorld σ) :
    ∃ l, (callIPAMWithIP env ip conf args w).2.trace
        = w.trace ++ AddEvent.Getenv "CNI_ARGS" (w.environ.get "CNI_ARGS") :: l
      ∧ (∀ plugin stdin cniArgs r err,
          AddEvent.ExecAdd plugin stdin cniArgs (Except.ok r) ∈ l →
          AddEvent.Setenv "CNI_ARGS" (w.environ.get "CNI_ARGS") (some err) ∈ l →
          (∃ pre, l = pre ++ [AddEvent.Setenv "CNI_ARGS" (w.environ.get "CNI_ARGS") (some err),
              AddEvent.ReleaseIPAllocation conf.IPAM.Type' args.StdinData])
            ∧ (callIPAMWithIP env ip conf args w).1 = Res.error err)
      ∧ (∀ plugin stdin cniArgs err,
          AddEvent.ExecAdd plugin stdin cniArgs (Except.error err) ∈ l →
          (callIPAMWithIP env ip conf args w).1 = Res.error err
            ∧ ∀ p s, AddEvent.ReleaseIPAllocation p s ∉ l) := by
  obtain ⟨l, htr, hcases⟩ := callIPAMWithIP_cases env ip conf args w
  refine ⟨l, htr, ?_⟩
  rcases hcases with ⟨e, hx, hl, _, henv⟩ | ⟨x, err, hx, hl, _, henv⟩
    | ⟨x, err, restore, hx, hl, hres, henv⟩ | ⟨x, r, err, hx, hl, hres⟩ | ⟨x, r, hx, hl, henv, _⟩
  · subst hl
    simp
  · subst hl
    simp
  · subst hl
    refine ⟨?_, ?_⟩
    · intro plugin stdin cniArgs r err2 hin
      simp at hin
    · intro plugin stdin cniArgs err2 hin
      simp at hin
      obtain ⟨_, _, _, h4⟩ := hin
      subst h4
      exact ⟨hres, by simp⟩
  · subst hl
    refine ⟨?_, ?_⟩
    · intro plugin stdin cniArgs r2 err2 _ hin
      simp at hin
      subst hin
      exact ⟨⟨[AddEvent.Setenv "CNI_ARGS"
            (w.environ.get "CNI_ARGS" ++ ";IP=" ++ env.IPString ip) none,
          AddEvent.ExecAdd conf.IPAM.Type' args.StdinData
            (w.environ.get "CNI_ARGS" ++ ";IP=" ++ env.IPString ip) (Except.ok r)], rfl⟩, hres⟩
    · intro plugin stdin cniArgs err2 hin
      simp at hin
  · subst hl
    refine ⟨?_, ?_⟩
    · intro plugin stdin cniArgs r2 err2 _ hin
      simp at hin
    · intro plugin stdin cniArgs err2 hin
      simp at hin

/-! ## Theorems: the whole attach, `CmdAddK8s` -/

section AttachLemmas
variable {σ α β : Type}

/-- A sequence that ends normally: its first part ended normally, and so did what follows. -/
theorem Act.bind_ok_inv (x : Act σ α) (f : α → Act σ β) (w w2 : AddWorld σ) (b : β)
    (h : (x >>= f) w = (Res.ok b, w2)) :
    ∃ a w1, x w = (Res.ok a, w1) ∧ f a w1 = (Res.ok b, w2) := by
  rw [Act.bind_run] at h
  unfold Act.bind at h
  rcases hx : x w with ⟨r, w1⟩
  rw [hx] at h
  cases r with
  | ok a => exact ⟨a, w1, rfl, h⟩
  | error e => simp at h
  | panic m => simp at h
  | exit c => simp at h

/-- A library answer that lets the run go on is a value. -/
theorem Act.ofResult_ok_inv (r : Except GoError α) (w w1 : AddWorld σ) (a : α)
    (h : (Act.ofResult r : Act σ α) w = (Res.ok a, w1)) : r = Except.ok a ∧ w1 = w := by
  cases r with
  | error e => simp [Act.ofResult, Act.fail] at h
  | ok v =>
    simp only [Act.ofResult, Act.pure_run, Prod.mk.injEq, Res.ok.injEq] at h
    exact ⟨by rw [h.1], h.2.symm⟩

theorem Act.Emits_emit (P : AddEvent → Prop) (ev : AddEvent) (h : P ev) :
    Act.Emits P (Act.emit ev : Act σ Unit) :=
  fun w => ⟨[ev], by simp [Act.emit], by simp [h]⟩

theorem Act.Emits_attempt (P : AddEvent → Prop) (x : Act σ α) (hx : Act.Emits P x) :
    Act.Emits P (Act.attempt x) := by
  intro w
  obtain ⟨l, h1, hp⟩ := hx w
  refine ⟨l, ?_, hp⟩
  unfold Act.attempt
  rcases hxw : x w with ⟨r, w1⟩
  rw [hxw] at h1
  cases r <;> exact h1

theorem Act.Emits_osGetenv (P : AddEvent → Prop) (key : String)
    (h : ∀ v, P (AddEvent.Getenv key v)) : Act.Emits P (osGetenv key : Act σ String) :=
  fun w => ⟨[AddEvent.Getenv key (w.environ.get key)], by simp [osGetenv], by simp [h]⟩

theorem Act.Emits_osSetenv (P : AddEvent → Prop) (env : AddEnv σ) (key value : String)
    (h : ∀ a, P (AddEvent.Setenv key value a)) : Act.Emits P (osSetenv env key value) :=
  fun w => ⟨[AddEvent.Setenv key value (env.SetenvError key value w.ext).1],
    by simp [osSetenv], by simp [h]⟩

theorem Act.Emits_ipamExecAdd (P : AddEvent → Prop) (env : AddEnv σ) (plugin stdin : String)
    (h : ∀ c a, P (AddEvent.ExecAdd plugin stdin c a)) : Act.Emits P (ipamExecAdd env plugin stdin) :=
  fun w => ⟨[AddEvent.ExecAdd plugin stdin (w.environ.get "CNI_ARGS")
      (env.ExecAdd plugin stdin w.environ w.ext).1], by simp [ipamExecAdd], by simp [h]⟩

theorem Act.Emits_ReleaseIPAllocation (P : AddEvent → Prop) (env : AddEnv σ)
    (plugin stdin : String) (h : P (AddEvent.ReleaseIPAllocation plugin stdin)) :
    Act.Emits P (ReleaseIPAllocation env plugin stdin) :=
  fun w => ⟨[AddEvent.ReleaseIPAllocation plugin stdin], by simp [ReleaseIPAllocation],
    by simp [h]⟩

/-- A property of events that holds of every event may be weakened. -/
theorem Act.Emits_mono (P Q : AddEvent → Prop) (x : Act σ α) (hpq : ∀ e, P e → Q e)
    (hx : Act.Emits P x) : Act.Emits Q x := by
  intro w
  obtain ⟨l, h1, hp⟩ := hx w
  exact ⟨l, h1, fun e he => hpq e (hp e he)⟩

/-- The last part of an attach calls the attachment engine, the datastore upsert and the
address release, and nothing else. -/
theorem CmdAddK8s.attach_emits (env : AddEnv σ) (conf : NetConf) (workload : String)
    (args : CmdArgs) (endpoint : WorkloadEndpoint) (result : Option Result) :
    Act.Emits (fun e => e.isAddressPath = false ∧ e.isMetadataCall = false)
      (CmdAddK8s.attach env conf workload args endpoint result) := by
  unfold CmdAddK8s.attach
  repeat' (first
    | refine Act.Emits_bind _ _ _ ?_ (fun _ => ?_)
    | exact Act.Emits_pure _ _
    | exact Act.Emits_fail _ _
    | exact Act.Emits_call _ _ _ (fun _ => ⟨rfl, rfl⟩)
    | exact Act.Emits_ReleaseIPAllocation _ _ _ _ ⟨rfl, rfl⟩
    | split)

/-- How the last part of an attach ends normally: the attachment engine answered, the
MAC parsed, and the endpoint was written with its MAC and host-side interface name. -/
theorem CmdAddK8s.attach_ok_inv (env : AddEnv σ) (conf : NetConf) (workload : String)
    (args : CmdArgs) (endpoint : WorkloadEndpoint) (result r : Option Result)
    (w w1 : AddWorld σ)
    (h : CmdAddK8s.attach env conf workload args endpoint result w = (Res.ok r, w1)) :
    ∃ hostName mac macBytes stored, r = result ∧ env.ParseMAC mac = Except.ok macBytes
      ∧ w1.trace = w.trace ++
          [AddEvent.DoNetworking args conf result (env.VethNameForWorkload workload)
              (Except.ok (hostName, mac)),
            AddEvent.Apply
              { endpoint with Spec := { endpoint.Spec with
                  MAC := some macBytes, InterfaceName := env.VethNameForWorkload workload } }
              (Except.ok stored)] := by
  unfold CmdAddK8s.attach at h
  simp only [Act.bind_run, Act.bind, Act.call] at h
  generalize (env.DoNetworking args conf result (env.VethNameForWorkload workload) w.ext).2 = e1 at h
  cases hd : (env.DoNetworking args conf result (env.VethNameForWorkload workload) w.ext).1 with
  | error err => simp [hd, ReleaseIPAllocation, Act.fail, Act.bind_run, Act.bind] at h
  | ok pair =>
    obtain ⟨hostName, mac⟩ := pair
    simp only [hd] at h
    cases hm : env.ParseMAC mac with
    | error err => simp [hm, ReleaseIPAllocation, Act.fail, Act.bind_run, Act.bind] at h
    | ok macBytes =>
      simp only [hm, Act.bind_run, Act.bind, Act.call] at h
      generalize (env.Apply { endpoint with Spec := { endpoint.Spec with
          MAC := some macBytes, InterfaceName := env.VethNameForWorkload workload } } e1).2 = e2 at h
      cases ha : (env.Apply { endpoint with Spec := { endpoint.Spec with
          MAC := some macBytes, InterfaceName := env.VethNameForWorkload workload } } e1).1 with
      | error err => simp [ha, ReleaseIPAllocation, Act.fail, Act.bind_run, Act.bind] at h
      | ok stored =>
        simp only [ha, Act.pure_run, Prod.mk.injEq, Res.ok.injEq] at h
        obtain ⟨h1, h2⟩ := h
        subst h1
        subst h2
        exact ⟨hostName, mac, macBytes, stored, rfl, hm, by simp⟩

end AttachLemmas

/-- C14. Given a prior endpoint, `CmdAddK8s` makes no allocator call and no call to the
metadata source (from which the annotations come): its calls are the attachment
engine, the datastore upsert and, on failure, the address release.  When it ends
normally, its result is the one `CreateResultFromEndpoint` builds from the endpoint, the
attachment engine was run with that result, and the endpoint written is the prior
endpoint with its MAC and host-side interface name set and nothing else changed.  And
it does end normally with that result, after exactly these two calls, whenever the
arguments load, the result is built from the endpoint, the attachment engine answers
with a MAC that parses, and the datastore accepts the endpoint. -/
theorem CmdAddK8s_reuses_prior_endpoint {σ : Type} (env : AddEnv σ) (args : CmdArgs)
    (conf : NetConf) (nodename : String) (endpoint : WorkloadEndpoint) (w : AddWorld σ) :
    (∃ l, (CmdAddK8s env args conf nodename (some endpoint) w).2.trace = w.trace ++ l
        ∧ ∀ e ∈ l, e.isAddressPath = false ∧ e.isMetadataCall = false)
      ∧ (∀ r w1, CmdAddK8s env args conf nodename (some endpoint) w = (Res.ok r, w1) →
          ∃ workload orchestrator result hostName mac macBytes stored,
            env.GetIdentifiers args = Except.ok (workload, orchestrator)
              ∧ env.CreateResultFromEndpoint endpoint = Except.ok result
              ∧ r = some result
              ∧ env.ParseMAC mac = Except.ok macBytes
              ∧ w1.trace = w.trace ++
                  [AddEvent.DoNetworking args conf (some result)
                      (env.VethNameForWorkload workload) (Except.ok (hostName, mac)),
                    AddEvent.Apply
                      { endpoint with Spec := { endpoint.Spec with
                          MAC := some macBytes,
                          InterfaceName := env.VethNameForWorkload workload } }
                      (Except.ok stored)])
      ∧ (∀ k8sArgs workload orchestrator result hostName mac macBytes stored,
          env.LoadK8sArgs args.Args = Except.ok k8sArgs →
          env.GetIdentifiers args = Except.ok (workload, orchestrator) →
          env.CreateResultFromEndpoint endpoint = Except.ok result →
          (env.DoNetworking args conf (some result) (env.VethNameForWorkload workload)
            w.ext).1 = Except.ok (hostName, mac) →
          env.ParseMAC mac = Except.ok macBytes →
          (env.Apply
            { endpoint with Spec := { endpoint.Spec with
                MAC := some macBytes, InterfaceName := env.VethNameForWorkload workload } }
            (env.DoNetworking args conf (some result) (env.VethNameForWorkload workload)
              w.ext).2).1 = Except.ok stored →
          CmdAddK8s env args conf nodename (some endpoint) w =
            (Res.ok (some result),
              { environ := w.environ,
                ext := (env.Apply
                  { endpoint with Spec := { endpoint.Spec with
                      MAC := some macBytes,
                      InterfaceName := env.VethNameForWorkload workload } }
                  (env.DoNetworking args conf (some result) (env.VethNameForWorkload workload)
                    w.ext).2).2,
                trace := w.trace ++
                  [AddEvent.DoNetworking args conf (some result)
                      (env.VethNameForWorkload workload) (Except.ok (hostName, mac)),
                    AddEvent.Apply
                      { endpoint with Spec := { endpoint.Spec with
                          MAC := some macBytes,
                          InterfaceName := env.VethNameForWorkload workload } }
                      (Except.ok stored)] })) := by
  refine ⟨?_, ?_, ?_⟩
  · have hemits : Act.Emits (fun e => e.isAddressPath = false ∧ e.isMetadataCall = false)
        (CmdAddK8s env args conf nodename (some endpoint)) := by
      unfold CmdAddK8s
      repeat' (first
        | exact CmdAddK8s.attach_emits _ _ _ _ _ _
        | exact Act.Emits_ofResult _ _
        | refine Act.Emits_bind _ _ _ ?_ (fun _ => ?_))
    exact hemits w
  · intro r w1 h
    unfold CmdAddK8s at h
    obtain ⟨k8sArgs, wa, h1, hA⟩ := Act.bind_ok_inv _ _ _ _ _ h
    obtain ⟨_, hwa⟩ := Act.ofResult_ok_inv _ _ _ _ h1
    rw [hwa] at hA
    obtain ⟨ids, wb, h2, hB⟩ := Act.bind_ok_inv _ _ _ _ _ hA
    obtain ⟨hids, hwb⟩ := Act.ofResult_ok_inv _ _ _ _ h2
    rw [hwb] at hB
    obtain ⟨workload, orchestrator⟩ := ids
    simp only at hB
    obtain ⟨result, wc, h3, hC⟩ := Act.bind_ok_inv _ _ _ _ _ hB
    obtain ⟨hres, hwc⟩ := Act.ofResult_ok_inv _ _ _ _ h3
    rw [hwc] at hC
    obtain ⟨hostName, mac, macBytes, stored, hr, hmac, htr⟩ :=
      CmdAddK8s.attach_ok_inv env conf workload args endpoint (some result) r _ _ hC
    exact ⟨workload, orchestrator, result, hostName, mac, macBytes, stored, hids, hres, hr,
      hmac, htr⟩
  · intro k8sArgs workload orchestrator result hostName mac macBytes stored hargs hids hres
      hnet hmac hput
    simp only [CmdAddK8s, Act.bind_run, Act.bind, Act.ofResult, Act.pure_run, hargs, hids, hres,
      CmdAddK8s.attach, Act.call, hnet, hmac, hput, List.append_assoc, List.singleton_append]

/-- Witness for C14: the endpoint of an earlier attach, holding `10.0.5.9/32`, is
attached again on the interface "lxceth0"; the run ends normally with the result built
from the endpoint, after the attachment engine and the datastore upsert and nothing
else, and the endpoint written has its MAC and host-side interface name set. -/
theorem CmdAddK8s_reuses_prior_endpoint_witness :
    CmdAddK8s (sampleEnv {}) { ContainerID := "c1", IfName := "lxceth0" } {} "node1"
        (some { Metadata := { Name := "lxceth0", ActiveInstanceID := "c0" },
                Spec := { IPNetworks := [⟨[10, 0, 5, 9], [255, 255, 255, 255]⟩] } })
        ⟨[], 0, []⟩ =
      (Res.ok (some ⟨[⟨"4", ⟨[10, 0, 5, 9], [255, 255, 255, 255]⟩⟩]⟩),
        { environ := [],
          ext := 2,
          trace := [] ++
            [AddEvent.DoNetworking { ContainerID := "c1", IfName := "lxceth0" } {}
                (some ⟨[⟨"4", ⟨[10, 0, 5, 9], [255, 255, 255, 255]⟩⟩]⟩) "calidefault.web"
                (Except.ok ("calidefault.web", "ee:ee:ee:ee:ee:ee")),
              AddEvent.Apply
                { Metadata := { Name := "lxceth0", ActiveInstanceID := "c0" },
                  Spec := { IPNetworks := [⟨[10, 0, 5, 9], [255, 255, 255, 255]⟩],
                            MAC := some [238, 238, 238, 238, 238, 238],
                            InterfaceName := "calidefault.web" } }
                (Except.ok
                  { Metadata := { Name := "lxceth0", ActiveInstanceID := "c0" },
                    Spec := { IPNetworks := [⟨[10, 0, 5, 9], [255, 255, 255, 255]⟩],
                              MAC := some [238, 238, 238, 238, 238, 238],
                              InterfaceName := "calidefault.web" } })] }) :=
  (CmdAddK8s_reuses_prior_endpoint (sampleEnv {}) { ContainerID := "c1", IfName := "lxceth0" } {}
    "node1"
    { Metadata := { Name := "lxceth0", ActiveInstanceID := "c0" },
      Spec := { IPNetworks := [⟨[10, 0, 5, 9], [255, 255, 255, 255]⟩] } }
    ⟨[], 0, []⟩).2.2
    { K8S_POD_NAME := "web", K8S_POD_NAMESPACE := "default" } "default.web" "k8s"
    ⟨[⟨"4", ⟨[10, 0, 5, 9], [255, 255, 255, 255]⟩⟩]⟩ "calidefault.web" "ee:ee:ee:ee:ee:ee"
    [238, 238, 238, 238, 238, 238]
    { Metadata := { Name := "lxceth0", ActiveInstanceID := "c0" },
      Spec := { IPNetworks := [⟨[10, 0, 5, 9], [255, 255, 255, 255]⟩],
                MAC := some [238, 238, 238, 238, 238, 238],
                InterfaceName := "calidefault.web" } }
    rfl rfl rfl rfl rfl rfl

/-- C13 fails on the code: a pod asks for the addresses `["10.0.5.9", "bogus"]`; the
allocator is called for the first literal and hands out `10.0.5.9`, the second literal
does not parse, and `CmdAddK8s` returns "Invalid IP format: bogus" without any release
request: the address just allocated stays allocated. -/
theorem CmdAddK8s_invalid_literal_leaks_allocation :
    (CmdAddK8s
        (sampleEnv { Annotations := [("cni.projectcalico.org/ipAddrs", "[\"10.0.5.9\", \"bogus\"]")] })
        { ContainerID := "c1", IfName := "eth0" }
        { IPAM := { Type' := "X" }, Policy := { PolicyType := "k8s" } } "node1" none
        ⟨[], 0, []⟩).1
      = Res.error (errorsNew "Invalid IP format: bogus")
    ∧ execAddCalls (CmdAddK8s
        (sampleEnv { Annotations := [("cni.projectcalico.org/ipAddrs", "[\"10.0.5.9\", \"bogus\"]")] })
        { ContainerID := "c1", IfName := "eth0" }
        { IPAM := { Type' := "X" }, Policy := { PolicyType := "k8s" } } "node1" none
        ⟨[], 0, []⟩).2.trace
      = [(";IP=10.0.5.9", Except.ok (TypesResult.plugin ";IP=10.0.5.9"))]
    ∧ AddEvent.ReleaseIPAllocation "X" "" ∉ (CmdAddK8s
        (sampleEnv { Annotations := [("cni.projectcalico.org/ipAddrs", "[\"10.0.5.9\", \"bogus\"]")] })
        { ContainerID := "c1", IfName := "eth0" }
        { IPAM := { Type' := "X" }, Policy := { PolicyType := "k8s" } } "node1" none
        ⟨[], 0, []⟩).2.trace
    ∧ (CmdAddK8s
        (sampleEnv { Annotations := [("cni.projectcalico.org/ipAddrs", "[\"10.0.5.9\", \"bogus\"]")] })
        { ContainerID := "c1", IfName := "eth0" }
        { IPAM := { Type' := "X" }, Policy := { PolicyType := "k8s" } } "node1" none
        ⟨[], 0, []⟩).2.trace.filter
          (fun e => match e with
            | AddEvent.ReleaseIPAllocation _ _ => true
            | _ => false) = [] := by
  refine ⟨by decide!, by decide!, by decide!, by decide!⟩

section ReturnsLemmas
variable {σ α β : Type}

theorem Act.Returns_pure (Q : α → Prop) (a : α) (h : Q a) : Act.Returns Q (pure a : Act σ α) := by
  intro w b w1 hb
  simp only [Act.pure_run, Prod.mk.injEq, Res.ok.injEq] at hb
  rw [← hb.1]
  exact h

theorem Act.Returns_fail (Q : α → Prop) (e : GoError) : Act.Returns Q (Act.fail e : Act σ α) := by
  intro w b w1 hb
  simp [Act.fail] at hb

theorem Act.Returns_panic (Q : α → Prop) (m : String) :
    Act.Returns Q (Act.panic m : Act σ α) := by
  intro w b w1 hb
  simp [Act.panic] at hb

theorem Act.Returns_fatal (Q : α → Prop) : Act.Returns Q (Act.fatal : Act σ α) := by
  intro w b w1 hb
  simp [Act.fatal] at hb

theorem Act.Returns_bind (Q : β → Prop) (x : Act σ α) (f : α → Act σ β)
    (hf : ∀ a, Act.Returns Q (f a)) : Act.Returns Q (x >>= f) := by
  intro w b w2 hb
  obtain ⟨a, w1, _, h2⟩ := Act.bind_ok_inv x f w w2 b hb
  exact hf a w1 b w2 h2

theorem Act.Returns_bind_of (P : α → Prop) (Q : β → Prop) (x : Act σ α) (f : α → Act σ β)
    (hx : Act.Returns P x) (hf : ∀ a, P a → Act.Returns Q (f a)) : Act.Returns Q (x >>= f) := by
  intro w b w2 hb
  obtain ⟨a, w1, h1, h2⟩ := Act.bind_ok_inv x f w w2 b hb
  exact hf a (hx w a w1 h1) w1 b w2 h2

/-- The podCidr step changes nothing of the invocation arguments but `StdinData`. -/
theorem CmdAddK8s.usePodCidr_returns (env : AddEnv σ) (client : Clientset) (conf : NetConf)
    (nodename : String) (args : CmdArgs) :
    Act.Returns (fun a => ∃ data, a = { args with StdinData := data })
      (CmdAddK8s.usePodCidr env client conf nodename args) := by
  unfold CmdAddK8s.usePodCidr
  repeat' (first
    | exact Act.Returns_pure _ _ ⟨_, rfl⟩
    | exact Act.Returns_fail _ _
    | exact Act.Returns_panic _ _
    | refine Act.Returns_bind _ _ _ (fun _ => ?_)
    | split)

/-- The metadata step changes nothing of the invocation arguments but `StdinData`, and
leaves the labels empty unless the policy type is `k8s`. -/
theorem CmdAddK8s.labelsAnnotations_returns (env : AddEnv σ) (client : Clientset)
    (conf : NetConf) (k8sArgs : K8sArgs) (args : CmdArgs) :
    Act.Returns (fun ctx => (∃ data, ctx.args = { args with StdinData := data })
        ∧ (conf.Policy.PolicyType ≠ "k8s" → ctx.labels = []))
      (CmdAddK8s.labelsAnnotations env client conf k8sArgs args) := by
  unfold CmdAddK8s.labelsAnnotations
  repeat' (first
    | exact Act.Returns_pure _ _ ⟨⟨_, rfl⟩, fun _ => rfl⟩
    | exact Act.Returns_pure _ _ ⟨⟨_, rfl⟩, fun hne => absurd (by assumption) hne⟩
    | exact Act.Returns_fail _ _
    | exact Act.Returns_panic _ _
    | refine Act.Returns_bind _ _ _ (fun _ => ?_)
    | split
    | dsimp only)

/-- What a new attach has gathered when it reaches the address annotations keeps the
container id and interface name of the invocation; the labels are empty unless the
policy type is `k8s`. -/
theorem CmdAddK8s.podContext_returns (env : AddEnv σ) (conf : NetConf) (nodename : String)
    (k8sArgs : K8sArgs) (args : CmdArgs) :
    Act.Returns (fun ctx => ctx.args.ContainerID = args.ContainerID
        ∧ ctx.args.IfName = args.IfName
        ∧ (conf.Policy.PolicyType ≠ "k8s" → ctx.labels = []))
      (CmdAddK8s.podContext env conf nodename k8sArgs args) := by
  unfold CmdAddK8s.podContext
  refine Act.Returns_bind _ _ _ (fun client => ?_)
  refine Act.Returns_bind_of _ _ _ _ (CmdAddK8s.usePodCidr_returns env client conf nodename args)
    (fun args1 h1 => ?_)
  intro w ctx w1 hrun
  obtain ⟨⟨data2, h2⟩, hlabels⟩ :=
    CmdAddK8s.labelsAnnotations_returns env client conf k8sArgs args1 w ctx w1 hrun
  obtain ⟨data1, h1⟩ := h1
  rw [h2, h1]
  exact ⟨rfl, rfl, hlabels⟩

end ReturnsLemmas

section AcquisitionLemmas
variable {σ : Type}

/-- An allocator call makes no upsert and does not run the attachment engine. -/
theorem callIPAMWithIP_emits (env : AddEnv σ) (ip : IP) (conf : NetConf) (args : CmdArgs) :
    Act.Emits (fun e => e.isApply = false ∧ e.isDoNetworking = false)
      (callIPAMWithIP env ip conf args) := by
  unfold callIPAMWithIP
  repeat' (first
    | exact Act.Emits_pure _ _
    | exact Act.Emits_fail _ _
    | exact Act.Emits_ofResult _ _
    | exact Act.Emits_osGetenv _ _ (fun _ => ⟨rfl, rfl⟩)
    | exact Act.Emits_osSetenv _ _ _ _ (fun _ => ⟨rfl, rfl⟩)
    | exact Act.Emits_ipamExecAdd _ _ _ _ (fun _ _ => ⟨rfl, rfl⟩)
    | exact Act.Emits_ReleaseIPAllocation _ _ _ _ ⟨rfl, rfl⟩
    | refine Act.Emits_bind _ _ _ ?_ (fun _ => ?_)
    | split)

theorem ipAddrsResult.loop_emits (env : AddEnv σ) (conf : NetConf) (args : CmdArgs)
    (ips : List String) (result : Result) :
    Act.Emits (fun e => e.isApply = false ∧ e.isDoNetworking = false)
      (ipAddrsResult.loop env conf args ips result) := by
  induction ips generalizing result with
  | nil => exact Act.Emits_pure _ _
  | cons lit tl ih =>
    unfold ipAddrsResult.loop
    repeat' (first
      | exact ih _
      | exact Act.Emits_fail _ _
      | exact Act.Emits_panic _ _
      | exact Act.Emits_attempt _ _ (callIPAMWithIP_emits _ _ _ _)
      | refine Act.Emits_bind _ _ _ ?_ (fun _ => ?_)
      | split)

/-- Address resolution makes no upsert and does not run the attachment engine. -/
theorem CmdAddK8s.resolveAddresses_emits (env : AddEnv σ) (conf : NetConf) (annot : StringMap)
    (args : CmdArgs) :
    Act.Emits (fun e => e.isApply = false ∧ e.isDoNetworking = false)
      (CmdAddK8s.resolveAddresses env conf annot args) := by
  unfold CmdAddK8s.resolveAddresses overrideIPAMResult ipAddrsResult
  repeat' (first
    | exact ipAddrsResult.loop_emits _ _ _ _ _
    | exact Act.Emits_pure _ _
    | exact Act.Emits_fail _ _
    | exact Act.Emits_ofResult _ _
    | exact Act.Emits_emit _ _ ⟨rfl, rfl⟩
    | exact Act.Emits_ipamExecAdd _ _ _ _ (fun _ _ => ⟨rfl, rfl⟩)
    | refine Act.Emits_bind _ _ _ ?_ (fun _ => ?_)
    | split
    | dsimp only)

/-- Building the new endpoint makes no upsert and does not run the attachment engine. -/
theorem CmdAddK8s.newEndpoint_emits (env : AddEnv σ) (conf : NetConf) (nodename : String)
    (k8sArgs : K8sArgs) (workload orchestrator : String) (labels : StringMap) (args : CmdArgs)
    (result : Option Result) :
    Act.Emits (fun e => e.isApply = false ∧ e.isDoNetworking = false)
      (CmdAddK8s.newEndpoint env conf nodename k8sArgs workload orchestrator labels args
        result) := by
  unfold CmdAddK8s.newEndpoint
  repeat' (first
    | exact Act.Emits_pure _ _
    | exact Act.Emits_fail _ _
    | exact Act.Emits_ReleaseIPAllocation _ _ _ _ ⟨rfl, rfl⟩
    | refine Act.Emits_bind _ _ _ ?_ (fun _ => ?_)
    | dsimp only
    | split)

/-- The new endpoint, when it could be built: the fresh record of the invocation, with
the addresses filled in by `PopulateEndpointNets`. -/
theorem CmdAddK8s.newEndpoint_ok_inv (env : AddEnv σ) (conf : NetConf) (nodename : String)
    (k8sArgs : K8sArgs) (workload orchestrator : String) (labels : StringMap) (args : CmdArgs)
    (result : Option Result) (w w1 : AddWorld σ) (ep : WorkloadEndpoint)
    (h : CmdAddK8s.newEndpoint env conf nodename k8sArgs workload orchestrator labels args
      result w = (Res.ok ep, w1)) :
    env.PopulateEndpointNets
        { Metadata :=
            { Name := args.IfName, Node := nodename, ActiveInstanceID := args.ContainerID,
              Orchestrator := orchestrator, Workload := workload, Labels := labels },
          Spec := { Profiles :=
            if conf.Policy.PolicyType = "k8s" then ["k8s_ns." ++ k8sArgs.K8S_POD_NAMESPACE]
            else [conf.Name] } } result = Except.ok ep
      ∧ w1 = w := by
  unfold CmdAddK8s.newEndpoint at h
  cases hpe : env.PopulateEndpointNets
      { Metadata :=
          { Name := args.IfName, Node := nodename, ActiveInstanceID := args.ContainerID,
            Orchestrator := orchestrator, Workload := workload, Labels := labels },
        Spec := { Profiles :=
          if conf.Policy.PolicyType = "k8s" then ["k8s_ns." ++ k8sArgs.K8S_POD_NAMESPACE]
          else [conf.Name] } } result with
  | error err => simp [hpe, ReleaseIPAllocation, Act.fail, Act.bind_run, Act.bind] at h
  | ok ep2 =>
    simp only [hpe, Act.pure_run, Prod.mk.injEq, Res.ok.injEq] at h
    rw [← h.1, ← h.2]
    exact ⟨rfl, rfl⟩

end AcquisitionLemmas

/-- C15. When `CmdAddK8s` without a prior endpoint ends normally, and
`PopulateEndpointNets` leaves the metadata and the profiles of the endpoint it fills as
they are, the run makes exactly one datastore upsert, its last call; the record passed
to it has `ActiveInstanceID` equal to the invocation's `ContainerID`, name equal to the
invocation's interface name, node equal to the node name, orchestrator and workload
equal to the identifiers of the invocation, the profile list `["k8s_ns." ++ namespace]`
under the policy type `k8s` and `[network name]` otherwise, and no labels unless the
policy type is `k8s`. -/
theorem CmdAddK8s_new_endpoint_record {σ : Type} (env : AddEnv σ) (args : CmdArgs)
    (conf : NetConf) (nodename : String) (w w1 : AddWorld σ) (r : Option Result)
    (hok : CmdAddK8s env args conf nodename none w = (Res.ok r, w1))
    (hpop : ∀ ep res ep2, env.PopulateEndpointNets ep res = Except.ok ep2 →
      ep2.Metadata = ep.Metadata ∧ ep2.Spec.Profiles = ep.Spec.Profiles) :
    ∃ k8sArgs workload orchestrator l ep stored,
      env.LoadK8sArgs args.Args = Except.ok k8sArgs
        ∧ env.GetIdentifiers args = Except.ok (workload, orchestrator)
        ∧ w1.trace = w.trace ++ l ++ [AddEvent.Apply ep (Except.ok stored)]
        ∧ (∀ e ∈ l, e.isApply = false)
        ∧ ep.Metadata.ActiveInstanceID = args.ContainerID
        ∧ ep.Metadata.Name = args.IfName
        ∧ ep.Metadata.Node = nodename
        ∧ ep.Metadata.Orchestrator = orchestrator
        ∧ ep.Metadata.Workload = workload
        ∧ ep.Spec.Profiles
            = (if conf.Policy.PolicyType = "k8s" then ["k8s_ns." ++ k8sArgs.K8S_POD_NAMESPACE]
               else [conf.Name])
        ∧ (conf.Policy.PolicyType ≠ "k8s" → ep.Metadata.Labels = []) := by
  unfold CmdAddK8s at hok
  obtain ⟨k8sArgs, wa, h1, hA⟩ := Act.bind_ok_inv _ _ _ _ _ hok
  obtain ⟨hk8s, hwa⟩ := Act.ofResult_ok_inv _ _ _ _ h1
  rw [hwa] at hA
  obtain ⟨ids, wb, h2, hB⟩ := Act.bind_ok_inv _ _ _ _ _ hA
  obtain ⟨hids, hwb⟩ := Act.ofResult_ok_inv _ _ _ _ h2
  rw [hwb] at hB
  obtain ⟨workload, orchestrator⟩ := ids
  simp only at hB
  obtain ⟨ctx, wc, hctx, hC⟩ := Act.bind_ok_inv _ _ _ _ _ hB
  obtain ⟨result, wd, hres, hD⟩ := Act.bind_ok_inv _ _ _ _ _ hC
  obtain ⟨ep0, we, hnew, hE⟩ := Act.bind_ok_inv _ _ _ _ _ hD
  obtain ⟨hcid, hifn, hlabels⟩ :=
    CmdAddK8s.podContext_returns env conf nodename k8sArgs args w ctx wc hctx
  obtain ⟨hp, hwe⟩ := CmdAddK8s.newEndpoint_ok_inv env conf nodename k8sArgs workload
    orchestrator ctx.labels ctx.args result wd we ep0 hnew
  obtain ⟨hostName, mac, macBytes, stored, _, _, htr⟩ :=
    CmdAddK8s.attach_ok_inv env conf workload ctx.args ep0 result r we w1 hE
  obtain ⟨hmeta, hprof⟩ := hpop _ _ _ hp
  -- the calls made before the last part
  obtain ⟨l1, hl1, hp1⟩ := CmdAddK8s.podContext_emits env conf nodename k8sArgs args w
  rw [hctx] at hl1
  obtain ⟨l2, hl2, hp2⟩ := CmdAddK8s.resolveAddresses_emits env conf ctx.annot ctx.args wc
  rw [hres] at hl2
  refine ⟨k8sArgs, workload, orchestrator,
    l1 ++ l2 ++ [AddEvent.DoNetworking ctx.args conf result (env.VethNameForWorkload workload)
      (Except.ok (hostName, mac))],
    { ep0 with Spec := { ep0.Spec with
        MAC := some macBytes, InterfaceName := env.VethNameForWorkload workload } },
    stored, hk8s, hids, ?_, ?_, ?_, ?_, ?_, ?_, ?_, ?_, ?_⟩
  · rw [htr, hwe]
    simp only at hl1 hl2
    rw [hl2, hl1]
    simp
  · intro e he
    simp only [List.mem_append, List.mem_singleton] at he
    rcases he with (he | he) | he
    · have := hp1 e he
      cases e <;> simp_all [AddEvent.isMetadataCall, AddEvent.isApply]
    · exact (hp2 e he).1
    · rw [he]
      rfl
  · simp only [hmeta, hcid]
  · simp only [hmeta, hifn]
  · simp only [hmeta]
  · simp only [hmeta]
  · simp only [hmeta]
  · simp only [hprof]
  · intro hne
    simp only [hmeta]
    exact hlabels hne

/-- Witness for C15: a first attach of the pod `default/web` under the policy type `k8s`;
the record written has the container id `c1` and the profile `k8s_ns.default`. -/
theorem CmdAddK8s_new_endpoint_record_witness :
    ∃ ep stored l,
      (CmdAddK8s (sampleEnv {}) { ContainerID := "c1", IfName := "eth0" }
          { Name := "net1", IPAM := { Type' := "X" }, Policy := { PolicyType := "k8s" } }
          "node1" none ⟨[], 0, []⟩).2.trace = [] ++ l ++ [AddEvent.Apply ep (Except.ok stored)]
        ∧ ep.Metadata.ActiveInstanceID = "c1"
        ∧ ep.Metadata.Name = "eth0"
        ∧ ep.Metadata.Node = "node1"
        ∧ ep.Spec.Profiles = ["k8s_ns.default"] :=
  match CmdAddK8s_new_endpoint_record (sampleEnv {}) { ContainerID := "c1", IfName := "eth0" }
      { Name := "net1", IPAM := { Type' := "X" }, Policy := { PolicyType := "k8s" } }
      "node1" ⟨[], 0, []⟩
      (CmdAddK8s (sampleEnv {}) { ContainerID := "c1", IfName := "eth0" }
          { Name := "net1", IPAM := { Type' := "X" }, Policy := { PolicyType := "k8s" } }
          "node1" none ⟨[], 0, []⟩).2
      (some { IPs := [{ Version := "4", Address := ⟨[192, 168, 0, 2], [255, 255, 255, 0]⟩ }] })
      (Prod.ext (by decide!) rfl)
      (by
        intro ep res ep2 h
        cases res with
        | none => simp [sampleEnv] at h
        | some r =>
          simp only [sampleEnv, Except.ok.injEq] at h
          rw [← h]
          exact ⟨rfl, rfl⟩) with
  | ⟨k8sArgs, _, _, l, ep, stored, hk, _, htr, _, h1, h2, h3, _, _, hprof, _⟩ =>
    ⟨ep, stored, l, htr, h1, h2, h3, by
      have hk2 : k8sArgs = { K8S_POD_NAME := "web", K8S_POD_NAMESPACE := "default" } := by
        simpa [sampleEnv] using hk.symm
      rw [hprof, hk2]
      rfl⟩

/-! ## Theorems: the endpoint-status key path -/

/-- A literal at the head of a string is stripped. -/
theorem stripLiteral_append (lit rest : List Char) :
    stripLiteral lit (lit ++ rest) = some rest := by
  unfold stripLiteral
  have h : lit.isPrefixOf (lit ++ rest) = true := by
    rw [List.isPrefixOf_iff_prefix]
    exact List.prefix_append lit rest
  simp [h]

/-- A non-empty run without `/` followed by `/` is the group taken. -/
theorem takeSegment_slash (seg rest : List Char) (hne : seg ≠ []) (hno : '/' ∉ seg) :
    takeSegment (seg ++ '/' :: rest) = some (seg, '/' :: rest) := by
  have ht : (seg ++ '/' :: rest).takeWhile (fun c => c != '/') = seg := by
    clear hne
    induction seg with
    | nil => simp [List.takeWhile_cons]
    | cons c tl ih =>
      have hc : c ≠ '/' := fun h => hno (by rw [h]; exact List.mem_cons_self _ _)
      have htl : '/' ∉ tl := fun h => hno (List.mem_cons_of_mem _ h)
      simp [List.takeWhile_cons, hc, ih htl]
  have hd : (seg ++ '/' :: rest).dropWhile (fun c => c != '/') = '/' :: rest := by
    clear ht hne
    induction seg with
    | nil => simp [List.dropWhile_cons]
    | cons c tl ih =>
      have hc : c ≠ '/' := fun h => hno (by rw [h]; exact List.mem_cons_self _ _)
      have htl : '/' ∉ tl := fun h => hno (List.mem_cons_of_mem _ h)
      simp [List.dropWhile_cons, hc, ih htl]
  unfold takeSegment
  rw [ht, hd]
  simp [hne]

/-- A non-empty run without `/` that ends the string is the group taken. -/
theorem takeSegment_end (seg : List Char) (hne : seg ≠ []) (hno : '/' ∉ seg) :
    takeSegment seg = some (seg, []) := by
  have hall : ∀ c ∈ seg, (c != '/') = true := by
    intro c hc
    simp only [bne_iff_ne, ne_eq]
    intro h
    exact hno (h ▸ hc)
  have ht : seg.takeWhile (fun c => c != '/') = seg := List.takeWhile_eq_self_iff.mpr hall
  have hd : seg.dropWhile (fun c => c != '/') = [] := List.dropWhile_eq_nil_iff.mpr hall
  unfold takeSegment
  rw [ht, hd]
  simp [hne]

/-- The pattern matches a path built from four non-empty slash-free pieces and its
groups are those pieces. -/
theorem matchWorkloadEndpointStatus_path (h a b c : String)
    (hh : h ≠ "") (ha : a ≠ "") (hb : b ≠ "") (hc : c ≠ "")
    (nh : '/' ∉ h.data) (na : '/' ∉ a.data) (nb : '/' ∉ b.data) (nc : '/' ∉ c.data) :
    matchWorkloadEndpointStatus ("/calico/felix/v1/host/" ++ h ++ "/workload/" ++ a ++ "/"
      ++ b ++ "/endpoint/" ++ c) = some (h, a, b, c) := by
  have dne : ∀ s : String, s ≠ "" → s.data ≠ [] := by
    intro s hs hd
    apply hs
    cases s
    simp only at hd
    rw [hd]
  have k0 : "/calico/felix/v1/host/".data = '/' :: "calico/felix/v1/host/".data := by decide
  have k1 : "/workload/".data = '/' :: "workload/".data := by decide
  have k2 : "/".data = ['/'] := by decide
  have k3 : "/endpoint/".data = '/' :: "endpoint/".data := by decide
  have e0 : ("/calico/felix/v1/host/" ++ h ++ "/workload/" ++ a ++ "/" ++ b ++ "/endpoint/"
      ++ c).data = '/' :: ("calico/felix/v1/host/".data ++ (h.data ++ '/' ::
        ("workload/".data ++ (a.data ++ '/' :: (b.data ++ '/' ::
          ("endpoint/".data ++ c.data)))))) := by
    simp only [String.data_append, k0, k1, k2, k3, List.append_assoc, List.cons_append,
      List.nil_append]
  unfold matchWorkloadEndpointStatus
  rw [e0, k1, k2, k3]
  generalize "calico/felix/v1/host/".data = P0
  generalize "workload/".data = P1
  generalize "endpoint/".data = P3
  have s1 := stripLiteral_append P0 (h.data ++ '/' ::
        (P1 ++ (a.data ++ '/' :: (b.data ++ '/' :: (P3 ++ c.data)))))
  have t1 := takeSegment_slash h.data (P1 ++ (a.data ++ '/' :: (b.data ++ '/' ::
          (P3 ++ c.data)))) (dne h hh) nh
  have s2 := stripLiteral_append ('/' :: P1) (a.data ++ '/' :: (b.data ++ '/' ::
          (P3 ++ c.data)))
  have t2 := takeSegment_slash a.data (b.data ++ '/' :: (P3 ++ c.data)) (dne a ha) na
  have s3 := stripLiteral_append ['/'] (b.data ++ '/' :: (P3 ++ c.data))
  have t3 := takeSegment_slash b.data (P3 ++ c.data) (dne b hb) nb
  have s4 := stripLiteral_append ('/' :: P3) c.data
  have t4 := takeSegment_end c.data (dne c hc) nc
  rw [List.cons_append] at s2 s4
  rw [List.singleton_append] at s3
  simp only [s1, t1, s2, t2, s3, t3, s4, t4, if_true]

/-- Claim C20: for a key whose four fields are non-empty, whose hostname holds no `/`, and
whose other three fields escape to non-empty slash-free strings that unescape back to
themselves, `defaultPath` succeeds, the path parsed back with empty list options is the
original key, and with any list options the path parses back to the key exactly when
every non-empty option field equals the field of the key, and to nil otherwise. -/
theorem defaultPath_KeyFromDefaultPath_round_trip (escapeName unescapeName : String → String)
    (key : WorkloadEndpointStatusKey)
    (hh : key.Hostname ≠ "") (ho : key.OrchestratorID ≠ "") (hw : key.WorkloadID ≠ "")
    (he : key.EndpointID ≠ "") (nh : '/' ∉ key.Hostname.data)
    (ro : unescapeName (escapeName key.OrchestratorID) = key.OrchestratorID)
    (rw : unescapeName (escapeName key.WorkloadID) = key.WorkloadID)
    (re : unescapeName (escapeName key.EndpointID) = key.EndpointID)
    (eo : escapeName key.OrchestratorID ≠ "" ∧ '/' ∉ (escapeName key.OrchestratorID).data)
    (ew : escapeName key.WorkloadID ≠ "" ∧ '/' ∉ (escapeName key.WorkloadID).data)
    (ee : escapeName key.EndpointID ≠ "" ∧ '/' ∉ (escapeName key.EndpointID).data) :
    ∃ path, key.defaultPath escapeName = Except.ok path ∧
      WorkloadEndpointStatusListOptions.KeyFromDefaultPath unescapeName {} path = some key ∧
      ∀ options : WorkloadEndpointStatusListOptions,
        options.KeyFromDefaultPath unescapeName path =
          if (options.Hostname = "" ∨ options.Hostname = key.Hostname) ∧
             (options.OrchestratorID = "" ∨ options.OrchestratorID = key.OrchestratorID) ∧
             (options.WorkloadID = "" ∨ options.WorkloadID = key.WorkloadID) ∧
             (options.EndpointID = "" ∨ options.EndpointID = key.EndpointID)
          then some key else none := by
  obtain ⟨kh, ko, kw, ke⟩ := key
  simp only at hh ho hw he nh ro rw re eo ew ee ⊢
  have hm := matchWorkloadEndpointStatus_path kh (escapeName ko)
    (escapeName kw) (escapeName ke) hh eo.1 ew.1 ee.1 nh eo.2 ew.2 ee.2
  have hall : ∀ options : WorkloadEndpointStatusListOptions,
      options.KeyFromDefaultPath unescapeName ("/calico/felix/v1/host/" ++ kh
        ++ "/workload/" ++ escapeName ko ++ "/" ++ escapeName kw
        ++ "/endpoint/" ++ escapeName ke) =
          if (options.Hostname = "" ∨ options.Hostname = kh) ∧
             (options.OrchestratorID = "" ∨ options.OrchestratorID = ko) ∧
             (options.WorkloadID = "" ∨ options.WorkloadID = kw) ∧
             (options.EndpointID = "" ∨ options.EndpointID = ke)
          then some ⟨kh, ko, kw, ke⟩ else none := by
    intro options
    unfold WorkloadEndpointStatusListOptions.KeyFromDefaultPath
    rw [hm]
    simp only [ro, rw, re]
    simp only [@eq_comm _ options.Hostname kh, @eq_comm _ options.OrchestratorID ko,
      @eq_comm _ options.WorkloadID kw, @eq_comm _ options.EndpointID ke]
    have dm : ∀ p q : Prop, ¬(¬p ∧ ¬q) → p ∨ q := fun p q h => by
      by_contra hn
      exact h ⟨fun hp => hn (Or.inl hp), fun hq => hn (Or.inr hq)⟩
    by_cases c1 : options.Hostname ≠ "" ∧ kh ≠ options.Hostname
    · rw [if_pos c1, if_neg (fun h => h.1.elim c1.1 c1.2)]
    rw [if_neg c1]
    by_cases c2 : options.OrchestratorID ≠ "" ∧ ko ≠ options.OrchestratorID
    · rw [if_pos c2, if_neg (fun h => h.2.1.elim c2.1 c2.2)]
    rw [if_neg c2]
    by_cases c3 : options.WorkloadID ≠ "" ∧ kw ≠ options.WorkloadID
    · rw [if_pos c3, if_neg (fun h => h.2.2.1.elim c3.1 c3.2)]
    rw [if_neg c3]
    by_cases c4 : options.EndpointID ≠ "" ∧ ke ≠ options.EndpointID
    · rw [if_pos c4, if_neg (fun h => h.2.2.2.elim c4.1 c4.2)]
    rw [if_neg c4, if_pos ⟨dm _ _ c1, dm _ _ c2, dm _ _ c3, dm _ _ c4⟩]
  refine ⟨_, ?_, ?_, hall⟩
  · simp [WorkloadEndpointStatusKey.defaultPath, hh, ho, hw, he]
  · rw [hall]
    simp

/-- Claim C20 at a concrete key, with the identity as the name escaping. -/
theorem defaultPath_KeyFromDefaultPath_round_trip_witness :
    ∃ path, WorkloadEndpointStatusKey.defaultPath id
        { Hostname := "node1", OrchestratorID := "k8s", WorkloadID := "default.web",
          EndpointID := "eth0" } = Except.ok path ∧
      WorkloadEndpointStatusListOptions.KeyFromDefaultPath id {} path =
        some { Hostname := "node1", OrchestratorID := "k8s", WorkloadID := "default.web",
               EndpointID := "eth0" } ∧
      ∀ options : WorkloadEndpointStatusListOptions,
        options.KeyFromDefaultPath id path =
          if (options.Hostname = "" ∨ options.Hostname = "node1") ∧
             (options.OrchestratorID = "" ∨ options.OrchestratorID = "k8s") ∧
             (options.WorkloadID = "" ∨ options.WorkloadID = "default.web") ∧
             (options.EndpointID = "" ∨ options.EndpointID = "eth0")
          then some { Hostname := "node1", OrchestratorID := "k8s",
                      WorkloadID := "default.web", EndpointID := "eth0" } else none :=
  defaultPath_KeyFromDefaultPath_round_trip id id
    { Hostname := "node1", OrchestratorID := "k8s", WorkloadID := "default.web",
      EndpointID := "eth0" }
    (by decide) (by decide) (by decide) (by decide) (by decide) rfl rfl rfl
    ⟨by decide, by decide⟩ ⟨by decide, by decide⟩ ⟨by decide, by decide⟩

/-! ## Theorems: networking -/

section NetLemmas

theorem Net.bind_apply {α β : Type} (x : Net α) (f : α → Net β) (h : List NetEvent) :
    (x >>= f) h = Net.bind x f h := rfl

theorem Net.pure_apply {α : Type} (a : α) (h : List NetEvent) :
    (pure a : Net α) h = (Res.ok a, h) := rfl

end NetLemmas


section FileLemmas

/-- The run of `writeProcSys` once the file is open: the write and the close are made
whatever they answer, and the error returned is the short write or the error of the
write if there is one, and the answer of the close otherwise. -/
theorem writeProcSys_run (env : NetEnv) (p v : String) (h : List NetEvent) (f : Nat)
    (ho : env.OpenFile p h = Except.ok f) :
    writeProcSys env p v h =
      (match (if (if (env.Write p f v (h ++ [NetEvent.OpenFile p (Except.ok f)])).2 = none ∧
            (env.Write p f v (h ++ [NetEvent.OpenFile p (Except.ok f)])).1
              < (v.utf8ByteSize : Int) then some ErrShortWrite
            else (env.Write p f v (h ++ [NetEvent.OpenFile p (Except.ok f)])).2) = none
          then env.Close p f (h ++ [NetEvent.OpenFile p (Except.ok f),
            NetEvent.Write p f v (env.Write p f v (h ++ [NetEvent.OpenFile p (Except.ok f)])).1
              (env.Write p f v (h ++ [NetEvent.OpenFile p (Except.ok f)])).2])
          else (if (env.Write p f v (h ++ [NetEvent.OpenFile p (Except.ok f)])).2 = none ∧
            (env.Write p f v (h ++ [NetEvent.OpenFile p (Except.ok f)])).1
              < (v.utf8ByteSize : Int) then some ErrShortWrite
            else (env.Write p f v (h ++ [NetEvent.OpenFile p (Except.ok f)])).2)) with
        | none => Res.ok ()
        | some e => Res.error e,
      h ++ [NetEvent.OpenFile p (Except.ok f),
        NetEvent.Write p f v (env.Write p f v (h ++ [NetEvent.OpenFile p (Except.ok f)])).1
          (env.Write p f v (h ++ [NetEvent.OpenFile p (Except.ok f)])).2,
        NetEvent.Close p f (env.Close p f (h ++ [NetEvent.OpenFile p (Except.ok f),
          NetEvent.Write p f v (env.Write p f v (h ++ [NetEvent.OpenFile p (Except.ok f)])).1
            (env.Write p f v (h ++ [NetEvent.OpenFile p (Except.ok f)])).2]))]) := by
  simp only [writeProcSys, Net.bind_apply, Net.bind, Net.call, ho, List.append_assoc,
    List.singleton_append]
  split <;> rename_i herr <;> simp only [herr] <;> rfl

/-- What one `writeProcSys` leaves in the trace: calls on files only, with at most the
one write, and exactly that write when it succeeds. -/
theorem writeProcSys_trace (env : NetEnv) (p v : String) (h : List NetEvent) :
    ∃ evs, (writeProcSys env p v h).2 = h ++ evs ∧ (∀ e ∈ evs, e.isFileCall = true) ∧
      (writesOf evs = [] ∨ writesOf evs = [(p, v)]) ∧
      ((writeProcSys env p v h).1 = Res.ok () → writesOf evs = [(p, v)]) ∧
      ((writeProcSys env p v h).1 = Res.ok () ∨ ∃ e, (writeProcSys env p v h).1 = Res.error e) := by
  cases ho : env.OpenFile p h with
  | error e =>
    refine ⟨[NetEvent.OpenFile p (Except.error e)], ?_, ?_, ?_, ?_, ?_⟩ <;>
      simp [writeProcSys, Net.bind_apply, Net.bind, Net.call, ho, Net.fail, writesOf,
        NetEvent.isFileCall]
  | ok f =>
    rw [writeProcSys_run env p v h f ho]
    refine ⟨_, rfl, ?_, ?_, ?_, ?_⟩
    · simp [NetEvent.isFileCall]
    · simp [writesOf]
    · simp [writesOf]
    · dsimp only
      split
      · exact Or.inl rfl
      · exact Or.inr ⟨_, rfl⟩

/-- A `writeProcSys` whose three calls succeed returns no error. -/
theorem writeProcSys_ok (env : NetEnv) (p v : String) (h : List NetEvent)
    (hOpen : ∀ p h, ∃ f, env.OpenFile p h = Except.ok f)
    (hWrite : ∀ p f v h, (env.Write p f v h).2 = none ∧
      (v.utf8ByteSize : Int) ≤ (env.Write p f v h).1)
    (hClose : ∀ p f h, env.Close p f h = none) :
    (writeProcSys env p v h).1 = Res.ok () := by
  obtain ⟨f, ho⟩ := hOpen p h
  rw [writeProcSys_run env p v h f ho]
  have hw := hWrite p f v (h ++ [NetEvent.OpenFile p (Except.ok f)])
  simp [hw.1, not_lt.mpr hw.2, hClose]

/-- The writes of two traces put end to end. -/
theorem writesOf_append (l1 l2 : List NetEvent) :
    writesOf (l1 ++ l2) = writesOf l1 ++ writesOf l2 := by
  induction l1 with
  | nil => rfl
  | cons e tl ih => cases e <;> simp [writesOf, ih]

/-- What `writeInOrder` leaves in the trace: calls on files only, whose writes are an
initial part of the list, and the whole list when it succeeds. -/
theorem writeInOrder_trace (env : NetEnv) : ∀ (plan : List (String × String))
    (h : List NetEvent),
    ∃ evs, (writeInOrder env plan h).2 = h ++ evs ∧ (∀ e ∈ evs, e.isFileCall = true) ∧
      writesOf evs <+: plan ∧
      ((writeInOrder env plan h).1 = Res.ok () → writesOf evs = plan)
  | [], h => ⟨[], by simp [writeInOrder, Net.pure_apply], by simp, by simp [writesOf],
      by simp [writesOf]⟩
  | w :: rest, h => by
    obtain ⟨evs1, htr, hfile, hw, hok, hres⟩ := writeProcSys_trace env w.1 w.2 h
    have hunf : writeInOrder env (w :: rest) h =
        Net.bind (writeProcSys env w.1 w.2) (fun _ => writeInOrder env rest) h := rfl
    rw [hunf]
    unfold Net.bind
    rcases hres with hres | ⟨e, hres⟩
    · obtain ⟨evs2, htr2, hfile2, hw2, hok2⟩ := writeInOrder_trace env rest (h ++ evs1)
      have hpair : writeProcSys env w.1 w.2 h = (Res.ok (), h ++ evs1) := by
        rw [← htr, ← hres]
      rw [hpair]
      refine ⟨evs1 ++ evs2, ?_, ?_, ?_, ?_⟩
      · simp only [htr2, List.append_assoc]
      · intro ev hev
        rcases List.mem_append.mp hev with hm | hm
        · exact hfile ev hm
        · exact hfile2 ev hm
      · rw [writesOf_append, hok hres]
        exact (List.prefix_cons_inj w).mpr hw2
      · intro hr
        rw [writesOf_append, hok hres, hok2 hr]
        rfl
    · have hpair : writeProcSys env w.1 w.2 h = (Res.error e, h ++ evs1) := by
        rw [← htr, ← hres]
      rw [hpair]
      refine ⟨evs1, rfl, hfile, ?_, ?_⟩
      · rcases hw with hw | hw
        · rw [hw]
          exact List.nil_prefix
        · rw [hw]
          exact (List.prefix_cons_inj w).mpr List.nil_prefix
      · intro hr
        cases hr

/-- Writes that all succeed are all made. -/
theorem writeInOrder_ok (env : NetEnv)
    (hOpen : ∀ p h, ∃ f, env.OpenFile p h = Except.ok f)
    (hWrite : ∀ p f v h, (env.Write p f v h).2 = none ∧
      (v.utf8ByteSize : Int) ≤ (env.Write p f v h).1)
    (hClose : ∀ p f h, env.Close p f h = none) :
    ∀ (plan : List (String × String)) (h : List NetEvent),
      (writeInOrder env plan h).1 = Res.ok ()
  | [], _ => rfl
  | w :: rest, h => by
    have hunf : writeInOrder env (w :: rest) h =
        Net.bind (writeProcSys env w.1 w.2) (fun _ => writeInOrder env rest) h := rfl
    have h1 := writeProcSys_ok env w.1 w.2 h hOpen hWrite hClose
    rw [hunf]
    unfold Net.bind
    have hpair : writeProcSys env w.1 w.2 h = (Res.ok (), (writeProcSys env w.1 w.2 h).2) := by
      rw [← h1]
    rw [hpair]
    exact writeInOrder_ok env hOpen hWrite hClose rest _

/-- The function `configureSysctls` performs the listed writes in order. -/
theorem configureSysctls_eq_writeInOrder (env : NetEnv) (n : String)
    (hasIPv4 hasIPv6 : Bool) :
    configureSysctls env n hasIPv4 hasIPv6 = writeInOrder env (sysctlPlan n hasIPv4 hasIPv6) := by
  funext h
  cases hasIPv4 <;> cases hasIPv6 <;>
    simp only [configureSysctls, sysctlPlan, writeInOrder, Net.bind_apply, Net.bind,
      Net.pure_apply, if_true, if_false, List.nil_append, List.cons_append,
      Bool.false_eq_true]

/-- When every call on files succeeds, `configureSysctls` returns no error and its calls
are calls on files whose writes are the listed ones. -/
theorem configureSysctls_ok (env : NetEnv) (n : String) (hasIPv4 hasIPv6 : Bool)
    (h : List NetEvent)
    (hOpen : ∀ p h, ∃ f, env.OpenFile p h = Except.ok f)
    (hWrite : ∀ p f v h, (env.Write p f v h).2 = none ∧
      (v.utf8ByteSize : Int) ≤ (env.Write p f v h).1)
    (hClose : ∀ p f h, env.Close p f h = none) :
    ∃ sys, configureSysctls env n hasIPv4 hasIPv6 h = (Res.ok (), h ++ sys) ∧
      (∀ e ∈ sys, e.isFileCall = true) ∧ writesOf sys = sysctlPlan n hasIPv4 hasIPv6 := by
  rw [configureSysctls_eq_writeInOrder]
  obtain ⟨sys, htr, hfile, _, hok⟩ := writeInOrder_trace env (sysctlPlan n hasIPv4 hasIPv6) h
  have h1 := writeInOrder_ok env hOpen hWrite hClose (sysctlPlan n hasIPv4 hasIPv6) h
  refine ⟨sys, ?_, hfile, hok h1⟩
  rw [← htr, ← h1]

end FileLemmas

section DoNetworkingLemmas

variable (env : NetEnv)

/-- An IPv4 assignment whose three calls succeed. -/
theorem DoNetworking.ipv4_ok (contVeth : Link) (name : String) (addr : IPConfig)
    (h : List NetEvent)
    (hRouteAdd : ∀ r h, env.RouteAdd r h = none)
    (hAddDefaultRoute : ∀ gw d h, env.AddDefaultRoute gw d h = none)
    (hAddrAdd : ∀ l a h, env.AddrAdd l a h = none) :
    DoNetworking.ipv4 env contVeth name addr h = (Res.ok (), h ++ expectIPv4Steps contVeth addr) := by
  have hm : CIDRMask 32 32 = [255, 255, 255, 255] := by decide
  simp [DoNetworking.ipv4, Net.bind_apply, Net.bind, Net.call, Net.pure_apply, hRouteAdd,
    hAddDefaultRoute, hAddrAdd, expectIPv4Steps, hm]

/-- An IPv6 assignment when the host end lists an address and the calls succeed. -/
theorem DoNetworking.ipv6_ok (hostVeth contVeth : Link) (addr : IPConfig) (h : List NetEvent)
    (first : Addr) (others : List Addr)
    (hl : env.AddrList hostVeth Family.FAMILY_V6 h = Except.ok (first :: others))
    (hAddRoute : ∀ n gw d h, env.AddRoute n gw d h = none)
    (hAddrAdd : ∀ l a h, env.AddrAdd l a h = none) :
    DoNetworking.ipv6 env hostVeth contVeth addr h =
      (Res.ok (), h ++ expectIPv6Steps hostVeth contVeth first others addr) := by
  simp [DoNetworking.ipv6, Net.bind_apply, Net.bind, Net.call, Net.pure_apply, hl, hAddRoute,
    hAddrAdd, expectIPv6Steps, defNet]

/-- An IPv6 assignment when the host end lists no address. -/
theorem DoNetworking.ipv6_none (hostVeth contVeth : Link) (addr : IPConfig) (h : List NetEvent)
    (hl : env.AddrList hostVeth Family.FAMILY_V6 h = Except.ok []) :
    DoNetworking.ipv6 env hostVeth contVeth addr h =
      (Res.error (errorsNew "failed to get IPv6 addresses for host side of the veth pair"),
        h ++ [NetEvent.AddrList hostVeth Family.FAMILY_V6 (Except.ok [])]) := by
  simp [DoNetworking.ipv6, Net.bind_apply, Net.bind, Net.call, hl, Net.fail]

/-- One turn of the loop on an IPv4 assignment whose calls succeed. -/
theorem DoNetworking.loop_v4 (hostVeth contVeth : Link) (name : String) (a : IPConfig)
    (rest : List IPConfig) (b4 b6 : Bool) (h : List NetEvent) (ha : a.Version = "4")
    (hRouteAdd : ∀ r h, env.RouteAdd r h = none)
    (hAddDefaultRoute : ∀ gw d h, env.AddDefaultRoute gw d h = none)
    (hAddrAdd : ∀ l a h, env.AddrAdd l a h = none) :
    DoNetworking.loop env hostVeth contVeth name (a :: rest) b4 b6 h =
      DoNetworking.loop env hostVeth contVeth name rest true b6
        (h ++ expectIPv4Steps contVeth a) := by
  have h46 : ¬ ("4" = "6") := by decide
  simp only [DoNetworking.loop, Net.bind_apply, Net.bind, ha, if_true, h46, if_false,
    DoNetworking.ipv4_ok env contVeth name a h hRouteAdd hAddDefaultRoute hAddrAdd,
    Net.pure_apply]

/-- One turn of the loop on an IPv6 assignment when the host end lists an address. -/
theorem DoNetworking.loop_v6 (hostVeth contVeth : Link) (name : String) (a : IPConfig)
    (rest : List IPConfig) (b4 b6 : Bool) (h : List NetEvent) (ha : a.Version = "6")
    (first : Addr) (others : List Addr)
    (hl : env.AddrList hostVeth Family.FAMILY_V6 h = Except.ok (first :: others))
    (hAddRoute : ∀ n gw d h, env.AddRoute n gw d h = none)
    (hAddrAdd : ∀ l a h, env.AddrAdd l a h = none) :
    DoNetworking.loop env hostVeth contVeth name (a :: rest) b4 b6 h =
      DoNetworking.loop env hostVeth contVeth name rest b4 true
        (h ++ expectIPv6Steps hostVeth contVeth first others a) := by
  have h64 : ¬ ("6" = "4") := by decide
  simp only [DoNetworking.loop, Net.bind_apply, Net.bind, ha, if_true, h64, if_false,
    DoNetworking.ipv6_ok env hostVeth contVeth a h first others hl hAddRoute hAddrAdd,
    Net.pure_apply]

/-- One turn of the loop on an IPv6 assignment when the host end lists no address. -/
theorem DoNetworking.loop_v6_none (hostVeth contVeth : Link) (name : String) (a : IPConfig)
    (rest : List IPConfig) (b4 b6 : Bool) (h : List NetEvent) (ha : a.Version = "6")
    (hl : env.AddrList hostVeth Family.FAMILY_V6 h = Except.ok []) :
    DoNetworking.loop env hostVeth contVeth name (a :: rest) b4 b6 h =
      (Res.error (errorsNew "failed to get IPv6 addresses for host side of the veth pair"),
        h ++ [NetEvent.AddrList hostVeth Family.FAMILY_V6 (Except.ok [])]) := by
  have h64 : ¬ ("6" = "4") := by decide
  simp only [DoNetworking.loop, Net.bind_apply, Net.bind, ha, if_true, h64, if_false,
    DoNetworking.ipv6_none env hostVeth contVeth a h hl, Net.pure_apply]

/-- One turn of the loop on an assignment of neither family. -/
theorem DoNetworking.loop_skip (hostVeth contVeth : Link) (name : String) (a : IPConfig)
    (rest : List IPConfig) (b4 b6 : Bool) (h : List NetEvent) (h4 : a.Version ≠ "4")
    (h6 : a.Version ≠ "6") :
    DoNetworking.loop env hostVeth contVeth name (a :: rest) b4 b6 h =
      DoNetworking.loop env hostVeth contVeth name rest b4 b6 h := by
  simp only [DoNetworking.loop, Net.bind_apply, Net.bind, h4, h6, if_false, Net.pure_apply]

/-- The loop on assignments none of which is an IPv6 one, followed by an IPv6 one, when
the host end lists no address: the IPv4 steps met on the way are made, the listing is
made, and the loop ends with the error. -/
theorem DoNetworking.loop_until_ipv6 (hostVeth contVeth : Link) (name : String)
    (a6 : IPConfig) (rest : List IPConfig) (ha : a6.Version = "6")
    (hl : ∀ h, env.AddrList hostVeth Family.FAMILY_V6 h = Except.ok [])
    (hRouteAdd : ∀ r h, env.RouteAdd r h = none)
    (hAddDefaultRoute : ∀ gw d h, env.AddDefaultRoute gw d h = none)
    (hAddrAdd : ∀ l a h, env.AddrAdd l a h = none) :
    ∀ (pre : List IPConfig) (b4 b6 : Bool) (h : List NetEvent),
      (∀ a ∈ pre, a.Version ≠ "6") →
      DoNetworking.loop env hostVeth contVeth name (pre ++ a6 :: rest) b4 b6 h =
        (Res.error (errorsNew "failed to get IPv6 addresses for host side of the veth pair"),
          h ++ (expectIPv4Run contVeth pre
            ++ [NetEvent.AddrList hostVeth Family.FAMILY_V6 (Except.ok [])]))
  | [], b4, b6, h, _ => by
    rw [List.nil_append, DoNetworking.loop_v6_none env hostVeth contVeth name a6 rest b4 b6 h ha
      (hl h)]
    rfl
  | a :: pre, b4, b6, h, hpre => by
    have hpre2 : ∀ x ∈ pre, x.Version ≠ "6" := fun x hx => hpre x (List.mem_cons_of_mem _ hx)
    have h6 : a.Version ≠ "6" := hpre a (List.mem_cons_self _ _)
    by_cases h4 : a.Version = "4"
    · rw [List.cons_append, DoNetworking.loop_v4 env hostVeth contVeth name a _ b4 b6 h h4
        hRouteAdd hAddDefaultRoute hAddrAdd,
        DoNetworking.loop_until_ipv6 hostVeth contVeth name a6 rest ha hl hRouteAdd
          hAddDefaultRoute hAddrAdd pre true b6 _ hpre2]
      simp only [expectIPv4Run, h4, if_true, List.append_assoc]
    · rw [List.cons_append, DoNetworking.loop_skip env hostVeth contVeth name a _ b4 b6 h h4 h6,
        DoNetworking.loop_until_ipv6 hostVeth contVeth name a6 rest ha hl hRouteAdd
          hAddDefaultRoute hAddrAdd pre b4 b6 _ hpre2]
      simp only [expectIPv4Run, h4, if_false, List.nil_append]

end DoNetworkingLemmas

/-- Claim C16 fails in the code: for the interface name "eth0", shorter than 6 bytes,
`DoNetworking` panics on the slice `args.IfName[6:]` before it looks at the desired
host-side name, whatever that name is (empty or not), and makes no call at all. -/
theorem DoNetworking_short_interface_name_panics (env : NetEnv) (args : CmdArgs)
    (conf : NetConf) (result : Option Result) (desiredVethName : String)
    (h : List NetEvent) :
    DoNetworking env { args with IfName := "eth0" } conf result desiredVethName h =
      (Res.panic "runtime error: slice bounds out of range", h) := by
  have hs : sliceFrom "eth0" 6 = none := by decide
  simp only [DoNetworking, hs]


section NamedLemmas

variable (env : NetEnv)

/-- The clean-up when a deletion, if there is one, succeeds: it makes the lookup, and the
deletion when the lookup found an interface. -/
theorem DoNetworking.cleanUp_ok (hostVethName : String) (h : List NetEvent)
    (hLinkDel : ∀ l h, env.LinkDel l h = none) :
    ∃ pre, DoNetworking.cleanUp env hostVethName h = (Res.ok (), h ++ pre) ∧
      ((∃ e, pre = [NetEvent.LinkByName hostVethName (Except.error e)]) ∨
       (∃ old, pre = [NetEvent.LinkByName hostVethName (Except.ok old),
          NetEvent.LinkDel old none])) := by
  cases hl : env.LinkByName hostVethName h with
  | error e =>
    refine ⟨[NetEvent.LinkByName hostVethName (Except.error e)], ?_, Or.inl ⟨e, rfl⟩⟩
    simp [DoNetworking.cleanUp, Net.bind_apply, Net.bind, Net.call, hl, Net.pure_apply]
  | ok old =>
    refine ⟨[NetEvent.LinkByName hostVethName (Except.ok old), NetEvent.LinkDel old none], ?_,
      Or.inr ⟨old, rfl⟩⟩
    simp [DoNetworking.cleanUp, Net.bind_apply, Net.bind, Net.call, hl, Net.pure_apply, hLinkDel]

/-- The host routes when every `RouteAdd` succeeds: one per assignment, in order. -/
theorem setupRoutes.loop_ok (hostVeth : Link) (hRouteAdd : ∀ r h, env.RouteAdd r h = none) :
    ∀ (ips : List IPConfig) (h : List NetEvent),
      setupRoutes.loop env hostVeth ips h = (Res.ok (), h ++ ips.map (expectHostRoute hostVeth))
  | [], h => by simp [setupRoutes.loop, Net.pure_apply]
  | ip :: rest, h => by
    simp only [setupRoutes.loop, Net.bind_apply, Net.bind, Net.call, hRouteAdd,
      setupRoutes.loop_ok hostVeth hRouteAdd rest, List.map_cons, expectHostRoute,
      List.append_assoc, List.singleton_append]

/-- The code run inside the container up to the loop, when the veth pair is created and
both ends are found: what the loop returns decides the rest. -/
theorem DoNetworking.inContainer_run (conf : NetConf) (r : Result)
    (hostVethName contVethName : String) (fd : Int) (h : List NetEvent) (hostVeth contVeth : Link)
    (hLinkAdd : ∀ v h, env.LinkAdd v h = none)
    (hLinkSetUp : ∀ l h, env.LinkSetUp l h = none)
    (hhost : env.LinkByName hostVethName (h ++ [NetEvent.LinkAdd
      ⟨contVethName, FlagUp, conf.MTU, hostVethName⟩ none]) = Except.ok hostVeth)
    (hcont : env.LinkByName contVethName (h ++ [NetEvent.LinkAdd
      ⟨contVethName, FlagUp, conf.MTU, hostVethName⟩ none,
      NetEvent.LinkByName hostVethName (Except.ok hostVeth),
      NetEvent.LinkSetUp hostVeth none]) = Except.ok contVeth) :
    DoNetworking.inContainer env conf (some r) hostVethName contVethName fd h =
      match DoNetworking.loop env hostVeth contVeth contVethName r.IPs false false
          (h ++ [NetEvent.LinkAdd ⟨contVethName, FlagUp, conf.MTU, hostVethName⟩ none,
            NetEvent.LinkByName hostVethName (Except.ok hostVeth),
            NetEvent.LinkSetUp hostVeth none,
            NetEvent.LinkByName contVethName (Except.ok contVeth)]) with
      | (Res.ok flags, h1) =>
        (match env.LinkSetNsFd hostVeth fd h1 with
         | none => Res.ok (env.HardwareAddrString contVeth.HardwareAddr, flags.1, flags.2)
         | some e => Res.error (errorsNew ("failed to move veth to host netns: " ++ e.text)),
         h1 ++ [NetEvent.LinkSetNsFd hostVeth fd (env.LinkSetNsFd hostVeth fd h1)])
      | (Res.error e, h1) => (Res.error e, h1)
      | (Res.panic m, h1) => (Res.panic m, h1)
      | (Res.exit c, h1) => (Res.exit c, h1) := by
  simp only [DoNetworking.inContainer, Net.bind_apply, Net.bind, Net.call, hLinkAdd, hLinkSetUp,
    hhost, hcont, List.append_assoc, List.singleton_append, List.cons_append, List.nil_append]
  split <;> rename_i hloop <;> simp only [hloop]
  split <;> rename_i hmove <;> simp only [hmove] <;> rfl

/-- The body of `DoNetworking` when the code run inside the container ends with an
error: the namespace is left and the error is returned; nothing more is done. -/
theorem DoNetworking.named_inner_error (args : CmdArgs) (conf : NetConf)
    (result : Option Result) (hostVethName : String) (h0 H1 H2 : List NetEvent) (fd : Int)
    (e : GoError)
    (hclean : DoNetworking.cleanUp env hostVethName h0 = (Res.ok (), H1))
    (hfd : env.EnterNetNS args.Netns H1 = Except.ok fd)
    (hin : DoNetworking.inContainer env conf result hostVethName args.IfName fd
      (H1 ++ [NetEvent.EnterNetNS args.Netns (Except.ok fd)]) = (Res.error e, H2)) :
    DoNetworking.named env args conf result hostVethName h0 =
      (Res.error e, H2 ++ [NetEvent.LeaveNetNS]) := by
  simp only [DoNetworking.named, Net.bind_apply, Net.bind, hclean, WithNetNSPath, hfd, hin]

/-- The body of `DoNetworking` when every step succeeds. -/
theorem DoNetworking.named_ok (args : CmdArgs) (conf : NetConf)
    (result : Option Result) (hostVethName : String) (h0 H1 H2 H3 H4 : List NetEvent) (fd : Int)
    (mac : String) (b4 b6 : Bool) (hostVeth2 : Link)
    (hclean : DoNetworking.cleanUp env hostVethName h0 = (Res.ok (), H1))
    (hfd : env.EnterNetNS args.Netns H1 = Except.ok fd)
    (hin : DoNetworking.inContainer env conf result hostVethName args.IfName fd
      (H1 ++ [NetEvent.EnterNetNS args.Netns (Except.ok fd)]) = (Res.ok (mac, b4, b6), H2))
    (hsys : configureSysctls env hostVethName b4 b6 (H2 ++ [NetEvent.LeaveNetNS]) =
      (Res.ok (), H3))
    (hfound : env.LinkByName hostVethName H3 = Except.ok hostVeth2)
    (hup : env.LinkSetUp hostVeth2 (H3 ++ [NetEvent.LinkByName hostVethName
      (Except.ok hostVeth2)]) = none)
    (hroutes : setupRoutes env hostVeth2 result (H3 ++ [NetEvent.LinkByName hostVethName
      (Except.ok hostVeth2), NetEvent.LinkSetUp hostVeth2 none]) = (Res.ok (), H4)) :
    DoNetworking.named env args conf result hostVethName h0 =
      (Res.ok (hostVethName, mac), H4) := by
  simp only [DoNetworking.named, Net.bind_apply, Net.bind, hclean, WithNetNSPath, hfd, hin,
    Net.attempt, hsys, Net.call, hfound, hup, List.append_assoc, List.singleton_append,
    hroutes, Net.pure_apply]

end NamedLemmas

/-- The calls of a dual-stack attachment when the slice `args.IfName[6:]` exists, that
is when the interface name has at least 6 bytes. For a list of exactly one IPv4 and one
IPv6 assignment, in either order, when every call succeeds (the lookup that starts the
clean-up apart, which may find nothing) and the host end lists at least one IPv6
address, `DoNetworking` returns the host-side name and the MAC without error and its
calls are exactly: the clean-up; the entry into the container namespace, the creation
of the pair, the lookups and the setting up of the host end; for each assignment in
order its steps (IPv4: link-scoped route to 169.254.1.1/32 on the container interface,
default route through 169.254.1.1, address; IPv6: listing, default route `::/0`
through the first listed address, address); the move of the host end to the host
namespace and the return to it; the calls on files that write the five kernel
parameters; the lookup and the setting up of the host end; and two link-scoped host
routes, one per assignment. -/
theorem DoNetworking_dual_stack_calls (env : NetEnv) (args : CmdArgs) (conf : NetConf)
    (x y : IPConfig) (desiredVethName tail hostVethName : String) (h0 : List NetEvent)
    (hslice : sliceFrom args.IfName 6 = some tail)
    (hname : hostVethName = if desiredVethName ≠ "" then desiredVethName else "vcali" ++ tail)
    (hfam : (x.Version = "4" ∧ y.Version = "6") ∨ (x.Version = "6" ∧ y.Version = "4"))
    (hLinkByName : ∀ name l, l ≠ [] → ∃ link, env.LinkByName name (h0 ++ l) = Except.ok link)
    (hLinkDel : ∀ l h, env.LinkDel l h = none)
    (hEnterNetNS : ∀ p h, ∃ fd, env.EnterNetNS p h = Except.ok fd)
    (hLinkAdd : ∀ v h, env.LinkAdd v h = none)
    (hLinkSetUp : ∀ l h, env.LinkSetUp l h = none)
    (hRouteAdd : ∀ r h, env.RouteAdd r h = none)
    (hAddDefaultRoute : ∀ gw d h, env.AddDefaultRoute gw d h = none)
    (hAddRoute : ∀ n gw d h, env.AddRoute n gw d h = none)
    (hAddrAdd : ∀ l a h, env.AddrAdd l a h = none)
    (hAddrList : ∀ l h, ∃ first others,
      env.AddrList l Family.FAMILY_V6 h = Except.ok (first :: others))
    (hLinkSetNsFd : ∀ l fd h, env.LinkSetNsFd l fd h = none)
    (hOpen : ∀ p h, ∃ f, env.OpenFile p h = Except.ok f)
    (hWrite : ∀ p f v h, (env.Write p f v h).2 = none ∧
      (v.utf8ByteSize : Int) ≤ (env.Write p f v h).1)
    (hClose : ∀ p f h, env.Close p f h = none) :
    ∃ pre fd hostVeth contVeth first others sys hostVeth2,
      DoNetworking env args conf (some ⟨[x, y]⟩) desiredVethName h0 =
        (Res.ok (hostVethName, env.HardwareAddrString contVeth.HardwareAddr, none),
          h0 ++ (pre ++ ([NetEvent.EnterNetNS args.Netns (Except.ok fd),
            NetEvent.LinkAdd ⟨args.IfName, FlagUp, conf.MTU, hostVethName⟩ none,
            NetEvent.LinkByName hostVethName (Except.ok hostVeth),
            NetEvent.LinkSetUp hostVeth none,
            NetEvent.LinkByName args.IfName (Except.ok contVeth)]
            ++ (expectContainerSteps hostVeth contVeth first others x
            ++ (expectContainerSteps hostVeth contVeth first others y
            ++ ([NetEvent.LinkSetNsFd hostVeth fd none, NetEvent.LeaveNetNS]
            ++ (sys
            ++ [NetEvent.LinkByName hostVethName (Except.ok hostVeth2),
              NetEvent.LinkSetUp hostVeth2 none,
              expectHostRoute hostVeth2 x, expectHostRoute hostVeth2 y]))))))) ∧
      ((∃ e, pre = [NetEvent.LinkByName hostVethName (Except.error e)]) ∨
       (∃ old, pre = [NetEvent.LinkByName hostVethName (Except.ok old),
          NetEvent.LinkDel old none])) ∧
      (∀ e ∈ sys, e.isFileCall = true) ∧
      writesOf sys = sysctlPlan hostVethName true true := by
  obtain ⟨pre, hclean, hpre⟩ := DoNetworking.cleanUp_ok env hostVethName h0 hLinkDel
  have hpne : pre ≠ [] := by
    rcases hpre with ⟨e, he⟩ | ⟨old, he⟩ <;> rw [he] <;> simp
  obtain ⟨fd, hfd⟩ := hEnterNetNS args.Netns (h0 ++ pre)
  obtain ⟨hostVeth, hhost⟩ := hLinkByName hostVethName
    (pre ++ [NetEvent.EnterNetNS args.Netns (Except.ok fd),
      NetEvent.LinkAdd ⟨args.IfName, FlagUp, conf.MTU, hostVethName⟩ none]) (by simp)
  obtain ⟨contVeth, hcont⟩ := hLinkByName args.IfName
    (pre ++ [NetEvent.EnterNetNS args.Netns (Except.ok fd),
      NetEvent.LinkAdd ⟨args.IfName, FlagUp, conf.MTU, hostVethName⟩ none,
      NetEvent.LinkByName hostVethName (Except.ok hostVeth),
      NetEvent.LinkSetUp hostVeth none]) (by simp)
  have hloop : ∃ first others H2,
      DoNetworking.loop env hostVeth contVeth args.IfName [x, y] false false
        (h0 ++ pre ++ [NetEvent.EnterNetNS args.Netns (Except.ok fd)] ++
          [NetEvent.LinkAdd ⟨args.IfName, FlagUp, conf.MTU, hostVethName⟩ none,
            NetEvent.LinkByName hostVethName (Except.ok hostVeth),
            NetEvent.LinkSetUp hostVeth none,
            NetEvent.LinkByName args.IfName (Except.ok contVeth)]) = (Res.ok (true, true), H2) ∧
      H2 = h0 ++ pre ++ [NetEvent.EnterNetNS args.Netns (Except.ok fd)] ++
          [NetEvent.LinkAdd ⟨args.IfName, FlagUp, conf.MTU, hostVethName⟩ none,
            NetEvent.LinkByName hostVethName (Except.ok hostVeth),
            NetEvent.LinkSetUp hostVeth none,
            NetEvent.LinkByName args.IfName (Except.ok contVeth)] ++
          expectContainerSteps hostVeth contVeth first others x ++
          expectContainerSteps hostVeth contVeth first others y := by
    have h64 : ¬ ("6" = "4") := by decide
    rcases hfam with ⟨hx, hy⟩ | ⟨hx, hy⟩
    · rw [DoNetworking.loop_v4 env hostVeth contVeth args.IfName x [y] false false _ hx
        hRouteAdd hAddDefaultRoute hAddrAdd]
      obtain ⟨first, others, hl⟩ := hAddrList hostVeth
        (h0 ++ pre ++ [NetEvent.EnterNetNS args.Netns (Except.ok fd)] ++
          [NetEvent.LinkAdd ⟨args.IfName, FlagUp, conf.MTU, hostVethName⟩ none,
            NetEvent.LinkByName hostVethName (Except.ok hostVeth),
            NetEvent.LinkSetUp hostVeth none,
            NetEvent.LinkByName args.IfName (Except.ok contVeth)] ++
          expectIPv4Steps contVeth x)
      rw [DoNetworking.loop_v6 env hostVeth contVeth args.IfName y [] true false _ hy
        first others hl hAddRoute hAddrAdd]
      refine ⟨first, others, _, rfl, ?_⟩
      simp only [expectContainerSteps, hx, hy, if_true, h64, if_false]
    · obtain ⟨first, others, hl⟩ := hAddrList hostVeth
        (h0 ++ pre ++ [NetEvent.EnterNetNS args.Netns (Except.ok fd)] ++
          [NetEvent.LinkAdd ⟨args.IfName, FlagUp, conf.MTU, hostVethName⟩ none,
            NetEvent.LinkByName hostVethName (Except.ok hostVeth),
            NetEvent.LinkSetUp hostVeth none,
            NetEvent.LinkByName args.IfName (Except.ok contVeth)])
      rw [DoNetworking.loop_v6 env hostVeth contVeth args.IfName x [y] false false _ hx
        first others hl hAddRoute hAddrAdd,
        DoNetworking.loop_v4 env hostVeth contVeth args.IfName y [] false true _ hy
        hRouteAdd hAddDefaultRoute hAddrAdd]
      refine ⟨first, others, _, rfl, ?_⟩
      simp only [expectContainerSteps, hx, hy, if_true, h64, if_false]
  obtain ⟨first, others, H2, hloop, hH2⟩ := hloop
  have hin : DoNetworking.inContainer env conf (some ⟨[x, y]⟩) hostVethName args.IfName fd
      (h0 ++ pre ++ [NetEvent.EnterNetNS args.Netns (Except.ok fd)]) =
      (Res.ok (env.HardwareAddrString contVeth.HardwareAddr, true, true),
        H2 ++ [NetEvent.LinkSetNsFd hostVeth fd none]) := by
    rw [DoNetworking.inContainer_run env conf ⟨[x, y]⟩ hostVethName args.IfName fd _ hostVeth
      contVeth hLinkAdd hLinkSetUp (by simpa [List.append_assoc] using hhost)
      (by simpa [List.append_assoc] using hcont)]
    simp only [hloop, hLinkSetNsFd]
  obtain ⟨sys, hsys, hfile, hwrites⟩ := configureSysctls_ok env hostVethName true true
    (H2 ++ [NetEvent.LinkSetNsFd hostVeth fd none] ++ [NetEvent.LeaveNetNS]) hOpen hWrite hClose
  have hH3 : H2 ++ [NetEvent.LinkSetNsFd hostVeth fd none] ++ [NetEvent.LeaveNetNS] ++ sys =
      h0 ++ (pre ++ ([NetEvent.EnterNetNS args.Netns (Except.ok fd),
            NetEvent.LinkAdd ⟨args.IfName, FlagUp, conf.MTU, hostVethName⟩ none,
            NetEvent.LinkByName hostVethName (Except.ok hostVeth),
            NetEvent.LinkSetUp hostVeth none,
            NetEvent.LinkByName args.IfName (Except.ok contVeth)]
            ++ (expectContainerSteps hostVeth contVeth first others x
            ++ (expectContainerSteps hostVeth contVeth first others y
            ++ ([NetEvent.LinkSetNsFd hostVeth fd none, NetEvent.LeaveNetNS] ++ sys))))) := by
    rw [hH2]
    simp only [List.append_assoc, List.singleton_append, List.cons_append, List.nil_append]
  obtain ⟨hostVeth2, hfound⟩ := hLinkByName hostVethName
    (pre ++ ([NetEvent.EnterNetNS args.Netns (Except.ok fd),
            NetEvent.LinkAdd ⟨args.IfName, FlagUp, conf.MTU, hostVethName⟩ none,
            NetEvent.LinkByName hostVethName (Except.ok hostVeth),
            NetEvent.LinkSetUp hostVeth none,
            NetEvent.LinkByName args.IfName (Except.ok contVeth)]
            ++ (expectContainerSteps hostVeth contVeth first others x
            ++ (expectContainerSteps hostVeth contVeth first others y
            ++ ([NetEvent.LinkSetNsFd hostVeth fd none, NetEvent.LeaveNetNS] ++ sys))))) (by simp)
  rw [← hH3] at hfound
  have hnamed := DoNetworking.named_ok env args conf (some ⟨[x, y]⟩) hostVethName h0 _ _ _ _ fd
    _ true true hostVeth2 hclean hfd hin hsys hfound (hLinkSetUp _ _)
    (setupRoutes.loop_ok env hostVeth2 hRouteAdd [x, y] _)
  refine ⟨pre, fd, hostVeth, contVeth, first, others, sys, hostVeth2, ?_, hpre, hfile, hwrites⟩
  simp only [DoNetworking, hslice, ← hname, hnamed]
  rw [hH3]
  simp only [List.append_assoc, List.singleton_append, List.cons_append, List.nil_append,
    List.map_cons, List.map_nil]

/-- The calls of a dual-stack attachment on a kernel where every call succeeds and
nothing has to be cleaned up, for the interface "lxceth0", no desired name, and the
assignments 10.0.5.9/32 and fd00::9/128. -/
theorem DoNetworking_dual_stack_calls_witness :
    ∃ pre fd hostVeth contVeth first others sys hostVeth2,
      DoNetworking sampleNetEnv { IfName := "lxceth0", Netns := "/proc/42/ns/net" } { MTU := 1500 }
          (some ⟨[⟨"4", ⟨[10, 0, 5, 9], [255, 255, 255, 255]⟩⟩,
            ⟨"6", ⟨[253, 0, 0, 0, 0, 0, 0, 0, 0, 0, 0, 0, 0, 0, 0, 9], CIDRMask 128 128⟩⟩]⟩)
          "" [] =
        (Res.ok ("vcali0", sampleNetEnv.HardwareAddrString contVeth.HardwareAddr, none),
          [] ++ (pre ++ ([NetEvent.EnterNetNS "/proc/42/ns/net" (Except.ok fd),
            NetEvent.LinkAdd ⟨"lxceth0", FlagUp, 1500, "vcali0"⟩ none,
            NetEvent.LinkByName "vcali0" (Except.ok hostVeth),
            NetEvent.LinkSetUp hostVeth none,
            NetEvent.LinkByName "lxceth0" (Except.ok contVeth)]
            ++ (expectContainerSteps hostVeth contVeth first others
                ⟨"4", ⟨[10, 0, 5, 9], [255, 255, 255, 255]⟩⟩
            ++ (expectContainerSteps hostVeth contVeth first others
                ⟨"6", ⟨[253, 0, 0, 0, 0, 0, 0, 0, 0, 0, 0, 0, 0, 0, 0, 9], CIDRMask 128 128⟩⟩
            ++ ([NetEvent.LinkSetNsFd hostVeth fd none, NetEvent.LeaveNetNS]
            ++ (sys
            ++ [NetEvent.LinkByName "vcali0" (Except.ok hostVeth2),
              NetEvent.LinkSetUp hostVeth2 none,
              expectHostRoute hostVeth2 ⟨"4", ⟨[10, 0, 5, 9], [255, 255, 255, 255]⟩⟩,
              expectHostRoute hostVeth2
                ⟨"6", ⟨[253, 0, 0, 0, 0, 0, 0, 0, 0, 0, 0, 0, 0, 0, 0, 9],
                  CIDRMask 128 128⟩⟩]))))))) ∧
      ((∃ e, pre = [NetEvent.LinkByName "vcali0" (Except.error e)]) ∨
       (∃ old, pre = [NetEvent.LinkByName "vcali0" (Except.ok old),
          NetEvent.LinkDel old none])) ∧
      (∀ e ∈ sys, e.isFileCall = true) ∧
      writesOf sys = sysctlPlan "vcali0" true true :=
  DoNetworking_dual_stack_calls sampleNetEnv { IfName := "lxceth0", Netns := "/proc/42/ns/net" }
    { MTU := 1500 } ⟨"4", ⟨[10, 0, 5, 9], [255, 255, 255, 255]⟩⟩
    ⟨"6", ⟨[253, 0, 0, 0, 0, 0, 0, 0, 0, 0, 0, 0, 0, 0, 0, 9], CIDRMask 128 128⟩⟩
    "" "0" "vcali0" [] (by decide) (by decide) (Or.inl ⟨rfl, rfl⟩)
    (fun name l hl => ⟨⟨7, name, [2, 0, 0, 0, 0, 1]⟩, by simp [sampleNetEnv, hl]⟩)
    (fun _ _ => rfl) (fun _ _ => ⟨5, rfl⟩) (fun _ _ => rfl) (fun _ _ => rfl) (fun _ _ => rfl)
    (fun _ _ _ => rfl) (fun _ _ _ _ => rfl) (fun _ _ _ => rfl) (fun _ _ => ⟨_, _, rfl⟩)
    (fun _ _ _ => rfl) (fun _ _ => ⟨3, rfl⟩) (fun _ _ _ _ => ⟨rfl, le_refl _⟩)
    (fun _ _ _ => rfl)

/-- Claim C17 fails in the code for an interface name shorter than 6 bytes: for the
interface "eth0" and a list of one IPv4 and one IPv6 assignment, on every kernel (so
also when every link operation succeeds and the host end has an IPv6 address) and for
every desired host-side name, `DoNetworking` panics on the slice `args.IfName[6:]`
and makes none of the calls of the claim: no route, no address, no move of the host
end, no write of a kernel parameter, no host route. -/
theorem DoNetworking_dual_stack_short_name_makes_no_call (env : NetEnv) (conf : NetConf)
    (nspath desiredVethName : String) (a4 a6 : IPNet) (h : List NetEvent) :
    DoNetworking env { IfName := "eth0", Netns := nspath } conf
        (some ⟨[⟨"4", a4⟩, ⟨"6", a6⟩]⟩) desiredVethName h =
      (Res.panic "runtime error: slice bounds out of range", h) ∧
    DoNetworking sampleNetEnv { IfName := "eth0", Netns := "/proc/42/ns/net" } { MTU := 1500 }
        (some ⟨[⟨"4", ⟨[10, 0, 5, 9], [255, 255, 255, 255]⟩⟩,
          ⟨"6", ⟨[253, 0, 0, 0, 0, 0, 0, 0, 0, 0, 0, 0, 0, 0, 0, 9], CIDRMask 128 128⟩⟩]⟩)
        "cali0123abcd" [] =
      (Res.panic "runtime error: slice bounds out of range", []) := by
  have hs : sliceFrom "eth0" 6 = none := by decide
  constructor <;> simp only [DoNetworking, hs]

/-- Claim C18 fails for an IPv4 assignment that follows the IPv6 one: with the list
fd00::9/128, 10.0.5.9/32 on a kernel where every call succeeds and the host end lists
no IPv6 address, `DoNetworking` returns the error after the listing, and none of
the three IPv4 steps has been made for the IPv4 assignment of the list. -/
theorem DoNetworking_ipv4_after_ipv6_not_applied :
    DoNetworking noIPv6NetEnv { IfName := "lxceth0", Netns := "/proc/42/ns/net" } { MTU := 1500 }
        (some ⟨[⟨"6", ⟨[253, 0, 0, 0, 0, 0, 0, 0, 0, 0, 0, 0, 0, 0, 0, 9], CIDRMask 128 128⟩⟩,
          ⟨"4", ⟨[10, 0, 5, 9], [255, 255, 255, 255]⟩⟩]⟩) "" [] =
      (Res.ok ("", "",
          some (errorsNew "failed to get IPv6 addresses for host side of the veth pair")),
        [NetEvent.LinkByName "vcali0" (Except.error (errorsNew "Link not found")),
         NetEvent.EnterNetNS "/proc/42/ns/net" (Except.ok 5),
         NetEvent.LinkAdd ⟨"lxceth0", FlagUp, 1500, "vcali0"⟩ none,
         NetEvent.LinkByName "vcali0" (Except.ok ⟨7, "vcali0", [2, 0, 0, 0, 0, 1]⟩),
         NetEvent.LinkSetUp ⟨7, "vcali0", [2, 0, 0, 0, 0, 1]⟩ none,
         NetEvent.LinkByName "lxceth0" (Except.ok ⟨7, "lxceth0", [2, 0, 0, 0, 0, 1]⟩),
         NetEvent.AddrList ⟨7, "vcali0", [2, 0, 0, 0, 0, 1]⟩ Family.FAMILY_V6 (Except.ok []),
         NetEvent.LeaveNetNS]) := by
  decide

/-- Claim C18 as the code has it: when the interface name has at least 6 bytes (the
slice `args.IfName[6:]` exists), the list holds an IPv6 assignment, the host end
lists no IPv6 address, and every other call succeeds (the lookup that starts the
clean-up apart), `DoNetworking` returns empty names and the error "failed to get IPv6
addresses for host side of the veth pair"; its calls are the clean-up, the entry into
the container namespace, the creation and the lookups of the pair, the three steps of
each IPv4 assignment that precedes the first IPv6 one, the listing, and the return to
the host namespace. So the host end is not moved, no file is written, no host route is
added, and nothing is undone; IPv4 assignments after the first IPv6 one get no step. -/
theorem DoNetworking_no_host_ipv6_address (env : NetEnv) (args : CmdArgs) (conf : NetConf)
    (before : List IPConfig) (a6 : IPConfig) (rest : List IPConfig)
    (desiredVethName tail hostVethName : String) (h0 : List NetEvent)
    (hslice : sliceFrom args.IfName 6 = some tail)
    (hname : hostVethName = if desiredVethName ≠ "" then desiredVethName else "vcali" ++ tail)
    (hbefore : ∀ a ∈ before, a.Version ≠ "6") (ha6 : a6.Version = "6")
    (hLinkByName : ∀ name l, l ≠ [] → ∃ link, env.LinkByName name (h0 ++ l) = Except.ok link)
    (hLinkDel : ∀ l h, env.LinkDel l h = none)
    (hEnterNetNS : ∀ p h, ∃ fd, env.EnterNetNS p h = Except.ok fd)
    (hLinkAdd : ∀ v h, env.LinkAdd v h = none)
    (hLinkSetUp : ∀ l h, env.LinkSetUp l h = none)
    (hRouteAdd : ∀ r h, env.RouteAdd r h = none)
    (hAddDefaultRoute : ∀ gw d h, env.AddDefaultRoute gw d h = none)
    (hAddrAdd : ∀ l a h, env.AddrAdd l a h = none)
    (hAddrList : ∀ l h, env.AddrList l Family.FAMILY_V6 h = Except.ok []) :
    ∃ pre fd hostVeth contVeth,
      DoNetworking env args conf (some ⟨before ++ a6 :: rest⟩) desiredVethName h0 =
        (Res.ok ("", "",
            some (errorsNew "failed to get IPv6 addresses for host side of the veth pair")),
          h0 ++ (pre ++ ([NetEvent.EnterNetNS args.Netns (Except.ok fd),
            NetEvent.LinkAdd ⟨args.IfName, FlagUp, conf.MTU, hostVethName⟩ none,
            NetEvent.LinkByName hostVethName (Except.ok hostVeth),
            NetEvent.LinkSetUp hostVeth none,
            NetEvent.LinkByName args.IfName (Except.ok contVeth)]
            ++ (expectIPv4Run contVeth before
            ++ [NetEvent.AddrList hostVeth Family.FAMILY_V6 (Except.ok []),
              NetEvent.LeaveNetNS])))) ∧
      ((∃ e, pre = [NetEvent.LinkByName hostVethName (Except.error e)]) ∨
       (∃ old, pre = [NetEvent.LinkByName hostVethName (Except.ok old),
          NetEvent.LinkDel old none])) := by
  obtain ⟨pre, hclean, hpre⟩ := DoNetworking.cleanUp_ok env hostVethName h0 hLinkDel
  have hpne : pre ≠ [] := by
    rcases hpre with ⟨e, he⟩ | ⟨old, he⟩ <;> rw [he] <;> simp
  obtain ⟨fd, hfd⟩ := hEnterNetNS args.Netns (h0 ++ pre)
  obtain ⟨hostVeth, hhost⟩ := hLinkByName hostVethName
    (pre ++ [NetEvent.EnterNetNS args.Netns (Except.ok fd),
      NetEvent.LinkAdd ⟨args.IfName, FlagUp, conf.MTU, hostVethName⟩ none]) (by simp)
  obtain ⟨contVeth, hcont⟩ := hLinkByName args.IfName
    (pre ++ [NetEvent.EnterNetNS args.Netns (Except.ok fd),
      NetEvent.LinkAdd ⟨args.IfName, FlagUp, conf.MTU, hostVethName⟩ none,
      NetEvent.LinkByName hostVethName (Except.ok hostVeth),
      NetEvent.LinkSetUp hostVeth none]) (by simp)
  have hloop := DoNetworking.loop_until_ipv6 env hostVeth contVeth args.IfName a6 rest ha6
    (hAddrList hostVeth) hRouteAdd hAddDefaultRoute hAddrAdd before false false
    (h0 ++ pre ++ [NetEvent.EnterNetNS args.Netns (Except.ok fd)] ++
      [NetEvent.LinkAdd ⟨args.IfName, FlagUp, conf.MTU, hostVethName⟩ none,
        NetEvent.LinkByName hostVethName (Except.ok hostVeth),
        NetEvent.LinkSetUp hostVeth none,
        NetEvent.LinkByName args.IfName (Except.ok contVeth)]) hbefore
  have hin : DoNetworking.inContainer env conf (some ⟨before ++ a6 :: rest⟩) hostVethName
      args.IfName fd (h0 ++ pre ++ [NetEvent.EnterNetNS args.Netns (Except.ok fd)]) =
      (Res.error (errorsNew "failed to get IPv6 addresses for host side of the veth pair"),
        h0 ++ pre ++ [NetEvent.EnterNetNS args.Netns (Except.ok fd)] ++
          [NetEvent.LinkAdd ⟨args.IfName, FlagUp, conf.MTU, hostVethName⟩ none,
            NetEvent.LinkByName hostVethName (Except.ok hostVeth),
            NetEvent.LinkSetUp hostVeth none,
            NetEvent.LinkByName args.IfName (Except.ok contVeth)] ++
          (expectIPv4Run contVeth before
            ++ [NetEvent.AddrList hostVeth Family.FAMILY_V6 (Except.ok [])])) := by
    rw [DoNetworking.inContainer_run env conf ⟨before ++ a6 :: rest⟩ hostVethName args.IfName fd
      _ hostVeth contVeth hLinkAdd hLinkSetUp (by simpa [List.append_assoc] using hhost)
      (by simpa [List.append_assoc] using hcont)]
    simp only [hloop]
  have hnamed := DoNetworking.named_inner_error env args conf (some ⟨before ++ a6 :: rest⟩)
    hostVethName h0 _ _ fd _ hclean hfd hin
  refine ⟨pre, fd, hostVeth, contVeth, ?_, hpre⟩
  simp only [DoNetworking, hslice, ← hname, hnamed]
  simp only [List.append_assoc, List.singleton_append, List.cons_append, List.nil_append]

/-- Claim C18 as the code has it, on a kernel where the host end lists no IPv6 address,
for the interface "lxceth0" and the list 10.0.5.9/32, fd00::9/128. -/
theorem DoNetworking_no_host_ipv6_address_witness :
    ∃ pre fd hostVeth contVeth,
      DoNetworking noIPv6NetEnv { IfName := "lxceth0", Netns := "/proc/42/ns/net" } { MTU := 1500 }
          (some ⟨[⟨"4", ⟨[10, 0, 5, 9], [255, 255, 255, 255]⟩⟩] ++
            ⟨"6", ⟨[253, 0, 0, 0, 0, 0, 0, 0, 0, 0, 0, 0, 0, 0, 0, 9], CIDRMask 128 128⟩⟩ :: []⟩)
          "" [] =
        (Res.ok ("", "",
            some (errorsNew "failed to get IPv6 addresses for host side of the veth pair")),
          [] ++ (pre ++ ([NetEvent.EnterNetNS "/proc/42/ns/net" (Except.ok fd),
            NetEvent.LinkAdd ⟨"lxceth0", FlagUp, 1500, "vcali0"⟩ none,
            NetEvent.LinkByName "vcali0" (Except.ok hostVeth),
            NetEvent.LinkSetUp hostVeth none,
            NetEvent.LinkByName "lxceth0" (Except.ok contVeth)]
            ++ (expectIPv4Run contVeth [⟨"4", ⟨[10, 0, 5, 9], [255, 255, 255, 255]⟩⟩]
            ++ [NetEvent.AddrList hostVeth Family.FAMILY_V6 (Except.ok []),
              NetEvent.LeaveNetNS])))) ∧
      ((∃ e, pre = [NetEvent.LinkByName "vcali0" (Except.error e)]) ∨
       (∃ old, pre = [NetEvent.LinkByName "vcali0" (Except.ok old),
          NetEvent.LinkDel old none])) :=
  DoNetworking_no_host_ipv6_address noIPv6NetEnv
    { IfName := "lxceth0", Netns := "/proc/42/ns/net" } { MTU := 1500 }
    [⟨"4", ⟨[10, 0, 5, 9], [255, 255, 255, 255]⟩⟩]
    ⟨"6", ⟨[253, 0, 0, 0, 0, 0, 0, 0, 0, 0, 0, 0, 0, 0, 0, 9], CIDRMask 128 128⟩⟩ []
    "" "0" "vcali0" [] (by decide) (by decide) (by decide) rfl
    (fun name l hl => ⟨⟨7, name, [2, 0, 0, 0, 0, 1]⟩, by simp [noIPv6NetEnv, sampleNetEnv, hl]⟩)
    (fun _ _ => rfl) (fun _ _ => ⟨5, rfl⟩) (fun _ _ => rfl) (fun _ _ => rfl) (fun _ _ => rfl)
    (fun _ _ _ => rfl) (fun _ _ _ => rfl) (fun _ _ => rfl)

end Calico
